import Mathlib

/-! Janusec application gateway: the CC (rate-limit) engine, the WAF matcher,
the handler of the gateway, the domain registry and the synchronisation settings.

A shallow embedding of `firewall/cc.go`, `firewall/firewall.go`,
`gateway/gateway.go`, `backend/domain.go` and `data/setting.go`.

Conventions of the embedding

* `sync.Map` values are finite maps, written as functions into `Option`
  (`none` = key absent).  `Load`, `LoadOrStore` and `Delete` become a lookup,
  a lookup with a default followed by `Function.update`, and an update to
  `none`.
* Go `int64` counters are mathematical integers (`Int`); the counters are
  only ever incremented by one or added to each other.
* Go `float64` quantities (`IntervalMilliSeconds`, `BlockSeconds`,
  `RemainSeconds`) are carried as the rational number they hold (`ℚ`); a field
  holds a number, not NaN or an infinity.  The arithmetic on them is that of
  float64: every quotient and difference is rounded by `roundFloat64` (binary64,
  round to nearest, ties to even).
* A failed type assertion on a `nil` interface (a Go panic) is `none`.
* `data.SHA256Hash` is a parameter `hash : String → String`.
-/

namespace Janusec

/-! ## Data model (package `models`, reconstructed from its uses) -/

/-- Policy actions, `models.PolicyAction`, carried as their integer codes. -/
abbrev PolicyAction := Int

/-- Code of `models.Action_Block_100`. -/
def Action_Block_100 : PolicyAction := 100

/-- Code of `models.Action_BypassAndLog_200`. -/
def Action_BypassAndLog_200 : PolicyAction := 200

/-- Code of `models.Action_CAPTCHA_300`. -/
def Action_CAPTCHA_300 : PolicyAction := 300

/-- Code of `models.Action_Pass_400`. -/
def Action_Pass_400 : PolicyAction := 400

/-- The record `models.CCPolicy`. -/
structure CCPolicy where
  AppID : Int
  IntervalMilliSeconds : ℚ
  MaxCount : Int
  BlockSeconds : ℚ
  Action : PolicyAction
  StatByURL : Bool
  StatByUserAgent : Bool
  StatByCookie : Bool
  IsEnabled : Bool
  deriving DecidableEq

/-- The record `models.ClientStat`: one bucket of the CC engine. -/
structure ClientStat where
  QuickCount : Int
  SlowCount : Int
  TimeFrameCount : Int
  IsBadIP : Bool
  RemainSeconds : ℚ
  deriving DecidableEq

/-- The parts of `*http.Request` that the firewall and the gateway read: the
URL (`URLPath`, `RawQuery`), the request line, the headers as looked up
(`UserAgent`, `Cookie`, `ContentType`, `Referer`) and as ranged over (`Header`,
`Cookies`, in iteration order), the parsed form `Form`, the content of
`r.Body` that has not been read yet, whether the request came over TLS
(`r.TLS != nil`), the peer address and the client-address headers. Fields that
a function does not read default to Go's zero values. -/
structure Request where
  URLPath : String
  UserAgent : String
  Cookie : String
  RawQuery : String := ""
  Method : String := ""
  RequestURI : String := ""
  Host : String := ""
  Proto : String := ""
  Referer : String := ""
  ContentType : String := ""
  Cookies : List (String × String) := []
  Header : List (String × List String) := []
  Form : List (String × List String) := []
  Body : String := ""
  TLS : Bool := false
  RemoteAddr : String := ""
  XForwardedFor : String := ""
  XRealIP : String := ""
  RealIP : String := ""
  deriving DecidableEq

/-- The values of `models.IPMethod`. -/
inductive IPMethod where
  | REMOTE_ADDR
  | X_FORWARDED_FOR
  | X_REAL_IP
  | REAL_IP
  deriving DecidableEq

/-- The parts of `models.Application` that the firewall and the gateway read. -/
structure Application where
  ID : Int
  ClientIPMethod : IPMethod := IPMethod.REMOTE_ADDR
  ShieldEnabled : Bool := false
  WAFEnabled : Bool := false
  RedirectHTTPS : Bool := false
  OAuthRequired : Bool := false
  SessionSeconds : Int := 0
  InternalScheme : String := ""
  deriving DecidableEq

/-- The inner `sync.Map` of `ccCounts`: clientID to bucket. -/
abbrev AppCCCount := String → Option ClientStat

/-- The global `ccCounts`: appID to the app's bucket map. -/
abbrev CCCounts := Int → Option AppCCCount

/-- The global `ccPolicies`: appID to policy, key 0 being the global policy. -/
abbrev CCPolicies := Int → Option CCPolicy

/-- A freshly allocated `&sync.Map{}`. -/
def emptyAppCCCount : AppCCCount := fun _ => none

/-- The bucket literal stored by `IsCCAttack` when the client has none. -/
def newClientStat : ClientStat :=
  { QuickCount := 0, SlowCount := 0, TimeFrameCount := 0, IsBadIP := false, RemainSeconds := 0 }

/-- The four results of `IsCCAttack`: isCC, policy, clientID, needLog. -/
structure Verdict where
  isCC : Bool
  ccPolicy : Option CCPolicy
  clientID : String
  needLog : Bool
  deriving DecidableEq

/-- The result `return false, nil, "", false`. -/
def passVerdict : Verdict :=
  { isCC := false, ccPolicy := none, clientID := "", needLog := false }

/-! ## `ClearCCStatByClientID` -/

/-- Embedding of `ClearCCStatByClientID`. -/
def ClearCCStatByClientID (ccCounts : CCCounts) (policyAppID : Int) (clientID : String) :
    CCCounts :=
  match ccCounts policyAppID with
  | some appCCCount => Function.update ccCounts policyAppID
      (some (Function.update appCCCount clientID none))
  | none => ccCounts

/-! ## The decay tick -/

/-- Rounding of a rational to the nearest integer, a tie going to the even
integer. -/
def roundHalfEven (x : ℚ) : Int :=
  let f := ⌊x⌋
  let r := x - f
  if r < 1 / 2 then f else if 1 / 2 < r then f + 1 else if f % 2 = 0 then f else f + 1

/-- The float64 (IEEE 754 binary64) that a real result is rounded to, round to
nearest, ties to even: with `2 ^ e ≤ |q| < 2 ^ (e + 1)`, the multiple of
`2 ^ (e - 52)` nearest to `q` (53 significant bits); below `2 ^ (-1022)` the
multiples of `2 ^ (-1074)` (subnormal numbers). The two zeros of float64 are not
told apart. A result beyond the largest float64 (an infinity in Go) is kept as
the rounded number: the code reads only the sign of such a result. -/
def roundFloat64 (q : ℚ) : ℚ :=
  if q = 0 then 0
  else
    let e := max (Int.log 2 |q|) (-1022)
    let quantum : ℚ := (2 : ℚ) ^ (e - 52)
    (roundHalfEven (q / quantum) : ℚ) * quantum

/-- Go's `x / y` on float64 values, for `y` not zero. -/
def float64Div (x y : ℚ) : ℚ := roundFloat64 (x / y)

/-- Go's `x - y` on float64 values. -/
def float64Sub (x y : ℚ) : ℚ := roundFloat64 (x - y)

/-- The callback passed to `appCCCount.Range` inside `CCAttackTick`, for one
bucket: `none` when the callback deletes the bucket, otherwise the bucket as the
callback leaves it. -/
def tickBucket (ccPolicy : CCPolicy) (stat : ClientStat) : Option ClientStat :=
  if stat.IsBadIP then
    let stat1 := { stat with
      RemainSeconds :=
        float64Sub stat.RemainSeconds (float64Div ccPolicy.IntervalMilliSeconds 1000) }
    if stat1.RemainSeconds ≤ 0 then none else some stat1
  else if stat.QuickCount ≥ ccPolicy.MaxCount then
    some { stat with QuickCount := 0, IsBadIP := true, RemainSeconds := ccPolicy.BlockSeconds }
  else if stat.SlowCount ≥ ccPolicy.MaxCount then
    some { stat with
      QuickCount := 0, SlowCount := 0, IsBadIP := true,
      RemainSeconds := ccPolicy.BlockSeconds }
  else
    let stat1 := { stat with TimeFrameCount := stat.TimeFrameCount + 1 }
    if stat1.TimeFrameCount ≥ 15 then none
    else some { stat1 with SlowCount := stat1.SlowCount + stat1.QuickCount, QuickCount := 0 }

/-- The `RemainSeconds` of a bad bucket that holds `remain`, after `n` decay
steps that keep it: each step subtracts the quotient
`IntervalMilliSeconds / 1000`, in float64. -/
def countdown (ccPolicy : CCPolicy) (remain : ℚ) : Nat → ℚ
  | 0 => remain
  | n + 1 =>
    float64Sub (countdown ccPolicy remain n) (float64Div ccPolicy.IntervalMilliSeconds 1000)

/-- One pass of `Range` over an app's bucket map: every bucket goes through the
callback independently of the others. -/
def tickAppCCCount (ccPolicy : CCPolicy) (appCCCount : AppCCCount) : AppCCCount :=
  fun clientID => (appCCCount clientID).bind (tickBucket ccPolicy)

/-- One iteration of the loop `for range ccTicker.C` of `CCAttackTick appID`,
run with the policy `ccPolicy` that `CCAttackTick` loaded on entry. -/
def CCAttackTickWith (ccPolicy : CCPolicy) (ccCounts : CCCounts) (appID : Int) : CCCounts :=
  let appCCCount := (ccCounts appID).getD emptyAppCCCount
  Function.update ccCounts appID (some (tickAppCCCount ccPolicy appCCCount))

/-- One decay step of `CCAttackTick appID`: the policy is loaded from
`ccPolicies` (a missing policy makes the type assertion panic), then one
iteration of the ticker loop runs. -/
def CCAttackTick (ccPolicies : CCPolicies) (ccCounts : CCCounts) (appID : Int) :
    Option CCCounts :=
  match ccPolicies appID with
  | none => none
  | some ccPolicy => some (CCAttackTickWith ccPolicy ccCounts appID)

/-! ## Policy lookup and the per-request update -/

/-- Embedding of `GetCCPolicyByAppID`: the app's own policy, else the global
one; `none` is the panic of the type assertion when neither exists. -/
def GetCCPolicyByAppID (ccPolicies : CCPolicies) (appID : Int) : Option CCPolicy :=
  match ccPolicies appID with
  | some ccPolicy => some ccPolicy
  | none => ccPolicies 0

/-- The string hashed into the clientID. -/
def preHashContent (ccPolicy : CCPolicy) (r : Request) (srcIP : String) : String :=
  let p0 := srcIP
  let p1 := if ccPolicy.StatByURL then p0 ++ r.URLPath else p0
  let p2 := if ccPolicy.StatByUserAgent then p1 ++ r.UserAgent else p1
  let p3 := if ccPolicy.StatByCookie then p2 ++ r.Cookie else p2
  p3

/-- The key of the outer map used by `IsCCAttack`. -/
def ccAppIDOf (ccPolicy : CCPolicy) (app : Application) : Int :=
  if ccPolicy.AppID = 0 then 0 else app.ID

/-- Embedding of `IsCCAttack`: the verdict and the new `ccCounts`. -/
def IsCCAttack (hash : String → String) (ccPolicies : CCPolicies) (ccCounts : CCCounts)
    (r : Request) (app : Application) (srcIP : String) : Option (Verdict × CCCounts) :=
  let isCC := false
  match GetCCPolicyByAppID ccPolicies app.ID with
  | none => none
  | some ccPolicy =>
    if !ccPolicy.IsEnabled then some (passVerdict, ccCounts)
    else if isCC then
      some ({ isCC := isCC, ccPolicy := some ccPolicy, clientID := hash srcIP,
              needLog := false }, ccCounts)
    else
      let ccAppID := ccAppIDOf ccPolicy app
      let appCCCount := (ccCounts ccAppID).getD emptyAppCCCount
      let clientID := hash (preHashContent ccPolicy r srcIP)
      let clientStat := (appCCCount clientID).getD newClientStat
      if clientStat.IsBadIP then
        if clientStat.QuickCount = 0 then
          some ({ isCC := true, ccPolicy := some ccPolicy, clientID := clientID,
                  needLog := true },
            Function.update ccCounts ccAppID (some (Function.update appCCCount clientID
              (some { clientStat with QuickCount := clientStat.QuickCount + 1 }))))
        else
          some ({ isCC := true, ccPolicy := some ccPolicy, clientID := clientID,
                  needLog := false },
            Function.update ccCounts ccAppID (some (Function.update appCCCount clientID
              (some clientStat))))
      else
        some (passVerdict,
          Function.update ccCounts ccAppID (some (Function.update appCCCount clientID
            (some { clientStat with QuickCount := clientStat.QuickCount + 1 }))))

/-- The bucket of `clientID` under outer key `appID`, if any. -/
def bucket (ccCounts : CCCounts) (appID : Int) (clientID : String) : Option ClientStat :=
  (ccCounts appID).bind (fun appCCCount => appCCCount clientID)

/-- What one `IsCCAttack` call under an enabled policy does to the client's
bucket `stat` (the loaded or freshly stored one). -/
def requestBucket (stat : ClientStat) : ClientStat :=
  if stat.IsBadIP then
    if stat.QuickCount = 0 then { stat with QuickCount := stat.QuickCount + 1 } else stat
  else { stat with QuickCount := stat.QuickCount + 1 }

/-- What one `IsCCAttack` call under the enabled policy `ccPolicy` returns when
the client's bucket is `stat`. -/
def requestVerdict (ccPolicy : CCPolicy) (clientID : String) (stat : ClientStat) : Verdict :=
  if stat.IsBadIP then
    { isCC := true, ccPolicy := some ccPolicy, clientID := clientID,
      needLog := decide (stat.QuickCount = 0) }
  else passVerdict

/-! ## Traces: interleavings of requests and decay steps

Requests and decay steps touch `ccCounts` one at a time; an interleaving is a
list of events, executed from left to right against a fixed policy table. -/

/-- One atomic event: a call of `IsCCAttack`, or one decay step of the ticker
of `appID`. -/
inductive Event where
  | request (r : Request) (app : Application) (srcIP : String)
  | tick (appID : Int)
  deriving DecidableEq

/-- Execute one event: the verdict (for a request) and the new `ccCounts`. -/
def step (hash : String → String) (ccPolicies : CCPolicies) (ccCounts : CCCounts) :
    Event → Option (Option Verdict × CCCounts)
  | Event.request r app srcIP =>
    match IsCCAttack hash ccPolicies ccCounts r app srcIP with
    | none => none
    | some (v, cc) => some (some v, cc)
  | Event.tick appID =>
    match CCAttackTick ccPolicies ccCounts appID with
    | none => none
    | some cc => some (none, cc)

/-- Execute a list of events: the outputs, in order, and the final `ccCounts`. -/
def run (hash : String → String) (ccPolicies : CCPolicies) :
    CCCounts → List Event → Option (List (Option Verdict) × CCCounts)
  | ccCounts, [] => some ([], ccCounts)
  | ccCounts, e :: es =>
    match step hash ccPolicies ccCounts e with
    | none => none
    | some (v, cc1) =>
      match run hash ccPolicies cc1 es with
      | none => none
      | some (vs, cc2) => some (v :: vs, cc2)

/-- The outputs of a trace. -/
def outputs (hash : String → String) (ccPolicies : CCPolicies) (ccCounts : CCCounts)
    (es : List Event) : Option (List (Option Verdict)) :=
  (run hash ccPolicies ccCounts es).map Prod.fst

/-- The bucket of a client after a trace. -/
def bucketAfter (hash : String → String) (ccPolicies : CCPolicies) (ccCounts : CCCounts)
    (es : List Event) (appID : Int) (clientID : String) : Option (Option ClientStat) :=
  (run hash ccPolicies ccCounts es).map (fun p => bucket p.2 appID clientID)

/-- An event that cannot panic: the policy it loads exists. -/
def Event.ok (ccPolicies : CCPolicies) : Event → Bool
  | Event.request _ app _ => (GetCCPolicyByAppID ccPolicies app.ID).isSome
  | Event.tick appID => (ccPolicies appID).isSome

/-- The bucket `(ccAppID, clientID)` that a request reads and updates, if its
effective policy is enabled. -/
def bucketKey (hash : String → String) (ccPolicies : CCPolicies) (r : Request)
    (app : Application) (srcIP : String) : Option (Int × String) :=
  match GetCCPolicyByAppID ccPolicies app.ID with
  | none => none
  | some ccPolicy =>
    if ccPolicy.IsEnabled then
      some (ccAppIDOf ccPolicy app, hash (preHashContent ccPolicy r srcIP))
    else none

/-- Whether an event is a request of the client of bucket `(appID, clientID)`. -/
def Event.hits (hash : String → String) (ccPolicies : CCPolicies) (appID : Int)
    (clientID : String) : Event → Bool
  | Event.request r app srcIP =>
    decide (bucketKey hash ccPolicies r app srcIP = some (appID, clientID))
  | Event.tick _ => false

/-- The number of decay steps of the ticker of `appID` in a trace. -/
def countTicks (appID : Int) : List Event → Nat
  | [] => 0
  | Event.tick a :: es => (if a = appID then 1 else 0) + countTicks appID es
  | Event.request _ _ _ :: es => countTicks appID es

/-- Every policy is stored under its own `AppID`, as `InitCCPolicy`
(`ccPolicies.Store(ccPolicy.AppID, ccPolicy)`) and `UpdateCCPolicy` store it. -/
def WellKeyed (ccPolicies : CCPolicies) : Prop :=
  ∀ k p, ccPolicies k = some p → p.AppID = k

/-- Whether a bucket is absent or not bad. -/
def notBad : Option ClientStat → Bool
  | none => true
  | some stat => !stat.IsBadIP

/-- The bucket `(appID, clientID)` is not bad in any state that the trace goes
through, the first and the last included: it is never promoted. -/
def neverBadAlong (hash : String → String) (ccPolicies : CCPolicies) (appID : Int)
    (clientID : String) : CCCounts → List Event → Bool
  | ccCounts, [] => notBad (bucket ccCounts appID clientID)
  | ccCounts, e :: es =>
    notBad (bucket ccCounts appID clientID) &&
      match step hash ccPolicies ccCounts e with
      | none => true
      | some (_, cc1) => neverBadAlong hash ccPolicies appID clientID cc1 es

/-- What an event does to the bucket `(appID, clientID)`. -/
def localStep (hash : String → String) (ccPolicies : CCPolicies) (appID : Int)
    (clientID : String) (ob : Option ClientStat) : Event → Option ClientStat
  | Event.request r app srcIP =>
    if bucketKey hash ccPolicies r app srcIP = some (appID, clientID) then
      some (requestBucket (ob.getD newClientStat))
    else ob
  | Event.tick a =>
    if a = appID then
      match ccPolicies appID with
      | some ccPolicy => ob.bind (tickBucket ccPolicy)
      | none => ob
    else ob

/-! ## Concrete data used to exercise the theorems -/

/-- The global policy that `InitCCPolicy` inserts when the store has none:
`InsertCCPolicy(0, 100, 6, 900, Action_Block_100, true, false, false, true)`. -/
def defaultGlobalPolicy : CCPolicy :=
  { AppID := 0, IntervalMilliSeconds := 100, MaxCount := 6, BlockSeconds := 900,
    Action := Action_Block_100, StatByURL := true, StatByUserAgent := false,
    StatByCookie := false, IsEnabled := true }

/-- The policy of scenario 2: app 7, three requests per second, five seconds of block. -/
def app7Policy : CCPolicy :=
  { AppID := 7, IntervalMilliSeconds := 1000, MaxCount := 3, BlockSeconds := 5,
    Action := Action_Block_100, StatByURL := false, StatByUserAgent := false,
    StatByCookie := false, IsEnabled := true }

/-- A lenient policy for app 9: a hundred requests per second. -/
def app9Policy : CCPolicy :=
  { app7Policy with AppID := 9, MaxCount := 100 }

/-- A disabled policy for app 8. -/
def app8Policy : CCPolicy :=
  { app7Policy with AppID := 8, IsEnabled := false }

/-- A policy table: the global default, app 7 and app 8. -/
def demoPolicies : CCPolicies := fun appID =>
  if appID = 0 then some defaultGlobalPolicy
  else if appID = 7 then some app7Policy
  else if appID = 8 then some app8Policy
  else if appID = 9 then some app9Policy
  else none

/-- An empty `ccCounts`. -/
def noCounts : CCCounts := fun _ => none

/-- A `ccCounts` holding exactly one bucket, `stat`, for client `clientID` of app `appID`. -/
def oneBucket (appID : Int) (clientID : String) (stat : ClientStat) : CCCounts :=
  Function.update noCounts appID (some (Function.update emptyAppCCCount clientID (some stat)))

/-- A GET of `/` without User-Agent or Cookie. -/
def demoRequest : Request := { URLPath := "/", UserAgent := "", Cookie := "" }

/-- Application 7. -/
def app7 : Application := { ID := 7 }

/-- Application 9. -/
def app9 : Application := { ID := 9 }

/-- Application 8. -/
def app8 : Application := { ID := 8 }

/-- The policy of scenario 2 with arbitrary fingerprint flags. -/
def scenario2Policy (u a c : Bool) : CCPolicy :=
  { AppID := 7, IntervalMilliSeconds := 1000, MaxCount := 3, BlockSeconds := 5,
    Action := Action_Block_100, StatByURL := u, StatByUserAgent := a,
    StatByCookie := c, IsEnabled := true }

/-- Four times the event `e`, with one decay step of app 7 put before the call
of index `k` (after the last call for `k = 4`), or no decay step at all. -/
def fourCalls (e : Event) : Option (Fin 5) → List Event
  | none => List.replicate 4 e
  | some k => (List.replicate 4 e).insertIdx k.val (Event.tick 7)

/-- One request of client 1.2.3.4 to app 9 in every interval, fifteen intervals long. -/
def busyTrace : List Event :=
  (List.replicate 15 [Event.request demoRequest app9 "1.2.3.4", Event.tick 9]).flatten

/-- A request of client 1.2.3.4 to app 7. -/
def request7 : Event := Event.request demoRequest app7 "1.2.3.4"

/-- Client 1.2.3.4 of app 7 with three requests counted in the current interval. -/
def atThreshold : CCCounts := oneBucket 7 "1.2.3.4" ⟨3, 0, 0, false, 0⟩

/-- The events of `busyTrace` between the creating request and the last decay step. -/
def busyMiddle : List Event := (busyTrace.drop 1).take 28

/-- Application 5, which has no policy of its own in `demoPolicies`. -/
def app5 : Application := { ID := 5 }

/-! ## Administration of the CC policies -/

/-- The parts of `models.AuthUser` that the policy administration reads. -/
structure AuthUser where
  Username : String
  IsSuperAdmin : Bool
  deriving DecidableEq

/-- The global `ccTickers`: appID to the stored `*time.Ticker`. An entry is
`some none` for a nil pointer and `some (some running)` for a ticker that is
running (`true`) or has been stopped (`false`). -/
abbrev CCTickers := Int → Option (Option Bool)

/-- The state that `DeleteCCPolicyByAppID` can touch: the in-memory policy table,
the policies kept by the data-access layer (`Store` is whatever the DAL holds),
the tickers, the operation log and `data.FirewallLastModified`. -/
structure CCAdmin (Store : Type) where
  ccPolicies : CCPolicies
  store : Store
  ccTickers : CCTickers
  operationLog : List (String × String × String × String)
  FirewallLastModified : Int

/-- Embedding of `DeleteCCPolicyByAppID`: the returned error (`none` for `nil`)
and the new state. `dalDeleteCCPolicy` stands for `data.DAL.DeleteCCPolicy`,
whose error is only printed; `now` is the clock value that
`data.UpdateFirewallLastModified` stores. -/
def DeleteCCPolicyByAppID {Store : Type} (dalDeleteCCPolicy : Store → Int → Store × Bool)
    (now : Int) (st : CCAdmin Store) (appID : Int) (clientIP : String) (authUser : AuthUser)
    (adminRequired : Bool) : Option String × CCAdmin Store :=
  if adminRequired && !authUser.IsSuperAdmin then
    (some "only super admin can delete CC policy", st)
  else if appID = 0 then
    (some "global CC policy cannot be deleted", st)
  else
    let store1 := (dalDeleteCCPolicy st.store appID).1
    let ccPolicies1 := Function.update st.ccPolicies appID none
    let ccTickers1 :=
      match st.ccTickers appID with
      | some (some _) => Function.update st.ccTickers appID (some (some false))
      | _ => st.ccTickers
    (none,
      { ccPolicies := ccPolicies1, store := store1, ccTickers := ccTickers1,
        operationLog := st.operationLog ++
          [(clientIP, authUser.Username, "Delete CC Policy by AppID", toString appID)],
        FirewallLastModified := now })

/-- One call of `DeleteCCPolicyByAppID`, with the clock value it sees. -/
structure DeleteCall where
  appID : Int
  clientIP : String
  authUser : AuthUser
  adminRequired : Bool
  now : Int

/-- A sequence of `DeleteCCPolicyByAppID` calls, run from left to right. -/
def runDeletes {Store : Type} (dalDeleteCCPolicy : Store → Int → Store × Bool) :
    CCAdmin Store → List DeleteCall → CCAdmin Store
  | st, [] => st
  | st, c :: cs =>
    runDeletes dalDeleteCCPolicy
      (DeleteCCPolicyByAppID dalDeleteCCPolicy c.now st c.appID c.clientIP c.authUser
        c.adminRequired).2 cs

/-! ## `firewall.go`: static resources and raw values

Go strings are handled through their characters; the functions below only
look for ASCII characters, which never occur inside a multi-byte character. -/

/-- The scan of `filepath.Ext`, from the last character backwards: `rev` is what
remains to be scanned (reversed), `acc` what has been passed. -/
def filepathExtAux : List Char → List Char → List Char
  | [], _ => []
  | c :: rev, acc =>
    if c = '/' then []
    else if c = '.' then c :: acc
    else filepathExtAux rev (c :: acc)

/-- Go's `filepath.Ext` (Unix): the suffix beginning at the final dot in the
final element of the path, empty if there is no dot. -/
def filepathExt (path : String) : String :=
  ⟨filepathExtAux path.data.reverse []⟩

/-- Go's `strings.Contains(s, c)` for a one-character substring `c`. -/
def stringsContainsChar (s : String) (c : Char) : Bool :=
  s.data.contains c

/-- Go's `strings.HasSuffix`. -/
def stringsHasSuffix (s suffix : String) : Bool :=
  suffix.data.isSuffixOf s.data

/-- The variable `dynamicSuffix`. -/
def dynamicSuffix : List String :=
  [".html", ".htm", ".shtml", ".php", ".jsp", ".aspx", ".asp", ".do", ".cgi", ".cfm"]

/-- Embedding of `IsStaticResource`. -/
def IsStaticResource (r : Request) : Bool :=
  if r.Method ≠ "GET" then false
  else if stringsContainsChar r.RequestURI '?' then false
  else if !stringsContainsChar r.RequestURI '.' then false
  else if filepathExt r.RequestURI = "" then false
  else if dynamicSuffix.any (fun suffix => stringsHasSuffix r.RequestURI suffix) then false
  else true

/-- The request `GET /.svn/entries`, the example of the source's own comment. -/
def svnEntriesRequest : Request :=
  { URLPath := "/.svn/entries", UserAgent := "", Cookie := "", Method := "GET",
    RequestURI := "/.svn/entries" }

/-- The scan of Go's `strings.Replace(s, old, new, -1)` for a non-empty `old`:
from left to right, every occurrence of `old` that does not overlap an earlier
one is replaced by `new`. The counter is the number of characters of a matched
occurrence still to be skipped. -/
def stringsReplaceAux (old new : List Char) : Nat → List Char → List Char
  | _, [] => []
  | skip + 1, _ :: cs => stringsReplaceAux old new skip cs
  | 0, c :: cs =>
    if old.isPrefixOf (c :: cs) then new ++ stringsReplaceAux old new (old.length - 1) cs
    else c :: stringsReplaceAux old new 0 cs

/-- Go's `strings.Replace(s, old, new, -1)` for a non-empty `old`. -/
def stringsReplaceAll (s old new : String) : String :=
  ⟨stringsReplaceAux old.data new.data 0 s.data⟩

/-- The call `regexp.MustCompile("%$").ReplaceAllString(s, "%25")`: a `%` at the
very end of the text is replaced by `%25`. -/
def replaceTrailingPercent (s : String) : String :=
  if s.data.getLast? = some '%' then ⟨s.data.dropLast ++ "%25".data⟩ else s

/-- The value of a hexadecimal digit (Go's `ishex` and `unhex`). -/
def unhex (c : Char) : Option Nat :=
  if '0' ≤ c ∧ c ≤ '9' then some (c.toNat - '0'.toNat)
  else if 'a' ≤ c ∧ c ≤ 'f' then some (c.toNat - 'a'.toNat + 10)
  else if 'A' ≤ c ∧ c ≤ 'F' then some (c.toNat - 'A'.toNat + 10)
  else none

/-- The decoding of Go's `url.QueryUnescape`: `%XX` becomes the byte `XX` (written
as the character of that code), `+` becomes a space; `none` is the
`EscapeError` raised by a `%` that is not followed by two hexadecimal digits. -/
def queryUnescapeAux : List Char → Option (List Char)
  | [] => some []
  | c :: cs =>
    if c = '%' then
      match cs with
      | a :: b :: rest =>
        match unhex a, unhex b with
        | some x, some y => (queryUnescapeAux rest).map (fun l => Char.ofNat (16 * x + y) :: l)
        | _, _ => none
      | _ => none
    else if c = '+' then (queryUnescapeAux cs).map (fun l => ' ' :: l)
    else (queryUnescapeAux cs).map (fun l => c :: l)

/-- Go's `url.QueryUnescape`, `none` standing for a returned error. -/
def urlQueryUnescape (s : String) : Option String :=
  (queryUnescapeAux s.data).map String.mk

/-- The escaping step of `UnEscapeRawValue`: its three `strings.Replace` calls
and the replacement of a trailing `%`. -/
def escapeRawValue (rawQuery : String) : String :=
  let q1 := stringsReplaceAll rawQuery "%%" "%25%"
  let q2 := stringsReplaceAll q1 "%'" "%25'"
  let q3 := stringsReplaceAll q2 "%\"" "%25\""
  replaceTrailingPercent q3

/-- Embedding of `UnEscapeRawValue`. When `url.QueryUnescape` fails it returns
the empty string with the error, which is only printed. `PreProcessString` is a
function of the `firewall` package that is not among the sources. -/
def UnEscapeRawValue (PreProcessString : String → String) (rawQuery : String) : String :=
  let decodeQuery := (urlQueryUnescape (escapeRawValue rawQuery)).getD ""
  PreProcessString decodeQuery

/-! ## `firewall.go`: the WAF matcher -/

/-- The check points `models.ChkPoint...` that tell `IsMatchGroupPolicy` which
part of a request or response a value comes from. -/
inductive ChkPoint where
  | Host | IPAddress | Method | URLPath | URLQuery | FileExt | UploadFileExt
  | GetPostKey | GetPostValue | CookieKey | CookieValue | UserAgent | ContentType
  | HeaderKey | HeaderValue | Referer | Proto
  | ResponseStatusCode | ResponseHeaderKey | ResponseHeaderValue | ResponseBody
  deriving DecidableEq

/-- The parts of `models.GroupPolicy` that the callers of the matcher read. -/
structure GroupPolicy where
  ID : Int
  AppID : Int
  VulnID : Int
  Action : PolicyAction
  IsEnabled : Bool
  deriving DecidableEq

/-- The type of `IsMatchGroupPolicy` (a function of the `firewall` package that
is not among the sources), as its callers use it: from `appID`, the value, the
check point, the designated header key and the `needDecode` flag to the policy
that is hit, `none` standing for `(false, nil)`. The per-request cache `ctxMap`
that the function also receives is left out. -/
abbrev MatchGroupPolicy := Int → String → ChkPoint → String → Bool → Option GroupPolicy

/-- A decoded JSON value, as `json.Unmarshal` stores it in an `interface{}`:
`nil`, `bool`, `float64`, `string`, `map[string]interface{}` (its entries in the
order in which `range` visits them) and `[]interface{}`. -/
inductive JSONValue where
  | null
  | bool (b : Bool)
  | number (x : ℚ)
  | string (s : String)
  | object (fields : List (String × JSONValue))
  | array (items : List JSONValue)

mutual
/-- Embedding of `IsJSONValueHitPolicy`. -/
def IsJSONValueHitPolicy (isMatchGroupPolicy : MatchGroupPolicy) (appID : Int) :
    JSONValue → Option GroupPolicy
  | JSONValue.null => none
  | JSONValue.string value2 =>
    isMatchGroupPolicy appID value2 ChkPoint.GetPostValue "" true
  | JSONValue.object value2 => IsJSONValueHitPolicy.rangeMap isMatchGroupPolicy appID value2
  | JSONValue.array value2 => IsJSONValueHitPolicy.rangeSlice isMatchGroupPolicy appID value2
  | JSONValue.bool _ => none
  | JSONValue.number _ => none
/-- The loop `for _, subValue := range value2` over a map. -/
def IsJSONValueHitPolicy.rangeMap (isMatchGroupPolicy : MatchGroupPolicy) (appID : Int) :
    List (String × JSONValue) → Option GroupPolicy
  | [] => none
  | (_, subValue) :: rest =>
    match IsJSONValueHitPolicy isMatchGroupPolicy appID subValue with
    | some policy => some policy
    | none => IsJSONValueHitPolicy.rangeMap isMatchGroupPolicy appID rest
/-- The loop `for _, subValue := range value2` over a slice. -/
def IsJSONValueHitPolicy.rangeSlice (isMatchGroupPolicy : MatchGroupPolicy) (appID : Int) :
    List JSONValue → Option GroupPolicy
  | [] => none
  | subValue :: rest =>
    match IsJSONValueHitPolicy isMatchGroupPolicy appID subValue with
    | some policy => some policy
    | none => IsJSONValueHitPolicy.rangeSlice isMatchGroupPolicy appID rest
end

mutual
/-- The string leaves of a JSON value, in the order of the traversal: the
strings found at any depth inside objects and arrays; null, numbers, booleans
and object keys contribute nothing. -/
def stringLeaves : JSONValue → List String
  | JSONValue.string s => [s]
  | JSONValue.object fields => stringLeaves.ofFields fields
  | JSONValue.array items => stringLeaves.ofItems items
  | JSONValue.null => []
  | JSONValue.bool _ => []
  | JSONValue.number _ => []
/-- The string leaves of the values of an object. -/
def stringLeaves.ofFields : List (String × JSONValue) → List String
  | [] => []
  | (_, v) :: rest => stringLeaves v ++ stringLeaves.ofFields rest
/-- The string leaves of the items of an array. -/
def stringLeaves.ofItems : List JSONValue → List String
  | [] => []
  | v :: rest => stringLeaves v ++ stringLeaves.ofItems rest
end

/-- A policy with action Block. -/
def blockPolicy : GroupPolicy :=
  { ID := 1, AppID := 0, VulnID := 1, Action := Action_Block_100, IsEnabled := true }

/-- The `IsMatchGroupPolicy` of a policy table holding one policy with a single
check: the policy is hit by the values of check point `chkPoint` that satisfy
`pattern`, and by nothing else. -/
def singleCheck (chkPoint : ChkPoint) (pattern : String → Bool) (policy : GroupPolicy) :
    MatchGroupPolicy :=
  fun _ value chk _ _ => if chk = chkPoint ∧ pattern value = true then some policy else none

/-- The JSON document `{"user": {"name": "bob", "tags": ["a", "<script>"]}, "age": 3}`. -/
def demoJSON : JSONValue :=
  JSONValue.object
    [("user", JSONValue.object
        [("name", JSONValue.string "bob"),
         ("tags", JSONValue.array [JSONValue.string "a", JSONValue.string "<script>"])]),
     ("age", JSONValue.number 3)]

/-- Go's `strings.HasPrefix`. -/
def stringsHasPrefix (s pre : String) : Bool :=
  pre.data.isPrefixOf s.data

/-- What `r.ParseMultipartForm(1024)` leaves behind: whether `r.MultipartForm` is
set, the file names of `r.MultipartForm.File` per form field (in `range` order),
`r.Form`, and the part of `r.Body` that it has not read. -/
structure MultipartParse where
  ok : Bool
  files : List (String × List String)
  form : List (String × List String)
  rest : String

/-- The library functions that `IsRequestHitPolicy` calls on the request, and
the repository's `IsMatch` on the one pattern it is called with. -/
structure WAFParsers where
  /-- Go's `mime.ParseMediaType`: the media type and the `boundary` parameter. -/
  parseMediaType : String → String × String
  /-- Go's `r.ParseMultipartForm(1024)`. -/
  parseMultipartForm : Request → MultipartParse
  /-- The contents of the parts that `multipart.NewReader(body, boundary)` yields
  until `io.EOF`. -/
  multipartParts : String → String → List String
  /-- Go's `json.Unmarshal` into an `interface{}`, `null` when it fails. -/
  jsonUnmarshal : String → JSONValue
  /-- Go's `r.ParseForm()`: `r.Form` and the unread part of `r.Body` afterwards. -/
  parseForm : Request → List (String × List String) × String
  /-- The repository's `IsMatch` on the pattern of one to five digits, true when it reports a
  match and no error. -/
  isDigits : String → Bool

/-- The checks of `IsRequestHitPolicy` that come before the body is read: Host,
IPAddress, Method, URLPath, URLQuery and FileExt. -/
def IsRequestHitPolicy.beforeBody (isMatchGroupPolicy : MatchGroupPolicy) (r : Request)
    (appID : Int) (srcIP : String) : Option GroupPolicy :=
  isMatchGroupPolicy appID r.Host ChkPoint.Host "" false <|>
  isMatchGroupPolicy appID srcIP ChkPoint.IPAddress "" false <|>
  isMatchGroupPolicy appID r.Method ChkPoint.Method "" false <|>
  isMatchGroupPolicy appID r.URLPath ChkPoint.URLPath "" false <|>
  (if r.RawQuery.length > 0 then
    isMatchGroupPolicy appID r.RawQuery ChkPoint.URLQuery "" true else none) <|>
  (if filepathExt r.URLPath ≠ "" then
    isMatchGroupPolicy appID (filepathExt r.URLPath) ChkPoint.FileExt "" false else none)

/-- The checks of the multipart branch: the extension of every uploaded file,
then the content of every part. -/
def IsRequestHitPolicy.multipart (env : WAFParsers) (isMatchGroupPolicy : MatchGroupPolicy)
    (appID : Int) (files : List (String × List String)) (bodyBuf boundary : String) :
    Option GroupPolicy :=
  files.findSome? (fun filesHeader =>
    filesHeader.2.findSome? (fun filename =>
      isMatchGroupPolicy appID (filepathExt filename) ChkPoint.UploadFileExt "" false)) <|>
  (env.multipartParts bodyBuf boundary).findSome? (fun partContent =>
    isMatchGroupPolicy appID partContent ChkPoint.GetPostValue "" true)

/-- The checks of `IsRequestHitPolicy` that come after the body has been put
back: the form parameters, Referer, the cookies, User-Agent, the media type, the
headers, and the last step, commented `ChkPoint_Proto` in the source, which
passes `r.Proto` with `models.ChkPointUserAgent`. -/
def IsRequestHitPolicy.afterBody (env : WAFParsers) (isMatchGroupPolicy : MatchGroupPolicy)
    (r : Request) (mediaType : String) (appID : Int) : Option GroupPolicy :=
  r.Form.findSome? (fun param =>
    isMatchGroupPolicy appID param.1 ChkPoint.GetPostKey "" false <|>
    param.2.findSome? (fun value =>
      if env.isDigits value then none
      else isMatchGroupPolicy appID value ChkPoint.GetPostValue "" true)) <|>
  isMatchGroupPolicy appID r.Referer ChkPoint.Referer "" false <|>
  r.Cookies.findSome? (fun cookie =>
    isMatchGroupPolicy appID cookie.1 ChkPoint.CookieKey "" false <|>
    isMatchGroupPolicy appID cookie.2 ChkPoint.CookieValue "" true) <|>
  isMatchGroupPolicy appID r.UserAgent ChkPoint.UserAgent "" false <|>
  isMatchGroupPolicy appID mediaType ChkPoint.ContentType "" false <|>
  r.Header.findSome? (fun header =>
    isMatchGroupPolicy appID header.1 ChkPoint.HeaderKey "" false <|>
    header.2.findSome? (fun headerValue =>
      isMatchGroupPolicy appID headerValue ChkPoint.HeaderValue header.1 false)) <|>
  isMatchGroupPolicy appID r.Proto ChkPoint.UserAgent "" false

/-- The end of `IsRequestHitPolicy`, from `params := r.Form` on: the body is put
back (`r.Body = ioutil.NopCloser(bytes.NewBuffer(bodyBuf))`) and the remaining
checks run. -/
def IsRequestHitPolicy.finish (env : WAFParsers) (isMatchGroupPolicy : MatchGroupPolicy)
    (r : Request) (bodyBuf mediaType : String) (appID : Int) : Option GroupPolicy × Request :=
  let r3 := { r with Body := bodyBuf }
  (IsRequestHitPolicy.afterBody env isMatchGroupPolicy r3 mediaType appID, r3)

/-- Embedding of `IsRequestHitPolicy`: the policy that is hit (`none` for
`(false, nil)`) and the request as the call leaves it (`Body`, `Form`). -/
def IsRequestHitPolicy (env : WAFParsers) (isMatchGroupPolicy : MatchGroupPolicy)
    (r : Request) (appID : Int) (srcIP : String) : Option GroupPolicy × Request :=
  match IsRequestHitPolicy.beforeBody isMatchGroupPolicy r appID srcIP with
  | some policy => (some policy, r)
  | none =>
    let bodyBuf := r.Body
    let r1 := { r with Body := bodyBuf }
    let mediaType := (env.parseMediaType r1.ContentType).1
    let boundary := (env.parseMediaType r1.ContentType).2
    if stringsHasPrefix mediaType "multipart/form-data" then
      let parsed := env.parseMultipartForm r1
      let r2 := { r1 with Body := parsed.rest, Form := parsed.form }
      if parsed.ok then
        match IsRequestHitPolicy.multipart env isMatchGroupPolicy appID parsed.files
            bodyBuf boundary with
        | some policy => (some policy, r2)
        | none => IsRequestHitPolicy.finish env isMatchGroupPolicy r2 bodyBuf mediaType appID
      else IsRequestHitPolicy.finish env isMatchGroupPolicy r2 bodyBuf mediaType appID
    else if stringsHasPrefix mediaType "application/json" then
      if bodyBuf.length > 0 then
        match IsJSONValueHitPolicy isMatchGroupPolicy appID (env.jsonUnmarshal bodyBuf) with
        | some policy => (some policy, r1)
        | none => IsRequestHitPolicy.finish env isMatchGroupPolicy r1 bodyBuf mediaType appID
      else IsRequestHitPolicy.finish env isMatchGroupPolicy r1 bodyBuf mediaType appID
    else
      let r2 := { r1 with Form := (env.parseForm r1).1, Body := (env.parseForm r1).2 }
      IsRequestHitPolicy.finish env isMatchGroupPolicy r2 bodyBuf mediaType appID

/-- A policy with action BypassAndLog. -/
def bypassPolicy : GroupPolicy :=
  { ID := 2, AppID := 0, VulnID := 2, Action := Action_BypassAndLog_200, IsEnabled := true }

/-- Parsers for the examples: the Content-Type header is taken as the media type
with boundary `X`; `ParseMultipartForm` reads the body to its end and finds the
uploaded file `shell.php`; nothing else is parsed. -/
def demoParsers : WAFParsers :=
  { parseMediaType := fun contentType => (contentType, "X"),
    parseMultipartForm := fun _ =>
      { ok := true, files := [("upload", ["shell.php"])], form := [], rest := "" },
    multipartParts := fun _ _ => [],
    jsonUnmarshal := fun _ => JSONValue.null,
    parseForm := fun r => (r.Form, ""),
    isDigits := fun _ => false }

/-- A multipart upload of `shell.php`. -/
def uploadRequest : Request :=
  { URLPath := "/upload", UserAgent := "curl/8.0", Cookie := "", Method := "POST",
    RequestURI := "/upload", Host := "a.example", Proto := "HTTP/1.1",
    ContentType := "multipart/form-data",
    Body := "--X\r\nContent-Disposition: form-data; name=\"upload\"; filename=\"shell.php\"\r\n\r\n<?php ?>\r\n--X--\r\n" }

/-- A plain `GET /` over HTTP/1.1 sent by curl. -/
def curlRequest : Request :=
  { URLPath := "/", UserAgent := "curl/8.0", Cookie := "", Method := "GET",
    RequestURI := "/", Host := "a.example", Proto := "HTTP/1.1" }

/-! ## `gateway.go`: the security gates of `ReverseHandlerFunc`

The part of `ReverseHandlerFunc` from the IP policy to the WAF check. What the
handler does to the outside is recorded as the list of calls it makes, in
program order; a call launched with `go` is recorded where it is launched. -/

/-- The parts of `models.IPPolicy` that the gateway reads. -/
structure IPPolicy where
  IsAllow : Bool
  ApplyToCC : Bool
  deriving DecidableEq

/-- The record `models.HitInfo`; fields left out of a literal have Go's zero
values. -/
structure HitInfo where
  TypeID : Int
  PolicyID : Int
  VulnName : String
  Action : PolicyAction := 0
  ClientID : String := ""
  TargetURL : String := ""
  BlockTime : Int := 0
  deriving DecidableEq

/-- The calls through which the handler acts. -/
inductive Call where
  | IsCCAttack (srcIP : String)
  | IsRequestHitPolicy (appID : Int) (srcIP : String)
  | AddIP2NFTables (ip : String) (blockSeconds : ℚ)
  | LogCCRequest (appID : Int) (srcIP : String) (ccPolicy : CCPolicy)
  | LogGroupHitRequest (appID : Int) (srcIP : String) (policy : GroupPolicy)
  | GenerateBlockPage (hitInfo : HitInfo)
  | GenerateShieldPage (urlPath : String)
  | captchaHitInfoStore (clientID : String) (hitInfo : HitInfo)
  | Redirect (url : String) (code : Nat)
  | ServeFile (name : String)
  | FileServer (root : String)
  | Write (content : String)
  | SessionSave (maxAge : Int)
  deriving DecidableEq

/-- What the security gates read from collaborators that are not among the
sources. -/
structure GatewayEnv where
  /-- The function `firewall.GetIPPolicyByIPAddr`. -/
  GetIPPolicyByIPAddr : String → Option IPPolicy
  /-- Whether the session of the request holds a `shldtoken`. -/
  hasShieldToken : Request → Bool
  /-- The setting `data.NodeSetting.SkipSEEnabled`. -/
  SkipSEEnabled : Bool
  /-- The function `IsSearchEngine`, on the User-Agent. -/
  IsSearchEngine : String → Bool
  /-- The function `IsCrawler`. -/
  IsCrawler : Request → String → Bool
  /-- The map `firewall.VulnMap`. -/
  VulnMap : Int → Option String
  /-- The constant `CaptchaEntrance`. -/
  CaptchaEntrance : String

/-- The constant `http.StatusTemporaryRedirect`. -/
def StatusTemporaryRedirect : Nat := 307

/-- Embedding of `GenClientID`. -/
def GenClientID (hash : String → String) (r : Request) (_appID : Int) (srcIP : String) :
    String :=
  let preHashContent := srcIP
  let preHashContent := preHashContent ++ r.URLPath
  let preHashContent := preHashContent ++ r.UserAgent
  let preHashContent := preHashContent ++ r.Cookie
  hash preHashContent

/-- The `targetURL` that both gates compute: the path, and the raw query after a
`?` when there is one. -/
def targetURLOf (r : Request) : String :=
  if r.RawQuery.length > 0 then r.URLPath ++ "?" ++ r.RawQuery else r.URLPath

/-- The `hitInfo` that the CC gate builds. -/
def ccHitInfo (nowTimeStamp : Int) (r : Request) (ccPolicy : CCPolicy) (clientID : String) :
    HitInfo :=
  { TypeID := 1, PolicyID := ccPolicy.AppID, VulnName := "CC", Action := ccPolicy.Action,
    ClientID := clientID, TargetURL := targetURLOf r, BlockTime := nowTimeStamp }

/-- The `hitInfo` that the WAF gate builds for the block page. -/
def wafBlockHitInfo (policy : GroupPolicy) (vulnName : String) : HitInfo :=
  { TypeID := 2, PolicyID := policy.ID, VulnName := vulnName }

/-- The `hitInfo` that the WAF gate builds for the captcha. -/
def wafCaptchaHitInfo (nowTimeStamp : Int) (r : Request) (policy : GroupPolicy)
    (clientID : String) : HitInfo :=
  { TypeID := 2, PolicyID := policy.ID, VulnName := "Group Policy Hit",
    Action := policy.Action, ClientID := clientID, TargetURL := targetURLOf r,
    BlockTime := nowTimeStamp }

/-- The body of `if isCC { ... }` in the CC gate: the calls made, and whether the
handler returns (`true`) or goes on to the WAF check (`false`). -/
def ccGateAct (env : GatewayEnv) (nowTimeStamp : Int) (r : Request) (app : Application)
    (srcIP : String) (ccPolicy : CCPolicy) (clientID : String) (needLog : Bool) :
    List Call × Bool :=
  let hitInfo := ccHitInfo nowTimeStamp r ccPolicy clientID
  if ccPolicy.Action = Action_Block_100 then
    ((if needLog then [Call.LogCCRequest app.ID srcIP ccPolicy] else []) ++
      (if app.ClientIPMethod = IPMethod.REMOTE_ADDR then
        [Call.AddIP2NFTables srcIP ccPolicy.BlockSeconds] else []) ++
      [Call.GenerateBlockPage hitInfo], true)
  else if ccPolicy.Action = Action_BypassAndLog_200 then
    ((if needLog then [Call.LogCCRequest app.ID srcIP ccPolicy] else []), false)
  else if ccPolicy.Action = Action_CAPTCHA_300 then
    ((if needLog then [Call.LogCCRequest app.ID srcIP ccPolicy] else []) ++
      [Call.captchaHitInfoStore hitInfo.ClientID hitInfo,
       Call.Redirect (env.CaptchaEntrance ++ "?id=" ++ hitInfo.ClientID)
         StatusTemporaryRedirect], true)
  else ([], false)

/-- The body of `if isHit, policy := ...; isHit { ... }` in the WAF gate: the
calls made, and whether the handler returns. `none` is the panic of
`vulnName.(string)` when `VulnMap` has no entry for the policy. -/
def wafGateAct (hash : String → String) (env : GatewayEnv) (nowTimeStamp : Int) (r : Request)
    (app : Application) (srcIP : String) (policy : GroupPolicy) :
    Option (List Call × Bool) :=
  if policy.Action = Action_Block_100 then
    match env.VulnMap policy.VulnID with
    | none => none
    | some vulnName =>
      let hitInfo := wafBlockHitInfo policy vulnName
      some ([Call.LogGroupHitRequest app.ID srcIP policy, Call.GenerateBlockPage hitInfo], true)
  else if policy.Action = Action_BypassAndLog_200 then
    some ([Call.LogGroupHitRequest app.ID srcIP policy], false)
  else if policy.Action = Action_CAPTCHA_300 then
    let clientID := GenClientID hash r app.ID srcIP
    let hitInfo := wafCaptchaHitInfo nowTimeStamp r policy clientID
    some ([Call.LogGroupHitRequest app.ID srcIP policy,
      Call.captchaHitInfoStore clientID hitInfo,
      Call.Redirect (env.CaptchaEntrance ++ "?id=" ++ clientID) StatusTemporaryRedirect], true)
  else some ([], false)

/-- The IP policy stage: `none` when the handler returns after queueing the
15-minute block, otherwise `some isAllowIP`. -/
def ipPolicyStage (env : GatewayEnv) (app : Application) (srcIP : String) : Option Bool :=
  if app.ClientIPMethod = IPMethod.REMOTE_ADDR then
    match env.GetIPPolicyByIPAddr srcIP with
    | some ipPolicy =>
      if ipPolicy.ApplyToCC then
        if ipPolicy.IsAllow then some true else none
      else some false
    | none => some false
  else some false

/-- The 5-second shield stage: `some calls` when the handler returns after making
these calls, `none` when it goes on. -/
def shieldStage (env : GatewayEnv) (r : Request) (app : Application) (srcIP : String)
    (isAllowIP : Bool) : Option (List Call) :=
  if !isAllowIP && app.ShieldEnabled then
    if !env.hasShieldToken r then
      let isSearchEngine := if env.SkipSEEnabled then env.IsSearchEngine r.UserAgent else false
      if !isSearchEngine then
        if env.IsCrawler r srcIP then some [Call.AddIP2NFTables srcIP 900]
        else some [Call.GenerateShieldPage r.URLPath]
      else none
    else none
  else none

/-- What the security gates leave: the calls made, `ccCounts`, the request, and
whether the handler has returned (`ended`) or goes on to the OAuth check. -/
structure GatesResult where
  calls : List Call
  ccCounts : CCCounts
  request : Request
  ended : Bool

/-- The WAF gate of `ReverseHandlerFunc`, entered with the calls made so far. -/
def wafGate (hash : String → String) (env : GatewayEnv) (parsers : WAFParsers)
    (isMatchGroupPolicy : MatchGroupPolicy) (nowTimeStamp : Int) (app : Application)
    (srcIP : String) (isAllowIP : Bool) (calls : List Call) (ccCounts : CCCounts)
    (r : Request) : Option GatesResult :=
  if !isAllowIP && app.WAFEnabled then
    let hit := IsRequestHitPolicy parsers isMatchGroupPolicy r app.ID srcIP
    let calls1 := calls ++ [Call.IsRequestHitPolicy app.ID srcIP]
    match hit.1 with
    | some policy =>
      match wafGateAct hash env nowTimeStamp hit.2 app srcIP policy with
      | none => none
      | some (acts, ended) =>
        some { calls := calls1 ++ acts, ccCounts := ccCounts, request := hit.2, ended := ended }
    | none => some { calls := calls1, ccCounts := ccCounts, request := hit.2, ended := false }
  else some { calls := calls, ccCounts := ccCounts, request := r, ended := false }

/-- The CC gate of `ReverseHandlerFunc` followed by the WAF gate. `none` is a
panic: of `IsCCAttack`, or of the nil policy of an attacker verdict. -/
def ccGate (hash : String → String) (env : GatewayEnv) (parsers : WAFParsers)
    (isMatchGroupPolicy : MatchGroupPolicy) (ccPolicies : CCPolicies) (nowTimeStamp : Int)
    (app : Application) (srcIP : String) (isAllowIP : Bool) (ccCounts : CCCounts)
    (r : Request) : Option GatesResult :=
  if !isAllowIP then
    match IsCCAttack hash ccPolicies ccCounts r app srcIP with
    | none => none
    | some (verdict, cc1) =>
      if verdict.isCC then
        match verdict.ccPolicy with
        | none => none
        | some ccPolicy =>
          let act := ccGateAct env nowTimeStamp r app srcIP ccPolicy verdict.clientID
            verdict.needLog
          if act.2 then
            some { calls := Call.IsCCAttack srcIP :: act.1, ccCounts := cc1, request := r,
                   ended := true }
          else
            wafGate hash env parsers isMatchGroupPolicy nowTimeStamp app srcIP isAllowIP
              (Call.IsCCAttack srcIP :: act.1) cc1 r
      else
        wafGate hash env parsers isMatchGroupPolicy nowTimeStamp app srcIP isAllowIP
          [Call.IsCCAttack srcIP] cc1 r
  else
    wafGate hash env parsers isMatchGroupPolicy nowTimeStamp app srcIP isAllowIP [] ccCounts r

/-- The security gates of `ReverseHandlerFunc`, from `isAllowIP := false` to the
end of the WAF check, for a request whose client address is `srcIP`. -/
def securityGates (hash : String → String) (env : GatewayEnv) (parsers : WAFParsers)
    (isMatchGroupPolicy : MatchGroupPolicy) (ccPolicies : CCPolicies) (ccCounts : CCCounts)
    (nowTimeStamp : Int) (r : Request) (app : Application) (srcIP : String) :
    Option GatesResult :=
  match ipPolicyStage env app srcIP with
  | none =>
    some { calls := [Call.AddIP2NFTables srcIP 900], ccCounts := ccCounts, request := r,
           ended := true }
  | some isAllowIP =>
    match shieldStage env r app srcIP isAllowIP with
    | some calls => some { calls := calls, ccCounts := ccCounts, request := r, ended := true }
    | none =>
      ccGate hash env parsers isMatchGroupPolicy ccPolicies nowTimeStamp app srcIP isAllowIP
        ccCounts r

/-- A gateway environment for the examples: address 10.0.0.1 is on the allow
list, no shield token, vulnerability 1 is called `SQLi`. -/
def demoGatewayEnv : GatewayEnv :=
  { GetIPPolicyByIPAddr := fun ip =>
      if ip = "10.0.0.1" then some { IsAllow := true, ApplyToCC := true } else none,
    hasShieldToken := fun _ => false,
    SkipSEEnabled := false,
    IsSearchEngine := fun _ => false,
    IsCrawler := fun _ _ => false,
    VulnMap := fun vulnID => if vulnID = 1 then some "SQLi" else none,
    CaptchaEntrance := "/captcha/confirm" }

/-- Application 7 with the WAF enabled. -/
def app7WAF : Application := { ID := 7, WAFEnabled := true }

/-- The policy of app 7 with action BypassAndLog instead of Block. -/
def app7BypassPolicy : CCPolicy :=
  { app7Policy with Action := Action_BypassAndLog_200 }

/-- A policy table holding `app7BypassPolicy` only. -/
def bypassPolicies : CCPolicies := fun appID =>
  if appID = 7 then some app7BypassPolicy else none

/-- Client 1.2.3.4 of app 7, blocked, its block already logged. -/
def blockedLogged : CCCounts := oneBucket 7 "1.2.3.4" ⟨1, 0, 0, true, 5⟩

/-- Client 1.2.3.4 of app 7, blocked, its block not logged yet. -/
def blockedUnlogged : CCCounts := oneBucket 7 "1.2.3.4" ⟨0, 0, 0, true, 5⟩

/-- The request `GET /page?id=1` of the examples. -/
def pageRequest : Request :=
  { URLPath := "/page", UserAgent := "curl/8.0", Cookie := "", RawQuery := "id=1",
    Method := "GET", RequestURI := "/page?id=1", Host := "a.example", Proto := "HTTP/1.1" }

/-- The policy of app 7 with action Captcha instead of Block. -/
def app7CaptchaPolicy : CCPolicy :=
  { app7Policy with Action := Action_CAPTCHA_300 }

/-- A policy table holding `app7CaptchaPolicy` only. -/
def captchaPolicies : CCPolicies := fun appID =>
  if appID = 7 then some app7CaptchaPolicy else none

/-- A WAF policy with action Captcha. -/
def captchaPolicy : GroupPolicy :=
  { ID := 3, AppID := 0, VulnID := 1, Action := Action_CAPTCHA_300, IsEnabled := true }

/-- The request `GET /page?id=1 OR 1=1--`, its query as it arrived. -/
def injectionRequest : Request :=
  { URLPath := "/page", UserAgent := "curl/8.0", Cookie := "", RawQuery := "id=1 OR 1=1--",
    Method := "GET", RequestURI := "/page?id=1 OR 1=1--", Host := "a.example",
    Proto := "HTTP/1.1" }

/-! ## `gateway.go`: the client address -/

/-- The scan of Go's `strings.Split(s, sep)` for a non-empty `sep`: `cur` holds,
reversed, the characters of the entry being read; the counter is the number of
characters of a matched separator still to be skipped. -/
def stringsSplitAux (sep : List Char) : Nat → List Char → List Char → List String
  | _, cur, [] => [⟨cur.reverse⟩]
  | skip + 1, cur, _ :: cs => stringsSplitAux sep skip cur cs
  | 0, cur, c :: cs =>
    if sep.isPrefixOf (c :: cs) then
      ⟨cur.reverse⟩ :: stringsSplitAux sep (sep.length - 1) [] cs
    else stringsSplitAux sep 0 (c :: cur) cs

/-- Go's `strings.Split(s, sep)` for a non-empty `sep`. -/
def stringsSplit (s sep : String) : List String :=
  stringsSplitAux sep.data 0 [] s.data

/-- Embedding of `GetClientIP`. `splitHostPort` gives the host that
`net.SplitHostPort` returns for the peer address (its port and error are
dropped by the code); `none` would be the panic of an index out of range in
`ips[len(ips)-1]`. -/
def GetClientIP (splitHostPort : String → String) (r : Request) (app : Application) :
    Option String :=
  let fallback := fun (clientIP : String) =>
    if clientIP.length = 0 then splitHostPort r.RemoteAddr else clientIP
  match app.ClientIPMethod with
  | IPMethod.REMOTE_ADDR => some (splitHostPort r.RemoteAddr)
  | IPMethod.X_FORWARDED_FOR =>
    let xForwardedFor := r.XForwardedFor
    let ips := stringsSplit xForwardedFor ", "
    match ips[ips.length - 1]? with
    | none => none
    | some clientIP => some (fallback clientIP)
  | IPMethod.X_REAL_IP => some (fallback r.XRealIP)
  | IPMethod.REAL_IP => some (fallback r.RealIP)

/-- A stand-in for `net.SplitHostPort` on addresses of the form `host:port`
without brackets: the part before the first colon. -/
def hostBeforeColon (addr : String) : String :=
  ⟨addr.data.takeWhile (fun c => c ≠ ':')⟩

/-- A request from peer 10.1.1.1 carrying two forwarded addresses. -/
def forwardedRequest : Request :=
  { URLPath := "/", UserAgent := "", Cookie := "", RemoteAddr := "10.1.1.1:4711",
    XForwardedFor := "1.1.1.1, 2.2.2.2" }

/-- Application 7 taking the client address from X-Forwarded-For. -/
def app7Forwarded : Application := { ID := 7, ClientIPMethod := IPMethod.X_FORWARDED_FOR }

/-! ## `backend/domain.go`: the domains and their map -/

/-- The part of `models.CertItem` that identifies a certificate. -/
structure CertItem where
  ID : Int
  deriving DecidableEq

/-- The record `models.DBDomain`: a domain as the data-access layer returns it. -/
structure DBDomain where
  ID : Int
  Name : String
  AppID : Int
  CertID : Int
  Redirect : Bool
  Location : String
  deriving DecidableEq

/-- The record `models.Domain`; the pointers `App` and `Cert` may be nil. -/
structure Domain where
  ID : Int := 0
  Name : String := ""
  AppID : Int := 0
  CertID : Int := 0
  Redirect : Bool := false
  Location : String := ""
  App : Option Application := none
  Cert : Option CertItem := none
  deriving DecidableEq

/-- The record `models.DomainRelation`, the value type of `DomainsMap`. -/
structure DomainRelation where
  App : Option Application
  Cert : Option CertItem
  Redirect : Bool
  Location : String
  deriving DecidableEq

/-- The two globals of `domain.go`: the slice `Domains` and the `sync.Map`
`DomainsMap`, from domain name to relation. -/
structure DomainState where
  Domains : List Domain
  DomainsMap : String → Option DomainRelation

/-- Embedding of `GetDomainByID`. -/
def GetDomainByID (domains : List Domain) (id : Int) : Option Domain :=
  domains.find? (fun domain => domain.ID = id)

/-- Embedding of `GetDomainByName`. -/
def GetDomainByName (domains : List Domain) (domainName : String) : Option Domain :=
  domains.find? (fun domain => domain.Name = domainName)

/-- The loop of `LoadDomains` over the selected `dbDomains`. -/
def LoadDomains.loop (getApplicationByID : Int → Option Application)
    (getCertByID : Int → Option CertItem) : DomainState → List DBDomain → DomainState
  | st, [] => st
  | st, dbDomain :: rest =>
    let pApp := getApplicationByID dbDomain.AppID
    let pCert := getCertByID dbDomain.CertID
    let domain : Domain :=
      { ID := dbDomain.ID, Name := dbDomain.Name, AppID := dbDomain.AppID,
        CertID := dbDomain.CertID, Redirect := dbDomain.Redirect,
        Location := dbDomain.Location, App := pApp, Cert := pCert }
    LoadDomains.loop getApplicationByID getCertByID
      { Domains := st.Domains ++ [domain],
        DomainsMap := Function.update st.DomainsMap domain.Name
          (some { App := pApp, Cert := pCert, Redirect := dbDomain.Redirect,
                  Location := dbDomain.Location }) } rest

/-- Embedding of `LoadDomains`: both globals are emptied, then filled from
`dbDomains` (what `data.DAL.SelectDomains` or `RPCSelectDomains` returns).
`GetApplicationByID` and `SysCallGetCertByID` are not among the sources. -/
def LoadDomains (getApplicationByID : Int → Option Application)
    (getCertByID : Int → Option CertItem) (dbDomains : List DBDomain) : DomainState :=
  LoadDomains.loop getApplicationByID getCertByID
    { Domains := [], DomainsMap := fun _ => none } dbDomains

/-- The assignments that `UpdateDomain` makes through the pointer `domain`. -/
def UpdateDomain.assign (domain : Domain) (app : Application) (domainName : String)
    (certID : Int) (redirect : Bool) (location : String) (pCert : Option CertItem) : Domain :=
  { domain with Name := domainName, AppID := app.ID, CertID := certID, Redirect := redirect,
                Location := location, App := some app, Cert := pCert }

/-- The update in place of the first domain of the slice whose ID is `id`, the
one that `GetDomainByID` points to. -/
def updateFirstByID (id : Int) (f : Domain → Domain) : List Domain → List Domain
  | [] => []
  | domain :: rest =>
    if domain.ID = id then f domain :: rest else domain :: updateFirstByID id f rest

/-- Embedding of `UpdateDomain`, its argument `domainMapInterface` given by its
five entries. `newDomainID` is what `data.DAL.InsertDomain` returns. The result
is the new state and the returned domain; `none` is the nil dereference when a
non-zero `domainID` is not found. -/
def UpdateDomain (getCertByID : Int → Option CertItem) (newDomainID : Int) (st : DomainState)
    (app : Application) (domainID : Int) (domainName : String) (certID : Int)
    (redirect : Bool) (location : String) : Option (DomainState × Domain) :=
  let pCert := getCertByID certID
  let relation : DomainRelation :=
    { App := some app, Cert := pCert, Redirect := redirect, Location := location }
  if domainID = 0 then
    let domain := UpdateDomain.assign { ID := newDomainID } app domainName certID redirect
      location pCert
    some ({ Domains := st.Domains ++ [domain],
            DomainsMap := Function.update st.DomainsMap domainName (some relation) }, domain)
  else
    match GetDomainByID st.Domains domainID with
    | none => none
    | some domain =>
      let domain1 := UpdateDomain.assign domain app domainName certID redirect location pCert
      some ({ Domains := updateFirstByID domainID
                (fun d => UpdateDomain.assign d app domainName certID redirect location pCert)
                st.Domains,
              DomainsMap := Function.update st.DomainsMap domainName (some relation) }, domain1)

/-- Embedding of `GetDomainIndex`: `none` stands for `-1`. -/
def GetDomainIndex (domains : List Domain) (domain : Domain) : Option Nat :=
  let i := domains.findIdx (fun d => d.ID = domain.ID)
  if i < domains.length then some i else none

/-- Embedding of `DeleteDomain`; `none` is the slice-bounds panic for index `-1`. -/
def DeleteDomain (domains : List Domain) (domain : Domain) : Option (List Domain) :=
  match GetDomainIndex domains domain with
  | none => none
  | some i => some (domains.take i ++ domains.drop (i + 1))

/-- Embedding of `DeleteDomainsByApp`, given the slice `app.Domains`. -/
def DeleteDomainsByApp : DomainState → List Domain → Option DomainState
  | st, [] => some st
  | st, domain :: rest =>
    match DeleteDomain st.Domains domain with
    | none => none
    | some domains =>
      DeleteDomainsByApp
        { Domains := domains, DomainsMap := Function.update st.DomainsMap domain.Name none }
        rest

/-- Whether the map is consistent with the slice on the name `name`: the map has
an entry for `name` exactly when a domain of the slice has that name, and then
the entry carries the App, Cert, Redirect and Location of that domain. -/
def consistentAt (st : DomainState) (name : String) : Bool :=
  match st.DomainsMap name, GetDomainByName st.Domains name with
  | none, none => true
  | some relation, some domain =>
    decide (relation.App = domain.App ∧ relation.Cert = domain.Cert ∧
      relation.Redirect = domain.Redirect ∧ relation.Location = domain.Location)
  | _, _ => false

/-- The state holding the one domain `old.example` of application 7. -/
def oneDomainState : DomainState :=
  LoadDomains (fun appID => if appID = 7 then some app7 else none) (fun _ => none)
    [{ ID := 1, Name := "old.example", AppID := 7, CertID := 0, Redirect := false,
       Location := "" }]

/-! ## `gateway.go`: the front of `ReverseHandlerFunc` -/

/-- Go's `strings.IndexByte(s, c)` for an ASCII `c`: the index of the first `c`
in `s`, or `-1`. The index counts characters; the handler uses it only to cut
the string at that place, and an ASCII byte never lies inside a longer
character. -/
def stringsIndexByte (s : String) (c : Char) : Int :=
  let i := s.data.findIdx (fun x => x == c)
  if i < s.data.length then (i : Int) else -1

/-- The `domainStr` of `ReverseHandlerFunc`: `r.Host`, cut before its first colon
when that colon is not the first character. -/
def domainStrOf (host : String) : String :=
  let domainStr := host
  let index := stringsIndexByte host ':'
  if index > 0 then ⟨host.data.take index.toNat⟩ else domainStr

/-- The constant `http.StatusMovedPermanently`. -/
def StatusMovedPermanently : Nat := 301

/-- Embedding of `RedirectRequest`: the calls it makes. -/
def RedirectRequest (r : Request) (location : String) : List Call :=
  let location := if r.RawQuery.length > 0 then location ++ "?" ++ r.RawQuery else location
  [Call.Redirect location StatusMovedPermanently]

/-- How the front of the handler ends: the handler has returned after making
`calls`, or it goes on to the forwarding stages with `domainStr` and `app`. -/
inductive Front where
  | ended (calls : List Call)
  | goesOn (domainStr : String) (app : Application)
  deriving DecidableEq

/-- The front of `ReverseHandlerFunc`, up to the HTTPS upgrade. `domains` is the
slice `backend.Domains`; `getApplicationByDomain` is
`backend.GetApplicationByDomain`, which is not among the sources; `listenHTTPS` is
`data.CFG.ListenHTTPS`. -/
def handlerFront (domains : List Domain) (getApplicationByDomain : String → Option Application)
    (listenHTTPS : String) (r : Request) : Front :=
  let domainStr := domainStrOf r.Host
  let redirecting :=
    match GetDomainByName domains domainStr with
    | some domain => if domain.Redirect then some domain.Location else none
    | none => none
  match redirecting with
  | some location => Front.ended (RedirectRequest r location)
  | none =>
    match getApplicationByDomain domainStr with
    | none =>
      if stringsHasSuffix r.URLPath "/" then
        Front.ended [Call.ServeFile ("./static/welcome" ++ r.URLPath ++ "index.html")]
      else Front.ended [Call.FileServer "./static/welcome"]
    | some app =>
      if !r.TLS && app.RedirectHTTPS then
        if listenHTTPS = ":443" then
          Front.ended (RedirectRequest r ("https://" ++ domainStr ++ r.URLPath))
        else
          Front.ended (RedirectRequest r ("https://" ++ domainStr ++ listenHTTPS ++ r.URLPath))
      else Front.goesOn domainStr app

/-- A domain that redirects to `https://www.example/`. -/
def redirectDomain : Domain :=
  { ID := 1, Name := "a.example", AppID := 7, Redirect := true,
    Location := "https://www.example/" }

/-- A redirecting domain named by an IPv6 literal. -/
def literalDomain : Domain :=
  { ID := 2, Name := "[::1]", AppID := 7, Redirect := true,
    Location := "https://www.example/" }

/-- Application 7 answering plaintext requests with the HTTPS upgrade. -/
def app7HTTPS : Application := { ID := 7, RedirectHTTPS := true }

/-! ## `gateway.go`: the OAuth gate of `ReverseHandlerFunc` -/

/-- The record `models.OAuthState`. -/
structure OAuthState where
  CallbackURL : String
  UserID : String
  AccessToken : String := ""
  deriving DecidableEq

/-- The map `session.Values` of the session `janusec-token`, on the keys the
gate uses: `none` is a nil value (key absent, or nil stored), `some s` a string. -/
abbrev SessionValues := String → Option String

/-- The cache `usermgmt.OAuthCache`, from state to `OAuthState`. -/
abbrev OAuthCache := String → Option OAuthState

/-- The parts of `data.NodeSetting.AuthConfig` that the gate and
`getOAuthEntrance` read. -/
structure AuthConfig where
  Enabled : Bool
  Provider : String
  WxworkCorpID : String := ""
  WxworkAgentID : String := ""
  WxworkCallback : String := ""
  DingtalkAppID : String := ""
  DingtalkCallback : String := ""
  FeishuAppID : String := ""
  FeishuCallback : String := ""
  LarkAppID : String := ""
  LarkCallback : String := ""
  CAS2Entrance : String := ""
  CAS2Callback : String := ""

/-- Embedding of `getOAuthEntrance`; the `%s` of `fmt.Sprintf` are written as
concatenations. -/
def getOAuthEntrance (authConfig : AuthConfig) (state : String) : Except String String :=
  if authConfig.Provider = "wxwork" then
    Except.ok ("https://open.work.weixin.qq.com/wwopen/sso/qrConnect?appid="
      ++ authConfig.WxworkCorpID ++ "&agentid=" ++ authConfig.WxworkAgentID
      ++ "&redirect_uri=" ++ authConfig.WxworkCallback ++ "&state=" ++ state)
  else if authConfig.Provider = "dingtalk" then
    Except.ok ("https://oapi.dingtalk.com/connect/qrconnect?appid=" ++ authConfig.DingtalkAppID
      ++ "&response_type=code&scope=snsapi_login&state=" ++ state
      ++ "&redirect_uri=" ++ authConfig.DingtalkCallback)
  else if authConfig.Provider = "feishu" then
    Except.ok ("https://open.feishu.cn/open-apis/authen/v1/index?redirect_uri="
      ++ authConfig.FeishuCallback ++ "&app_id=" ++ authConfig.FeishuAppID
      ++ "&state=" ++ state)
  else if authConfig.Provider = "lark" then
    Except.ok ("https://open.larksuite.com/open-apis/authen/v1/index?redirect_uri="
      ++ authConfig.LarkCallback ++ "&app_id=" ++ authConfig.LarkAppID
      ++ "&state=" ++ state)
  else if authConfig.Provider = "ldap" then
    Except.ok ("/ldap/login?state=" ++ state)
  else if authConfig.Provider = "cas2" then
    Except.ok (authConfig.CAS2Entrance ++ "/login?renew=true&service="
      ++ authConfig.CAS2Callback ++ "?state=" ++ state)
  else if authConfig.Provider = "saml" then
    Except.ok ("/saml/login?state=" ++ state)
  else Except.error "the OAuth provider is not supported, please check settings"

/-- What the OAuth gate leaves: the calls made, the session values, the cache,
whether the handler has returned (`ended`), and, when it goes on to the backend,
the headers `X-Auth-Token` and `X-Auth-User` it has set. -/
structure OAuthResult where
  calls : List Call
  session : SessionValues
  cache : OAuthCache
  ended : Bool
  authHeaders : Option (String × String) := none

/-- The `url` that the OAuth gate computes. `urlString` is Go's `r.URL.String()`. -/
def oauthURL (listenHTTPS : String) (urlString : Request → String) (r : Request)
    (domainStr : String) : String :=
  if r.TLS then
    if listenHTTPS = ":443" then "https://" ++ domainStr ++ r.URLPath
    else "https://" ++ domainStr ++ listenHTTPS ++ r.URLPath
  else urlString r

/-- The OAuth gate of `ReverseHandlerFunc`. `none` is the panic of
`session.Values["access_token"].(string)` on a nil value. -/
def oauthGate (hash : String → String) (authConfig : AuthConfig) (listenHTTPS : String)
    (urlString : Request → String) (session : SessionValues) (cache : OAuthCache)
    (r : Request) (app : Application) (domainStr srcIP ua : String) : Option OAuthResult :=
  if app.OAuthRequired && authConfig.Enabled then
    let usernameI := session "userid"
    let url := oauthURL listenHTTPS urlString r domainStr
    match usernameI with
    | none =>
      let state := hash (srcIP ++ url ++ ua)
      match session state with
      | none =>
        match getOAuthEntrance authConfig state with
        | Except.error err =>
          some { calls := [Call.Write err], session := session, cache := cache, ended := true }
        | Except.ok entranceURL =>
          some { calls := [Call.SessionSave 300,
                           Call.Redirect entranceURL StatusTemporaryRedirect],
                 session := Function.update session state (some state),
                 cache := Function.update cache state
                   (some { CallbackURL := url, UserID := "" }),
                 ended := true }
      | some state =>
        match cache state with
        | none =>
          some { calls := [Call.SessionSave (-1), Call.Redirect url StatusTemporaryRedirect],
                 session := session, cache := cache, ended := true }
        | some oauthState =>
          if oauthState.UserID = "" then
            let session1 := Function.update session "userid" none
            match getOAuthEntrance authConfig state with
            | Except.error err =>
              some { calls := [Call.Write err], session := session1, cache := cache,
                     ended := true }
            | Except.ok entranceURL =>
              some { calls := [Call.Redirect entranceURL StatusTemporaryRedirect],
                     session := session1, cache := cache, ended := true }
          else
            some { calls := [Call.SessionSave app.SessionSeconds,
                             Call.Redirect oauthState.CallbackURL StatusTemporaryRedirect],
                   session := Function.update (Function.update session "userid"
                     (some oauthState.UserID)) "access_token" (some oauthState.AccessToken),
                   cache := cache, ended := true }
    | some username =>
      match session "access_token" with
      | none => none
      | some accessToken =>
        some { calls := [], session := session, cache := cache, ended := false,
               authHeaders := some (accessToken, username) }
  else some { calls := [], session := session, cache := cache, ended := false }

/-- Application 7 with OAuth required. -/
def app7OAuth : Application := { ID := 7, OAuthRequired := true, SessionSeconds := 3600 }

/-- An enabled configuration of the provider `ldap`. -/
def ldapConfig : AuthConfig := { Enabled := true, Provider := "ldap" }

/-- An empty session. -/
def noSession : SessionValues := fun _ => none

/-- The session of a user who has logged in: userid and access_token, and no
state entry. -/
def loggedInSession : SessionValues := fun key =>
  if key = "userid" then some "alice"
  else if key = "access_token" then some "token-1"
  else none

/-- An empty OAuth cache. -/
def noCache : OAuthCache := fun _ => none

/-- The request `GET /page?id=1` of the examples, received over TLS. -/
def tlsPageRequest : Request := { pageRequest with TLS := true }

/-- A stand-in for `r.URL.String()` on the plaintext requests of the examples,
after the handler has set scheme and host: `http://` followed by host, path,
and the query after `?` when there is one. -/
def demoURLString (r : Request) : String :=
  "http://" ++ r.Host ++ targetURLOf r

/-! ## `firewall.go`: the response check -/

/-- The parts of `*http.Response` that `IsResponseHitPolicy` reads: the status
code, the headers in the order in which `range` visits them, the header
`Content-Encoding` as `resp.Header.Get` returns it, the unread content of
`resp.Body`, and the request. -/
structure Response where
  StatusCode : Int
  Header : List (String × List String) := []
  ContentEncoding : String := ""
  Body : String := ""
  Request : Request
  deriving DecidableEq

/-- Embedding of `IsResponseHitPolicy`: the policy that is hit (`none` for
`(false, nil)`) and the response as the call leaves it. `gzipNewReader` stands
for `gzip.NewReader` followed by `ioutil.ReadAll` on the reader: `some` of the
bytes read when `gzip.NewReader` returns a reader, `none` when it returns an
error, and with it a nil reader. The code drops that error
(`reader, _ := gzip.NewReader(...)`) and reads from the reader; on a nil reader
that is a nil dereference, the outer `none` of the result. -/
def IsResponseHitPolicy (gzipNewReader : String → Option String)
    (isMatchGroupPolicy : MatchGroupPolicy) (resp : Response) (appID : Int) :
    Option (Option GroupPolicy × Response) :=
  if resp.StatusCode = 101 then some (none, resp)
  else if IsStaticResource resp.Request then some (none, resp)
  else
    match isMatchGroupPolicy appID (toString resp.StatusCode) ChkPoint.ResponseStatusCode ""
        false <|>
      resp.Header.findSome? (fun header =>
        isMatchGroupPolicy appID header.1 ChkPoint.ResponseHeaderKey "" false <|>
        header.2.findSome? (fun headerValue =>
          isMatchGroupPolicy appID headerValue ChkPoint.ResponseHeaderValue header.1 false))
    with
    | some policy => some (some policy, resp)
    | none =>
      let bodyBuf := resp.Body
      let contentEncoding := resp.ContentEncoding
      let checkBody := fun (body1 : String) =>
        (isMatchGroupPolicy appID body1 ChkPoint.ResponseBody "" false,
          { resp with Body := bodyBuf })
      if contentEncoding = "gzip" then
        match gzipNewReader bodyBuf with
        | none => none
        | some decompressedBodyBuf => some (checkBody decompressedBodyBuf)
      else some (checkBody bodyBuf)

/-- The `gzip.NewReader` of the examples, whose bodies are not gzip data: it
returns an error and no reader. -/
def notGzip : String → Option String := fun _ => none

/-- A response 200 to `GET /` announcing `Content-Encoding: gzip`, with a body
that is not gzip data. -/
def badGzipResponse : Response :=
  { StatusCode := 200, Header := [("Content-Encoding", ["gzip"])], ContentEncoding := "gzip",
    Body := "<html>plain</html>", Request := curlRequest }

/-! ## `data/setting.go`: the synchronisation settings -/

/-- Go's `time.Duration`: a count of nanoseconds. -/
abbrev Duration := Int

/-- The constant `time.Second`. -/
def Second : Duration := 1000000000

/-- The values that the code stores in `models.Setting.Value`, an `interface{}`:
an `int64` or a `time.Duration`. -/
inductive SettingValue where
  | int64 (v : Int)
  | duration (d : Duration)
  deriving DecidableEq

/-- The record `models.Setting`. -/
structure Setting where
  Name : String
  Value : SettingValue
  deriving DecidableEq

/-- The globals `Settings`, `BackendLastModified`, `FirewallLastModified` and
`SyncSeconds` of `setting.go`. -/
structure SettingsState where
  Settings : List Setting
  BackendLastModified : Int
  FirewallLastModified : Int
  SyncSeconds : Duration
  deriving DecidableEq

/-- The globals as declared: `SyncSeconds` is `120 * time.Second`. -/
def initialSettings : SettingsState :=
  { Settings := [], BackendLastModified := 0, FirewallLastModified := 0,
    SyncSeconds := 120 * Second }

/-- Embedding of `GetSettingByName`; `none` is nil. -/
def GetSettingByName (settings : List Setting) (name : String) : Option Setting :=
  settings.find? (fun setting => setting.Name = name)

/-- The assignment `setting.Value = value` through the pointer that
`GetSettingByName` returns for `name`. -/
def setSettingValue (name : String) (value : SettingValue) : List Setting → List Setting
  | [] => []
  | setting :: rest =>
    if setting.Name = name then { setting with Value := value } :: rest
    else setting :: setSettingValue name value rest

/-- Embedding of `UpdateBackendLastModified`; `now` is `time.Now().Unix()`. The
call of `DAL.SaveIntSetting` is left out. `none` is the nil dereference when
`Settings` has no entry of the name. -/
def UpdateBackendLastModified (now : Int) (st : SettingsState) : Option SettingsState :=
  let st1 := { st with BackendLastModified := now }
  match GetSettingByName st1.Settings "backend_last_modified" with
  | none => none
  | some _ =>
    some { st1 with
      Settings := (setSettingValue "backend_last_modified"
        (SettingValue.int64 st1.BackendLastModified) st1.Settings) }

/-- Embedding of `UpdateFirewallLastModified`, as `UpdateBackendLastModified`. -/
def UpdateFirewallLastModified (now : Int) (st : SettingsState) : Option SettingsState :=
  let st1 := { st with FirewallLastModified := now }
  match GetSettingByName st1.Settings "firewall_last_modified" with
  | none => none
  | some _ =>
    some { st1 with
      Settings := (setSettingValue "firewall_last_modified"
        (SettingValue.int64 st1.FirewallLastModified) st1.Settings) }

/-- The loop of `LoadSettings` on a replica, over the settings received. Their
values arrive as `float64`; the primary sends whole numbers, and each is given
here by the whole number it holds, so that `int64(x)` and `time.Duration(x)` are
that number. -/
def LoadSettings.replica : SettingsState → List (String × Int) → SettingsState
  | st, [] => st
  | st, settingItem :: rest =>
    if settingItem.1 = "backend_last_modified" then
      LoadSettings.replica { st with BackendLastModified := settingItem.2 } rest
    else if settingItem.1 = "firewall_last_modified" then
      LoadSettings.replica { st with FirewallLastModified := settingItem.2 } rest
    else if settingItem.1 = "sync_seconds" then
      LoadSettings.replica { st with SyncSeconds := settingItem.2 } rest
    else LoadSettings.replica st rest

/-- Embedding of `LoadSettings`, for the four globals above. `selectIntSetting`
is `DAL.SelectIntSetting` (its error is dropped by the code), `rpcSettings` what
`RPCGetSettings` returns. The conversion `time.Duration(n)` of an integer keeps
the number: it is `n` nanoseconds. -/
def LoadSettings (isPrimary : Bool) (selectIntSetting : String → Int)
    (rpcSettings : List (String × Int)) (st : SettingsState) : SettingsState :=
  if isPrimary then
    let backendLastModified := selectIntSetting "backend_last_modified"
    let firewallLastModified := selectIntSetting "firewall_last_modified"
    let syncSecondsInt64 := selectIntSetting "sync_seconds"
    let syncSeconds : Duration := syncSecondsInt64
    { Settings := st.Settings ++
        [{ Name := "backend_last_modified", Value := SettingValue.int64 backendLastModified },
         { Name := "firewall_last_modified", Value := SettingValue.int64 firewallLastModified },
         { Name := "sync_seconds", Value := SettingValue.duration syncSeconds }],
      BackendLastModified := backendLastModified,
      FirewallLastModified := firewallLastModified,
      SyncSeconds := syncSeconds }
  else LoadSettings.replica st rpcSettings

/-- The settings table of a primary node: both counters at 100, `sync_seconds`
600 (the value that `InitDefaultSettings` saves). -/
def demoSelectIntSetting (name : String) : Int :=
  if name = "backend_last_modified" then 100
  else if name = "firewall_last_modified" then 100
  else if name = "sync_seconds" then 600
  else 0

/-- The state of a primary node after `LoadSettings`. -/
def primaryLoaded : SettingsState :=
  LoadSettings true demoSelectIntSetting [] initialSettings

/-- A policy of app 7 that blocks for a tenth of a second, with a decay step
every 100 ms: `BlockSeconds` holds the float64 nearest to 0.1. -/
def tenthPolicy : CCPolicy :=
  { app7Policy with
    IntervalMilliSeconds := 100,
    BlockSeconds := 3602879701896397 / 36028797018963968 }

/-- A policy table holding `tenthPolicy` only. -/
def tenthPolicies : CCPolicies := fun appID =>
  if appID = 7 then some tenthPolicy else none

/-! ## Helper lemmas on the nested maps -/

theorem bucket_update (ccCounts : CCCounts) (a : Int) (m : AppCCCount) (a' : Int)
    (c' : String) :
    bucket (Function.update ccCounts a (some m)) a' c'
      = if a' = a then m c' else bucket ccCounts a' c' := by
  unfold bucket
  by_cases h : a' = a
  · subst h; simp
  · simp [Function.update_noteq h, h]

theorem getD_empty_apply (ccCounts : CCCounts) (a : Int) (c : String) :
    ((ccCounts a).getD emptyAppCCCount) c = bucket ccCounts a c := by
  unfold bucket
  cases h : ccCounts a <;> simp [emptyAppCCCount]

theorem bucket_tickWith (ccPolicy : CCPolicy) (ccCounts : CCCounts) (a a' : Int) (c : String) :
    bucket (CCAttackTickWith ccPolicy ccCounts a) a' c
      = if a' = a then (bucket ccCounts a c).bind (tickBucket ccPolicy)
        else bucket ccCounts a' c := by
  unfold CCAttackTickWith
  simp only [bucket_update, tickAppCCCount, getD_empty_apply]

theorem IsCCAttack_enabled (hash : String → String) (ccPolicies : CCPolicies)
    (ccCounts : CCCounts) (r : Request) (app : Application) (srcIP : String)
    (ccPolicy : CCPolicy) (hpol : GetCCPolicyByAppID ccPolicies app.ID = some ccPolicy)
    (hen : ccPolicy.IsEnabled = true) :
    IsCCAttack hash ccPolicies ccCounts r app srcIP
      = some (requestVerdict ccPolicy (hash (preHashContent ccPolicy r srcIP))
            ((bucket ccCounts (ccAppIDOf ccPolicy app)
              (hash (preHashContent ccPolicy r srcIP))).getD newClientStat),
          Function.update ccCounts (ccAppIDOf ccPolicy app)
            (some (Function.update ((ccCounts (ccAppIDOf ccPolicy app)).getD emptyAppCCCount)
              (hash (preHashContent ccPolicy r srcIP))
              (some (requestBucket ((bucket ccCounts (ccAppIDOf ccPolicy app)
                (hash (preHashContent ccPolicy r srcIP))).getD newClientStat)))))) := by
  unfold IsCCAttack
  simp only [hpol, hen, getD_empty_apply, requestVerdict, requestBucket]
  by_cases hb : ((bucket ccCounts (ccAppIDOf ccPolicy app)
      (hash (preHashContent ccPolicy r srcIP))).getD newClientStat).IsBadIP = true
  · by_cases hq : ((bucket ccCounts (ccAppIDOf ccPolicy app)
        (hash (preHashContent ccPolicy r srcIP))).getD newClientStat).QuickCount = 0
    · simp [hb, hq]
    · simp [hb, hq]
  · simp [hb]

theorem IsCCAttack_disabled (hash : String → String) (ccPolicies : CCPolicies)
    (ccCounts : CCCounts) (r : Request) (app : Application) (srcIP : String)
    (ccPolicy : CCPolicy) (hpol : GetCCPolicyByAppID ccPolicies app.ID = some ccPolicy)
    (hen : ccPolicy.IsEnabled = false) :
    IsCCAttack hash ccPolicies ccCounts r app srcIP = some (passVerdict, ccCounts) := by
  unfold IsCCAttack
  simp [hpol, hen]

/-- Storing back the bucket that is already there changes nothing. -/
theorem update_self_bucket (ccCounts : CCCounts) (a : Int) (c : String) (stat : ClientStat)
    (h : bucket ccCounts a c = some stat) :
    Function.update ccCounts a
      (some (Function.update ((ccCounts a).getD emptyAppCCCount) c (some stat))) = ccCounts := by
  unfold bucket at h
  cases hm : ccCounts a with
  | none => simp [hm] at h
  | some m =>
    simp only [hm, Option.some_bind] at h
    funext a'
    by_cases ha : a' = a
    · subst ha
      simp only [Function.update_same, hm, Option.getD_some]
      congr 1
      funext c'
      by_cases hc : c' = c
      · subst hc; simp [h]
      · simp [Function.update_noteq hc]
    · simp [Function.update_noteq ha]

theorem bucket_oneBucket (a : Int) (c : String) (stat : ClientStat) :
    bucket (oneBucket a c stat) a c = some stat := by
  simp [oneBucket, bucket]

/-! ## Events seen from one bucket -/

theorem step_ok (hash : String → String) (ccPolicies : CCPolicies) (ccCounts : CCCounts)
    (e : Event) (h : e.ok ccPolicies = true) :
    ∃ v cc1, step hash ccPolicies ccCounts e = some (v, cc1) := by
  cases e with
  | request r app srcIP =>
    simp only [Event.ok, Option.isSome_iff_exists] at h
    obtain ⟨p, hp⟩ := h
    cases hen : p.IsEnabled
    · simp only [step, IsCCAttack_disabled hash ccPolicies ccCounts r app srcIP p hp hen]
      exact ⟨_, _, rfl⟩
    · simp only [step, IsCCAttack_enabled hash ccPolicies ccCounts r app srcIP p hp hen]
      exact ⟨_, _, rfl⟩
  | tick a =>
    simp only [Event.ok, Option.isSome_iff_exists] at h
    obtain ⟨p, hp⟩ := h
    simp only [step, CCAttackTick, hp]
    exact ⟨_, _, rfl⟩

theorem bucketKey_eq_some (hash : String → String) (ccPolicies : CCPolicies) (r : Request)
    (app : Application) (srcIP : String) (k : Int × String) :
    bucketKey hash ccPolicies r app srcIP = some k ↔
      ∃ p, GetCCPolicyByAppID ccPolicies app.ID = some p ∧ p.IsEnabled = true ∧
        k = (ccAppIDOf p app, hash (preHashContent p r srcIP)) := by
  unfold bucketKey
  cases hp : GetCCPolicyByAppID ccPolicies app.ID with
  | none => simp
  | some p =>
    cases hen : p.IsEnabled
    · simp only [hen, Bool.false_eq_true, if_false]
      constructor
      · intro h; cases h
      · rintro ⟨q, hq, hqe, _⟩
        cases hq
        rw [hen] at hqe
        cases hqe
    · simp only [hen, if_true, Option.some.injEq]
      constructor
      · intro h; exact ⟨p, rfl, hen, h.symm⟩
      · rintro ⟨q, hq, _, hk⟩
        cases hq
        exact hk.symm

theorem step_bucket (hash : String → String) (ccPolicies : CCPolicies) (ccCounts : CCCounts)
    (appID : Int) (clientID : String) (e : Event) (v : Option Verdict) (cc1 : CCCounts)
    (h : step hash ccPolicies ccCounts e = some (v, cc1)) :
    bucket cc1 appID clientID
      = localStep hash ccPolicies appID clientID (bucket ccCounts appID clientID) e := by
  cases e with
  | request r app srcIP =>
    simp only [step] at h
    cases hp : GetCCPolicyByAppID ccPolicies app.ID with
    | none => simp [IsCCAttack, hp] at h
    | some p =>
      cases hen : p.IsEnabled
      · rw [IsCCAttack_disabled hash ccPolicies ccCounts r app srcIP p hp hen] at h
        simp only [Option.some.injEq, Prod.mk.injEq] at h
        simp [localStep, bucketKey, hp, hen, ← h.2]
      · rw [IsCCAttack_enabled hash ccPolicies ccCounts r app srcIP p hp hen] at h
        simp only [Option.some.injEq, Prod.mk.injEq] at h
        rw [← h.2]
        simp only [localStep, bucketKey, hp, hen, if_true, Option.some.injEq, Prod.mk.injEq,
          bucket_update]
        by_cases ha : appID = ccAppIDOf p app
        · by_cases hc : clientID = hash (preHashContent p r srcIP)
          · subst ha hc; simp
          · have hc2 : ¬ hash (preHashContent p r srcIP) = clientID := fun h => hc h.symm
            simp [ha, hc2, Function.update_noteq hc, getD_empty_apply]
        · have ha2 : ¬ ccAppIDOf p app = appID := fun h => ha h.symm
          simp [ha, ha2]
  | tick a =>
    simp only [step] at h
    cases hp : ccPolicies a with
    | none => simp [CCAttackTick, hp] at h
    | some p =>
      simp only [CCAttackTick, hp, Option.some.injEq, Prod.mk.injEq] at h
      rw [← h.2, bucket_tickWith]
      by_cases ha : a = appID
      · subst ha; simp [localStep, hp]
      · have ha2 : ¬ appID = a := fun h => ha h.symm
        simp [localStep, ha, ha2]

theorem policy_at_key (hash : String → String) (ccPolicies : CCPolicies)
    (hwk : WellKeyed ccPolicies) (r : Request) (app : Application) (srcIP : String)
    (appID : Int) (clientID : String)
    (h : bucketKey hash ccPolicies r app srcIP = some (appID, clientID)) :
    ∃ p, GetCCPolicyByAppID ccPolicies app.ID = some p ∧ p.IsEnabled = true ∧
      ccPolicies appID = some p ∧ hash (preHashContent p r srcIP) = clientID := by
  obtain ⟨p, hp, hen, hk⟩ := (bucketKey_eq_some hash ccPolicies r app srcIP _).mp h
  simp only [Prod.mk.injEq] at hk
  refine ⟨p, hp, hen, ?_, hk.2.symm⟩
  unfold GetCCPolicyByAppID at hp
  cases hown : ccPolicies app.ID with
  | some q =>
    simp only [hown, Option.some.injEq] at hp
    subst hp
    have := hwk _ _ hown
    rw [hk.1]
    unfold ccAppIDOf
    by_cases h0 : q.AppID = 0
    · simp only [h0, if_true]; rw [← h0, this]; exact hown
    · simp only [h0, if_false]; exact hown
  | none =>
    simp only [hown] at hp
    have := hwk _ _ hp
    rw [hk.1]
    simp [ccAppIDOf, this, hp]

theorem request_on_bucket (hash : String → String) (ccPolicies : CCPolicies)
    (hwk : WellKeyed ccPolicies) (ccCounts : CCCounts) (r : Request) (app : Application)
    (srcIP : String) (appID : Int) (clientID : String) (ccPolicy : CCPolicy)
    (hpol : ccPolicies appID = some ccPolicy)
    (h : bucketKey hash ccPolicies r app srcIP = some (appID, clientID)) :
    ∃ cc1, IsCCAttack hash ccPolicies ccCounts r app srcIP
      = some (requestVerdict ccPolicy clientID
          ((bucket ccCounts appID clientID).getD newClientStat), cc1) := by
  obtain ⟨p, hp, hen, hkey, hcid⟩ :=
    policy_at_key hash ccPolicies hwk r app srcIP appID clientID h
  have hpp : p = ccPolicy := by rw [hpol] at hkey; exact (Option.some.inj hkey).symm
  subst hpp
  obtain ⟨q, hq, _, hk⟩ := (bucketKey_eq_some hash ccPolicies r app srcIP _).mp h
  have hqp : q = p := by rw [hp] at hq; exact (Option.some.inj hq).symm
  subst hqp
  simp only [Prod.mk.injEq] at hk
  obtain ⟨hk1, hk2⟩ := hk
  subst hk1 hk2
  exact ⟨_, IsCCAttack_enabled hash ccPolicies ccCounts r app srcIP q hp hen⟩

theorem run_cons (hash : String → String) (ccPolicies : CCPolicies) (ccCounts : CCCounts)
    (e : Event) (es : List Event) (v : Option Verdict) (cc1 : CCCounts)
    (vs : List (Option Verdict)) (cc2 : CCCounts)
    (h1 : step hash ccPolicies ccCounts e = some (v, cc1))
    (h2 : run hash ccPolicies cc1 es = some (vs, cc2)) :
    run hash ccPolicies ccCounts (e :: es) = some (v :: vs, cc2) := by
  simp [run, h1, h2]

/-! ## Rounding to float64 -/

theorem roundHalfEven_eq (x : ℚ) (n : ℤ) (hlo : (n : ℚ) - 1 / 2 < x) (hhi : x < n + 1 / 2) :
    roundHalfEven x = n := by
  unfold roundHalfEven
  by_cases hx : (n : ℚ) ≤ x
  · have hf : ⌊x⌋ = n := by
      rw [Int.floor_eq_iff]
      constructor
      · exact hx
      · linarith
    simp only [hf]
    have : x - n < 1 / 2 := by linarith
    rw [if_pos this]
  · push_neg at hx
    have hf : ⌊x⌋ = n - 1 := by
      rw [Int.floor_eq_iff]
      push_cast
      constructor
      · linarith
      · linarith
    simp only [hf]
    have h1 : ¬ x - ((n - 1 : ℤ) : ℚ) < 1 / 2 := by push_cast; linarith
    have h2 : 1 / 2 < x - ((n - 1 : ℤ) : ℚ) := by push_cast; linarith
    rw [if_neg h1, if_pos h2]
    omega

/-- The value of `roundFloat64` at a number of the binade `2 ^ e ≤ |q| < 2 ^ (e + 1)`
(normal range) that lies within half a unit of `n * 2 ^ (e - 52)`. -/
theorem roundFloat64_eq (q : ℚ) (e n : ℤ) (h1 : (2 : ℚ) ^ e ≤ |q|)
    (h2 : |q| < (2 : ℚ) ^ (e + 1)) (he : -1022 ≤ e)
    (hlo : (n : ℚ) - 1 / 2 < q / (2 : ℚ) ^ (e - 52))
    (hhi : q / (2 : ℚ) ^ (e - 52) < n + 1 / 2) :
    roundFloat64 q = n * (2 : ℚ) ^ (e - 52) := by
  have hpos : 0 < |q| := lt_of_lt_of_le (zpow_pos (by norm_num) e) h1
  have hq : q ≠ 0 := abs_pos.mp hpos
  have hlog : Int.log 2 |q| = e := by
    apply le_antisymm
    · have := (Int.lt_zpow_iff_log_lt (b := 2) (by norm_num) hpos (x := e + 1)).mp
        (by exact_mod_cast h2)
      omega
    · exact (Int.zpow_le_iff_le_log (b := 2) (by norm_num) hpos).mp (by exact_mod_cast h1)
  unfold roundFloat64
  simp only [hq, if_false, hlog, max_eq_left he]
  rw [roundHalfEven_eq _ n hlo hhi]

/-- The integer that `roundHalfEven` returns is nearest to `x`, and even when
`x` lies halfway between two integers. -/
theorem roundHalfEven_spec (x : ℚ) :
    |x - roundHalfEven x| ≤ 1 / 2 ∧ (|x - roundHalfEven x| = 1 / 2 → Even (roundHalfEven x)) := by
  have h1 : (⌊x⌋ : ℚ) ≤ x := Int.floor_le x
  have h2 : x < ⌊x⌋ + 1 := Int.lt_floor_add_one x
  unfold roundHalfEven
  simp only
  by_cases ha : x - ⌊x⌋ < 1 / 2
  · rw [if_pos ha]
    have habs : |x - (⌊x⌋ : ℚ)| = x - ⌊x⌋ := abs_of_nonneg (by linarith)
    refine ⟨by rw [habs]; linarith, fun h => ?_⟩
    rw [habs] at h
    linarith
  · rw [if_neg ha]
    by_cases hb : 1 / 2 < x - ⌊x⌋
    · rw [if_pos hb]
      have habs : |x - ((⌊x⌋ + 1 : ℤ) : ℚ)| = (⌊x⌋ : ℚ) + 1 - x := by
        push_cast
        rw [abs_of_nonpos (by linarith)]
        ring
      refine ⟨by rw [habs]; linarith, fun h => ?_⟩
      rw [habs] at h
      linarith
    · rw [if_neg hb]
      have hr : x - ⌊x⌋ = 1 / 2 := le_antisymm (not_lt.mp hb) (not_lt.mp ha)
      by_cases hc : ⌊x⌋ % 2 = 0
      · rw [if_pos hc]
        have habs : |x - (⌊x⌋ : ℚ)| = x - ⌊x⌋ := abs_of_nonneg (by linarith)
        exact ⟨by rw [habs]; linarith, fun _ => Int.even_iff.mpr hc⟩
      · rw [if_neg hc]
        have habs : |x - ((⌊x⌋ + 1 : ℤ) : ℚ)| = (⌊x⌋ : ℚ) + 1 - x := by
          push_cast
          rw [abs_of_nonpos (by linarith)]
          ring
        refine ⟨by rw [habs]; linarith, fun _ => ?_⟩
        rw [Int.even_iff]
        omega

/-- What `roundFloat64` computes, for a number other than 0: with `b` the binade
of `q` and `e` the larger of `b` and `-1022`, the multiple `n * 2 ^ (e - 52)` of
the unit in the last place for which the integer `n` is nearest to
`q / 2 ^ (e - 52)`, and even when `q` lies halfway between two multiples. -/
theorem roundFloat64_spec (q : ℚ) (hq : q ≠ 0) :
    ∃ b n : ℤ, (2 : ℚ) ^ b ≤ |q| ∧ |q| < (2 : ℚ) ^ (b + 1) ∧
      roundFloat64 q = n * (2 : ℚ) ^ (max b (-1022) - 52) ∧
      |q / (2 : ℚ) ^ (max b (-1022) - 52) - n| ≤ 1 / 2 ∧
      (|q / (2 : ℚ) ^ (max b (-1022) - 52) - n| = 1 / 2 → Even n) := by
  have hpos : 0 < |q| := abs_pos.mpr hq
  obtain ⟨hn1, hn2⟩ := roundHalfEven_spec (q / (2 : ℚ) ^ (max (Int.log 2 |q|) (-1022) - 52))
  refine ⟨Int.log 2 |q|, roundHalfEven (q / (2 : ℚ) ^ (max (Int.log 2 |q|) (-1022) - 52)),
    ?_, ?_, ?_, hn1, hn2⟩
  · exact_mod_cast Int.zpow_log_le_self (b := 2) (by norm_num) hpos
  · exact_mod_cast Int.lt_zpow_succ_log_self (b := 2) (by norm_num) |q|
  · simp [roundFloat64, hq]

theorem roundFloat64_zero : roundFloat64 0 = 0 := by
  simp [roundFloat64]

theorem float64Sub_self (x : ℚ) : float64Sub x x = 0 := by
  simp [float64Sub, roundFloat64_zero]

/-- In float64, `1000 / 1000` is 1. -/
theorem float64Div_thousand : float64Div 1000 1000 = 1 := by
  have h : (1000 : ℚ) / 1000 = 1 := by norm_num
  rw [float64Div, h, roundFloat64_eq 1 0 (2 ^ 52) (by norm_num) (by norm_num) (by norm_num)
    (by norm_num) (by norm_num)]
  norm_num

/-- In float64, `100 / 1000` is the float64 nearest to 0.1, a little above 0.1. -/
theorem float64Div_hundred :
    float64Div 100 1000 = 3602879701896397 / 36028797018963968 := by
  have h : (100 : ℚ) / 1000 = 1 / 10 := by norm_num
  rw [float64Div, h, roundFloat64_eq (1 / 10) (-4) 7205759403792794
    (by norm_num [abs_of_pos]) (by norm_num [abs_of_pos]) (by norm_num) (by norm_num)
    (by norm_num)]
  norm_num

/-- In float64, `5 - 1` is 4. -/
theorem float64Sub_five_one : float64Sub 5 1 = 4 := by
  have h : (5 : ℚ) - 1 = 4 := by norm_num
  rw [float64Sub, h, roundFloat64_eq 4 2 (2 ^ 52) (by norm_num [abs_of_pos])
    (by norm_num [abs_of_pos]) (by norm_num) (by norm_num) (by norm_num)]
  norm_num

/-- In float64, `1 - 0.1` (the float64 nearest to 0.1) is the float64 nearest to
0.9, a little above 0.9. -/
theorem float64Sub_one_tenth :
    float64Sub 1 (3602879701896397 / 36028797018963968)
      = 8106479329266893 / 9007199254740992 := by
  have h : (1 : ℚ) - 3602879701896397 / 36028797018963968
      = 32425917317067571 / 36028797018963968 := by norm_num
  rw [float64Sub, h, roundFloat64_eq (32425917317067571 / 36028797018963968) (-1)
    8106479329266893 (by norm_num [abs_of_pos]) (by norm_num [abs_of_pos]) (by norm_num)
    (by norm_num) (by norm_num)]
  norm_num

theorem countdown_shift (ccPolicy : CCPolicy) (remain : ℚ) (n : Nat) :
    countdown ccPolicy remain (n + 1)
      = countdown ccPolicy
          (float64Sub remain (float64Div ccPolicy.IntervalMilliSeconds 1000)) n := by
  induction n with
  | zero => rfl
  | succ n ih =>
    show float64Sub (countdown ccPolicy remain (n + 1)) _ = float64Sub _ _
    rw [ih]

/-- While the countdown of a bad bucket stays positive at every decay step of
the trace, the trace runs, the bucket stays bad, its `RemainSeconds` is the
countdown after the decay steps of the trace, and its `QuickCount` is still 0 at
the end exactly when it was 0 at the start and the client made no request. -/
theorem blocked_window (hash : String → String) (ccPolicies : CCPolicies) (appID : Int)
    (clientID : String) (ccPolicy : CCPolicy) (hpol : ccPolicies appID = some ccPolicy) :
    ∀ (es : List Event) (ccCounts : CCCounts) (t : ClientStat),
      (∀ e ∈ es, e.ok ccPolicies = true) →
      bucket ccCounts appID clientID = some t → t.IsBadIP = true →
      (∀ k, k < countTicks appID es → 0 < countdown ccPolicy t.RemainSeconds (k + 1)) →
      ∃ vs cc2 t2, run hash ccPolicies ccCounts es = some (vs, cc2) ∧
        bucket cc2 appID clientID = some t2 ∧ t2.IsBadIP = true ∧
        t2.RemainSeconds = countdown ccPolicy t.RemainSeconds (countTicks appID es) ∧
        (t2.QuickCount = 0 ↔
          (t.QuickCount = 0 ∧ es.any (Event.hits hash ccPolicies appID clientID) = false)) := by
  intro es
  induction es with
  | nil =>
    intro ccCounts t _ hb hbad _
    exact ⟨[], ccCounts, t, rfl, hb, hbad, rfl, by simp⟩
  | cons e es ih =>
    intro ccCounts t hok hb hbad hrem
    obtain ⟨v, cc1, hstep⟩ := step_ok hash ccPolicies ccCounts e (hok e (List.mem_cons_self _ _))
    have hb1 := step_bucket hash ccPolicies ccCounts appID clientID e v cc1 hstep
    rw [hb] at hb1
    have hok2 : ∀ e ∈ es, e.ok ccPolicies = true :=
      fun e he => hok e (List.mem_cons_of_mem _ he)
    cases e with
    | request r app srcIP =>
      simp only [countTicks] at hrem
      by_cases hh : bucketKey hash ccPolicies r app srcIP = some (appID, clientID)
      · simp only [localStep, hh, if_true, Option.getD_some] at hb1
        have hbad1 : (requestBucket t).IsBadIP = true := by
          unfold requestBucket; simp only [hbad, if_true]; split <;> simp [hbad]
        have hrem1 : (requestBucket t).RemainSeconds = t.RemainSeconds := by
          unfold requestBucket; simp only [hbad, if_true]; split <;> rfl
        have hq1 : (requestBucket t).QuickCount ≠ 0 := by
          unfold requestBucket; simp only [hbad, if_true]
          split
          · rename_i h0; simp [h0]
          · assumption
        obtain ⟨vs, cc2, t2, hrun, hb2, hbad2, hr2, hq2⟩ :=
          ih cc1 (requestBucket t) hok2 hb1 hbad1 (by rw [hrem1]; exact hrem)
        refine ⟨v :: vs, cc2, t2, run_cons hash ccPolicies ccCounts _ es v cc1 vs cc2 hstep hrun,
          hb2, hbad2, ?_, ?_⟩
        · rw [hr2, hrem1]; rfl
        · rw [hq2]
          simp [hq1, Event.hits, hh]
      · simp only [localStep, hh, if_false] at hb1
        obtain ⟨vs, cc2, t2, hrun, hb2, hbad2, hr2, hq2⟩ := ih cc1 t hok2 hb1 hbad hrem
        refine ⟨v :: vs, cc2, t2, run_cons hash ccPolicies ccCounts _ es v cc1 vs cc2 hstep hrun,
          hb2, hbad2, ?_, ?_⟩
        · rw [hr2]; rfl
        · rw [hq2]
          simp [Event.hits, hh]
    | tick a =>
      by_cases ha : a = appID
      · subst ha
        have hcount : countTicks a (Event.tick a :: es) = countTicks a es + 1 := by
          simp [countTicks, Nat.add_comm]
        have hpos : ¬ float64Sub t.RemainSeconds
            (float64Div ccPolicy.IntervalMilliSeconds 1000) ≤ 0 := by
          have h0 := hrem 0 (by rw [hcount]; omega)
          exact not_le.mpr h0
        simp only [localStep, if_true, hpol, Option.some_bind, tickBucket, hbad, hpos,
          if_false] at hb1
        obtain ⟨vs, cc2, t2, hrun, hb2, hbad2, hr2, hq2⟩ := ih cc1 _ hok2 hb1 rfl (by
          intro k hk
          have hk1 := hrem (k + 1) (by rw [hcount]; omega)
          rw [countdown_shift] at hk1
          exact hk1)
        refine ⟨v :: vs, cc2, t2, run_cons hash ccPolicies ccCounts _ es v cc1 vs cc2 hstep hrun,
          hb2, hbad2, ?_, ?_⟩
        · rw [hr2, hcount, countdown_shift]
        · rw [hq2]
          simp [Event.hits]
      · have hcount : countTicks appID (Event.tick a :: es) = countTicks appID es := by
          simp [countTicks, ha]
        rw [hcount] at hrem
        simp only [localStep, ha, if_false] at hb1
        obtain ⟨vs, cc2, t2, hrun, hb2, hbad2, hr2, hq2⟩ := ih cc1 t hok2 hb1 hbad hrem
        refine ⟨v :: vs, cc2, t2, run_cons hash ccPolicies ccCounts _ es v cc1 vs cc2 hstep hrun,
          hb2, hbad2, ?_, ?_⟩
        · rw [hr2, hcount]
        · rw [hq2]
          simp [Event.hits]

/-- A bucket that a decay step turns from not bad to bad gets the whole block
time and a zero `QuickCount`. -/
theorem promoted_bucket (ccPolicies : CCPolicies) (ccCounts : CCCounts) (appID : Int)
    (clientID : String) (ccPolicy : CCPolicy) (hpol : ccPolicies appID = some ccPolicy)
    (s : ClientStat) (hb : bucket ccCounts appID clientID = some s) (hnb : s.IsBadIP = false)
    (cc1 : CCCounts) (htick : CCAttackTick ccPolicies ccCounts appID = some cc1)
    (s1 : ClientStat) (hb1 : bucket cc1 appID clientID = some s1) (hbad : s1.IsBadIP = true) :
    s1.RemainSeconds = ccPolicy.BlockSeconds ∧ s1.QuickCount = 0 := by
  simp only [CCAttackTick, hpol, Option.some.injEq] at htick
  rw [← htick, bucket_tickWith] at hb1
  simp only [if_true, hb, Option.some_bind, tickBucket, hnb, Bool.false_eq_true, if_false] at hb1
  split at hb1
  · cases hb1; exact ⟨rfl, rfl⟩
  · split at hb1
    · cases hb1; exact ⟨rfl, rfl⟩
    · split at hb1
      · cases hb1
      · cases hb1
        simp [hnb] at hbad

theorem requestBucket_of_notBad (s : ClientStat) (h : s.IsBadIP = false) :
    requestBucket s = { s with QuickCount := s.QuickCount + 1 } := by
  simp [requestBucket, h]

/-- A bucket that is never promoted along a trace with fewer than 15 decay steps
ahead of it survives the trace, and its `TimeFrameCount` counts the decay steps. -/
theorem unpromoted_lifetime (hash : String → String) (ccPolicies : CCPolicies) (appID : Int)
    (clientID : String) :
    ∀ (es : List Event) (ccCounts : CCCounts) (s : ClientStat),
      (∀ e ∈ es, e.ok ccPolicies = true) →
      bucket ccCounts appID clientID = some s →
      neverBadAlong hash ccPolicies appID clientID ccCounts es = true →
      s.TimeFrameCount + (countTicks appID es : ℤ) < 15 →
      ∃ vs cc1 s1, run hash ccPolicies ccCounts es = some (vs, cc1) ∧
        bucket cc1 appID clientID = some s1 ∧ s1.IsBadIP = false ∧
        s1.TimeFrameCount = s.TimeFrameCount + (countTicks appID es : ℤ) := by
  intro es
  induction es with
  | nil =>
    intro ccCounts s _ hb hnever _
    simp only [neverBadAlong, hb, notBad, Bool.not_eq_true'] at hnever
    exact ⟨[], ccCounts, s, rfl, hb, hnever, by simp [countTicks]⟩
  | cons e es ih =>
    intro ccCounts s hok hb hnever hlt
    obtain ⟨v, cc1, hstep⟩ := step_ok hash ccPolicies ccCounts e (hok e (List.mem_cons_self _ _))
    have hb1 := step_bucket hash ccPolicies ccCounts appID clientID e v cc1 hstep
    rw [hb] at hb1
    have hok2 : ∀ e ∈ es, e.ok ccPolicies = true :=
      fun e he => hok e (List.mem_cons_of_mem _ he)
    simp only [neverBadAlong, hb, notBad, hstep, Bool.and_eq_true, Bool.not_eq_true'] at hnever
    obtain ⟨hnb, hnever2⟩ := hnever
    have hhead : notBad (bucket cc1 appID clientID) = true := by
      cases es with
      | nil => simpa [neverBadAlong] using hnever2
      | cons e2 es2 =>
        simp only [neverBadAlong, Bool.and_eq_true] at hnever2
        exact hnever2.1
    cases e with
    | request r app srcIP =>
      simp only [countTicks] at hlt
      by_cases hh : bucketKey hash ccPolicies r app srcIP = some (appID, clientID)
      · simp only [localStep, hh, if_true, Option.getD_some,
          requestBucket_of_notBad s hnb] at hb1
        obtain ⟨vs, cc2, s2, hrun, hb2, hnb2, htf⟩ := ih cc1 _ hok2 hb1 hnever2 hlt
        exact ⟨v :: vs, cc2, s2,
          run_cons hash ccPolicies ccCounts _ es v cc1 vs cc2 hstep hrun, hb2, hnb2,
          by simpa [countTicks] using htf⟩
      · simp only [localStep, hh, if_false] at hb1
        obtain ⟨vs, cc2, s2, hrun, hb2, hnb2, htf⟩ := ih cc1 s hok2 hb1 hnever2 hlt
        exact ⟨v :: vs, cc2, s2,
          run_cons hash ccPolicies ccCounts _ es v cc1 vs cc2 hstep hrun, hb2, hnb2,
          by simpa [countTicks] using htf⟩
    | tick a =>
      by_cases ha : a = appID
      · subst ha
        simp only [countTicks, if_true, Nat.cast_add, Nat.cast_one] at hlt
        have hp : ∃ p, ccPolicies a = some p := by
          have := hok (Event.tick a) (List.mem_cons_self _ _)
          simpa [Event.ok, Option.isSome_iff_exists] using this
        obtain ⟨p, hp⟩ := hp
        have hc : (0 : ℤ) ≤ (countTicks a es : ℤ) := Int.natCast_nonneg _
        simp only [localStep, if_true, hp, Option.some_bind, tickBucket, hnb,
          Bool.false_eq_true, if_false] at hb1
        split at hb1
        · rw [hb1] at hhead; simp [notBad] at hhead
        · split at hb1
          · rw [hb1] at hhead; simp [notBad] at hhead
          · have h15 : ¬ s.TimeFrameCount + 1 ≥ 15 := by omega
            simp only [h15, if_false] at hb1
            obtain ⟨vs, cc2, s2, hrun, hb2, hnb2, htf⟩ := ih cc1 _ hok2 hb1 hnever2 (by
              show s.TimeFrameCount + 1 + _ < 15
              omega)
            refine ⟨v :: vs, cc2, s2,
              run_cons hash ccPolicies ccCounts _ es v cc1 vs cc2 hstep hrun, hb2, hnb2, ?_⟩
            rw [htf]
            simp only [countTicks, if_true, Nat.cast_add, Nat.cast_one]
            omega
      · simp only [countTicks, ha, if_false, Nat.zero_add] at hlt
        simp only [localStep, ha, if_false] at hb1
        obtain ⟨vs, cc2, s2, hrun, hb2, hnb2, htf⟩ := ih cc1 s hok2 hb1 hnever2 hlt
        exact ⟨v :: vs, cc2, s2,
          run_cons hash ccPolicies ccCounts _ es v cc1 vs cc2 hstep hrun, hb2, hnb2,
          by simpa [countTicks, ha] using htf⟩

theorem neverBadAlong_append (hash : String → String) (ccPolicies : CCPolicies) (appID : Int)
    (clientID : String) :
    ∀ (es es2 : List Event) (ccCounts : CCCounts) (vs : List (Option Verdict))
      (cc1 : CCCounts),
      run hash ccPolicies ccCounts es = some (vs, cc1) →
      neverBadAlong hash ccPolicies appID clientID ccCounts (es ++ es2) = true →
      neverBadAlong hash ccPolicies appID clientID ccCounts es = true ∧
        neverBadAlong hash ccPolicies appID clientID cc1 es2 = true := by
  intro es
  induction es with
  | nil =>
    intro es2 ccCounts vs cc1 hrun h
    simp only [run, Option.some.injEq, Prod.mk.injEq] at hrun
    rw [← hrun.2]
    refine ⟨?_, by simpa using h⟩
    cases es2 with
    | nil => simpa using h
    | cons e es3 =>
      simp only [List.nil_append, neverBadAlong, Bool.and_eq_true] at h
      simpa [neverBadAlong] using h.1
  | cons e es ih =>
    intro es2 ccCounts vs cc1 hrun h
    simp only [run] at hrun
    cases hstep : step hash ccPolicies ccCounts e with
    | none => simp [hstep] at hrun
    | some p =>
      obtain ⟨v, cc0⟩ := p
      simp only [hstep] at hrun
      cases hrun2 : run hash ccPolicies cc0 es with
      | none => simp [hrun2] at hrun
      | some q =>
        obtain ⟨vs2, cc3⟩ := q
        simp only [hrun2, Option.some.injEq, Prod.mk.injEq] at hrun
        simp only [List.cons_append, neverBadAlong, hstep, Bool.and_eq_true] at h ⊢
        have := ih es2 cc0 vs2 cc3 hrun2 h.2
        rw [← hrun.2]
        exact ⟨⟨h.1, this.1⟩, this.2⟩

theorem run_ok (hash : String → String) (ccPolicies : CCPolicies) :
    ∀ (es : List Event) (ccCounts : CCCounts), (∀ e ∈ es, e.ok ccPolicies = true) →
      ∃ vs cc1, run hash ccPolicies ccCounts es = some (vs, cc1) := by
  intro es
  induction es with
  | nil => intro ccCounts _; exact ⟨[], ccCounts, rfl⟩
  | cons e es ih =>
    intro ccCounts hok
    obtain ⟨v, cc1, hstep⟩ := step_ok hash ccPolicies ccCounts e (hok e (List.mem_cons_self _ _))
    obtain ⟨vs, cc2, hrun⟩ := ih cc1 (fun e he => hok e (List.mem_cons_of_mem _ he))
    exact ⟨v :: vs, cc2, run_cons hash ccPolicies ccCounts e es v cc1 vs cc2 hstep hrun⟩

theorem demoPolicies_wellKeyed : WellKeyed demoPolicies := by
  intro k p h
  unfold demoPolicies at h
  split_ifs at h with h0 h7 h8 h9
  · cases h; exact h0.symm
  · cases h; exact h7.symm
  · cases h; exact h8.symm
  · cases h; exact h9.symm

theorem atThreshold_promoted :
    bucket (CCAttackTickWith app7Policy atThreshold 7) 7 "1.2.3.4"
      = some ⟨0, 0, 0, true, 5⟩ := by
  simp [bucket_tickWith, atThreshold, bucket_oneBucket, tickBucket, app7Policy]

/-! ## The decay tick, bucket by bucket -/

/-- C3: in one decay step a bucket that is not bad and has `QuickCount ≥ MaxCount`
becomes bad with `RemainSeconds = BlockSeconds` and `QuickCount = 0`, the other
fields unchanged; failing that, a bucket with `SlowCount ≥ MaxCount` is promoted
in the same way with both counters reset; a bucket with both counters below
`MaxCount` is not promoted. -/
theorem tick_promotes_at_threshold (ccPolicies : CCPolicies) (ccCounts : CCCounts)
    (appID : Int) (ccPolicy : CCPolicy) (clientID : String) (stat : ClientStat)
    (hpol : ccPolicies appID = some ccPolicy)
    (hb : bucket ccCounts appID clientID = some stat) (hnb : stat.IsBadIP = false) :
    ∃ cc', CCAttackTick ccPolicies ccCounts appID = some cc' ∧
      (stat.QuickCount ≥ ccPolicy.MaxCount →
        bucket cc' appID clientID = some { stat with
          QuickCount := 0, IsBadIP := true, RemainSeconds := ccPolicy.BlockSeconds }) ∧
      (stat.QuickCount < ccPolicy.MaxCount → stat.SlowCount ≥ ccPolicy.MaxCount →
        bucket cc' appID clientID = some { stat with
          QuickCount := 0, SlowCount := 0, IsBadIP := true,
          RemainSeconds := ccPolicy.BlockSeconds }) ∧
      (stat.QuickCount < ccPolicy.MaxCount → stat.SlowCount < ccPolicy.MaxCount →
        ∀ s', bucket cc' appID clientID = some s' → s'.IsBadIP = false) := by
  refine ⟨CCAttackTickWith ccPolicy ccCounts appID, by simp [CCAttackTick, hpol], ?_, ?_, ?_⟩
  · intro hq
    simp [bucket_tickWith, hb, tickBucket, hnb, hq]
  · intro hq hs
    simp [bucket_tickWith, hb, tickBucket, hnb, not_le.mpr hq, hs]
  · intro hq hs s' hs'
    simp only [bucket_tickWith, hb, tickBucket, hnb, ge_iff_le, not_le.mpr hq, not_le.mpr hs,
      if_true, if_false, Option.some_bind, Bool.false_eq_true] at hs'
    split at hs'
    · exact absurd hs' (by simp)
    · cases hs'; rfl

/-- C3 at a bucket `⟨3, 0, 0, false, 0⟩` of app 7. -/
theorem tick_promotes_at_threshold_witness :
    ∃ cc', CCAttackTick demoPolicies (oneBucket 7 "c" ⟨3, 0, 0, false, 0⟩) 7 = some cc' ∧
      ((3 : Int) ≥ app7Policy.MaxCount →
        bucket cc' 7 "c" = some ⟨0, 0, 0, true, app7Policy.BlockSeconds⟩) ∧
      ((3 : Int) < app7Policy.MaxCount → (0 : Int) ≥ app7Policy.MaxCount →
        bucket cc' 7 "c" = some ⟨0, 0, 0, true, app7Policy.BlockSeconds⟩) ∧
      ((3 : Int) < app7Policy.MaxCount → (0 : Int) < app7Policy.MaxCount →
        ∀ s', bucket cc' 7 "c" = some s' → s'.IsBadIP = false) :=
  tick_promotes_at_threshold demoPolicies (oneBucket 7 "c" ⟨3, 0, 0, false, 0⟩) 7 app7Policy
    "c" ⟨3, 0, 0, false, 0⟩ (by decide) (bucket_oneBucket 7 "c" _) rfl

/-- C7: in one decay step a bad bucket has `RemainSeconds` decreased by
`IntervalMilliSeconds / 1000`, quotient and difference being those of float64; it
is removed exactly when the new value is `≤ 0`, and otherwise all its other
fields are unchanged. The last three conjuncts say what the float64 operations
are: each result is the exact result rounded by `roundFloat64`, which keeps 0
and sends any other `q`, of binade `b`, to the multiple of
`2 ^ (max b (-1022) - 52)` nearest to `q`, the even multiple in a tie. -/
theorem tick_badIP_countdown (ccPolicies : CCPolicies) (ccCounts : CCCounts)
    (appID : Int) (ccPolicy : CCPolicy) (clientID : String) (stat : ClientStat)
    (hpol : ccPolicies appID = some ccPolicy)
    (hb : bucket ccCounts appID clientID = some stat) (hbad : stat.IsBadIP = true) :
    ∃ cc', CCAttackTick ccPolicies ccCounts appID = some cc' ∧
      (bucket cc' appID clientID = none ↔
        float64Sub stat.RemainSeconds (float64Div ccPolicy.IntervalMilliSeconds 1000) ≤ 0) ∧
      (¬ float64Sub stat.RemainSeconds (float64Div ccPolicy.IntervalMilliSeconds 1000) ≤ 0 →
        bucket cc' appID clientID = some { stat with
          RemainSeconds :=
            float64Sub stat.RemainSeconds (float64Div ccPolicy.IntervalMilliSeconds 1000) }) ∧
      float64Sub stat.RemainSeconds (float64Div ccPolicy.IntervalMilliSeconds 1000)
        = roundFloat64
            (stat.RemainSeconds - roundFloat64 (ccPolicy.IntervalMilliSeconds / 1000)) ∧
      roundFloat64 0 = 0 ∧
      (∀ q : ℚ, q ≠ 0 → ∃ b n : ℤ, (2 : ℚ) ^ b ≤ |q| ∧ |q| < (2 : ℚ) ^ (b + 1) ∧
        roundFloat64 q = n * (2 : ℚ) ^ (max b (-1022) - 52) ∧
        |q / (2 : ℚ) ^ (max b (-1022) - 52) - n| ≤ 1 / 2 ∧
        (|q / (2 : ℚ) ^ (max b (-1022) - 52) - n| = 1 / 2 → Even n)) := by
  refine ⟨CCAttackTickWith ccPolicy ccCounts appID, by simp [CCAttackTick, hpol], ?_, ?_,
    rfl, roundFloat64_zero, roundFloat64_spec⟩
  · by_cases h : float64Sub stat.RemainSeconds
        (float64Div ccPolicy.IntervalMilliSeconds 1000) ≤ 0
    · simp only [bucket_tickWith, hb, tickBucket, hbad, h, if_true, Option.some_bind]
    · simp only [bucket_tickWith, hb, tickBucket, hbad, h, if_true, if_false,
        Option.some_bind]
      simp
  · intro h
    simp only [bucket_tickWith, hb, tickBucket, hbad, h, if_true, if_false, Option.some_bind]

/-- C7 at a bad bucket of app 7 with one second left, under the policy with a
decay step every 100 ms: the quotient `100 / 1000` is the float64 nearest to 0.1,
and the decay step leaves the float64 nearest to 0.9, not 9/10. -/
theorem tick_badIP_countdown_witness :
    ∃ cc', CCAttackTick tenthPolicies (oneBucket 7 "c" ⟨1, 0, 0, true, 1⟩) 7 = some cc' ∧
      bucket cc' 7 "c" = some ⟨1, 0, 0, true, 8106479329266893 / 9007199254740992⟩ := by
  obtain ⟨cc', htick, _, hkeep, _, _, _⟩ :=
    tick_badIP_countdown tenthPolicies (oneBucket 7 "c" ⟨1, 0, 0, true, 1⟩) 7 tenthPolicy
      "c" ⟨1, 0, 0, true, 1⟩ (by simp [tenthPolicies]) (bucket_oneBucket 7 "c" _) rfl
  have hval : float64Sub (1 : ℚ) (float64Div tenthPolicy.IntervalMilliSeconds 1000)
      = 8106479329266893 / 9007199254740992 := by
    show float64Sub 1 (float64Div 100 1000) = _
    rw [float64Div_hundred, float64Sub_one_tenth]
  refine ⟨cc', htick, ?_⟩
  have hk := hkeep (by
    show ¬ float64Sub (1 : ℚ) (float64Div tenthPolicy.IntervalMilliSeconds 1000) ≤ 0
    rw [hval]; norm_num)
  rw [hk]
  show some (ClientStat.mk 1 0 0 true
    (float64Sub (1 : ℚ) (float64Div tenthPolicy.IntervalMilliSeconds 1000))) = _
  rw [hval]

/-- C8: in one decay step a bucket that is not bad and has both counters below
`MaxCount` has `TimeFrameCount` increased by one; it is evicted if the new
`TimeFrameCount` is `≥ 15`, and otherwise `SlowCount` absorbs `QuickCount` and
`QuickCount` becomes 0. -/
theorem tick_goodIP_fold (ccPolicies : CCPolicies) (ccCounts : CCCounts)
    (appID : Int) (ccPolicy : CCPolicy) (clientID : String) (stat : ClientStat)
    (hpol : ccPolicies appID = some ccPolicy)
    (hb : bucket ccCounts appID clientID = some stat) (hnb : stat.IsBadIP = false)
    (hq : stat.QuickCount < ccPolicy.MaxCount) (hs : stat.SlowCount < ccPolicy.MaxCount) :
    ∃ cc', CCAttackTick ccPolicies ccCounts appID = some cc' ∧
      (stat.TimeFrameCount + 1 ≥ 15 → bucket cc' appID clientID = none) ∧
      (stat.TimeFrameCount + 1 < 15 →
        bucket cc' appID clientID = some { stat with
          TimeFrameCount := stat.TimeFrameCount + 1,
          SlowCount := stat.SlowCount + stat.QuickCount,
          QuickCount := 0 }) := by
  refine ⟨CCAttackTickWith ccPolicy ccCounts appID, by simp [CCAttackTick, hpol], ?_, ?_⟩
  · intro h
    simp [bucket_tickWith, hb, tickBucket, hnb, not_le.mpr hq, not_le.mpr hs, h]
  · intro h
    simp [bucket_tickWith, hb, tickBucket, hnb, not_le.mpr hq, not_le.mpr hs, not_le.mpr h]

/-- C8 at a bucket `⟨2, 1, 4, false, 0⟩` of app 7. -/
theorem tick_goodIP_fold_witness :
    ∃ cc', CCAttackTick demoPolicies (oneBucket 7 "c" ⟨2, 1, 4, false, 0⟩) 7 = some cc' ∧
      ((4 : Int) + 1 ≥ 15 → bucket cc' 7 "c" = none) ∧
      ((4 : Int) + 1 < 15 → bucket cc' 7 "c" = some ⟨0, 1 + 2, 4 + 1, false, 0⟩) :=
  tick_goodIP_fold demoPolicies (oneBucket 7 "c" ⟨2, 1, 4, false, 0⟩) 7 app7Policy
    "c" ⟨2, 1, 4, false, 0⟩ (by decide) (bucket_oneBucket 7 "c" _) rfl
    (by decide) (by decide)

/-! ## The per-request update -/

/-- C4: under an enabled policy, a call for a client whose bucket is bad returns
the attacker verdict with the policy and the clientID; needLog is true exactly
when `QuickCount` was 0, and then `QuickCount` becomes 1; when `QuickCount` was
not 0 nothing changes. No other bucket changes in either case. -/
theorem badIP_request_verdict (hash : String → String) (ccPolicies : CCPolicies)
    (ccCounts : CCCounts) (r : Request) (app : Application) (srcIP : String)
    (ccPolicy : CCPolicy) (stat : ClientStat)
    (hpol : GetCCPolicyByAppID ccPolicies app.ID = some ccPolicy)
    (hen : ccPolicy.IsEnabled = true)
    (hb : bucket ccCounts (ccAppIDOf ccPolicy app) (hash (preHashContent ccPolicy r srcIP))
      = some stat)
    (hbad : stat.IsBadIP = true) :
    ∃ cc', IsCCAttack hash ccPolicies ccCounts r app srcIP
        = some ({ isCC := true, ccPolicy := some ccPolicy,
                  clientID := hash (preHashContent ccPolicy r srcIP),
                  needLog := decide (stat.QuickCount = 0) }, cc') ∧
      (stat.QuickCount = 0 →
        bucket cc' (ccAppIDOf ccPolicy app) (hash (preHashContent ccPolicy r srcIP))
          = some { stat with QuickCount := 1 }) ∧
      (stat.QuickCount ≠ 0 → cc' = ccCounts) ∧
      (∀ a c, ¬ (a = ccAppIDOf ccPolicy app ∧ c = hash (preHashContent ccPolicy r srcIP)) →
        bucket cc' a c = bucket ccCounts a c) := by
  have hcall := IsCCAttack_enabled hash ccPolicies ccCounts r app srcIP ccPolicy hpol hen
  rw [hb] at hcall
  simp only [Option.getD_some, requestVerdict, hbad, if_true] at hcall
  refine ⟨_, hcall, ?_, ?_, ?_⟩
  · intro hq
    simp [bucket_update, requestBucket, hb, hbad, hq]
  · intro hq
    simp only [hb, Option.getD_some, requestBucket, hbad, hq, if_true, if_false]
    exact update_self_bucket ccCounts _ _ stat hb
  · intro a c hac
    simp only [bucket_update]
    by_cases ha : a = ccAppIDOf ccPolicy app
    · have hc : c ≠ hash (preHashContent ccPolicy r srcIP) := fun hc => hac ⟨ha, hc⟩
      simp [ha, Function.update_noteq hc, getD_empty_apply]
    · simp [ha]

/-- C4 for client 1.2.3.4 of app 7, blocked and not yet logged. -/
theorem badIP_request_verdict_witness :
    ∃ cc', IsCCAttack id demoPolicies (oneBucket 7 "1.2.3.4" ⟨0, 0, 0, true, 5⟩)
          demoRequest app7 "1.2.3.4"
        = some ({ isCC := true, ccPolicy := some app7Policy,
                  clientID := id (preHashContent app7Policy demoRequest "1.2.3.4"),
                  needLog := decide ((0 : Int) = 0) }, cc') ∧
      ((0 : Int) = 0 →
        bucket cc' (ccAppIDOf app7Policy app7)
            (id (preHashContent app7Policy demoRequest "1.2.3.4"))
          = some ⟨1, 0, 0, true, 5⟩) ∧
      ((0 : Int) ≠ 0 → cc' = oneBucket 7 "1.2.3.4" ⟨0, 0, 0, true, 5⟩) ∧
      (∀ a c, ¬ (a = ccAppIDOf app7Policy app7 ∧
            c = id (preHashContent app7Policy demoRequest "1.2.3.4")) →
        bucket cc' a c = bucket (oneBucket 7 "1.2.3.4" ⟨0, 0, 0, true, 5⟩) a c) :=
  badIP_request_verdict id demoPolicies (oneBucket 7 "1.2.3.4" ⟨0, 0, 0, true, 5⟩)
    demoRequest app7 "1.2.3.4" app7Policy ⟨0, 0, 0, true, 5⟩ (by decide) rfl
    (bucket_oneBucket 7 "1.2.3.4" _) rfl

/-- C5: under an enabled policy, a call for a client whose bucket is not bad (the
bucket found, or the one just created as `{0,0,0,false,0}`) returns the pass
verdict `(false, nil, "", false)` and leaves the bucket with `QuickCount`
increased by exactly one and every other field unchanged. No other bucket
changes. -/
theorem goodIP_request_counts (hash : String → String) (ccPolicies : CCPolicies)
    (ccCounts : CCCounts) (r : Request) (app : Application) (srcIP : String)
    (ccPolicy : CCPolicy) (stat : ClientStat)
    (hpol : GetCCPolicyByAppID ccPolicies app.ID = some ccPolicy)
    (hen : ccPolicy.IsEnabled = true)
    (hb : (bucket ccCounts (ccAppIDOf ccPolicy app)
      (hash (preHashContent ccPolicy r srcIP))).getD newClientStat = stat)
    (hnb : stat.IsBadIP = false) :
    ∃ cc', IsCCAttack hash ccPolicies ccCounts r app srcIP
        = some ({ isCC := false, ccPolicy := none, clientID := "", needLog := false }, cc') ∧
      bucket cc' (ccAppIDOf ccPolicy app) (hash (preHashContent ccPolicy r srcIP))
        = some { stat with QuickCount := stat.QuickCount + 1 } ∧
      (∀ a c, ¬ (a = ccAppIDOf ccPolicy app ∧ c = hash (preHashContent ccPolicy r srcIP)) →
        bucket cc' a c = bucket ccCounts a c) := by
  have hcall := IsCCAttack_enabled hash ccPolicies ccCounts r app srcIP ccPolicy hpol hen
  rw [hb] at hcall
  simp only [requestVerdict, hnb, if_false, Bool.false_eq_true, passVerdict] at hcall
  refine ⟨_, hcall, ?_, ?_⟩
  · simp [bucket_update, requestBucket, hnb]
  · intro a c hac
    simp only [bucket_update]
    by_cases ha : a = ccAppIDOf ccPolicy app
    · have hc : c ≠ hash (preHashContent ccPolicy r srcIP) := fun hc => hac ⟨ha, hc⟩
      simp [ha, Function.update_noteq hc, getD_empty_apply]
    · simp [ha]

/-- C5 for the first request of client 1.2.3.4 to app 7: the bucket is created. -/
theorem goodIP_request_counts_witness :
    ∃ cc', IsCCAttack id demoPolicies noCounts demoRequest app7 "1.2.3.4"
        = some ({ isCC := false, ccPolicy := none, clientID := "", needLog := false }, cc') ∧
      bucket cc' (ccAppIDOf app7Policy app7)
          (id (preHashContent app7Policy demoRequest "1.2.3.4"))
        = some { newClientStat with QuickCount := newClientStat.QuickCount + 1 } ∧
      (∀ a c, ¬ (a = ccAppIDOf app7Policy app7 ∧
            c = id (preHashContent app7Policy demoRequest "1.2.3.4")) →
        bucket cc' a c = bucket noCounts a c) :=
  goodIP_request_counts id demoPolicies noCounts demoRequest app7 "1.2.3.4" app7Policy
    newClientStat (by decide) rfl rfl rfl

/-- C6: when the effective policy of the app (its own, or the global one when it
has none) is disabled, `IsCCAttack` returns the pass verdict and `ccCounts` is
returned as it was: no map and no bucket is created, no counter changes. -/
theorem disabled_policy_no_update (hash : String → String) (ccPolicies : CCPolicies)
    (ccCounts : CCCounts) (r : Request) (app : Application) (srcIP : String)
    (ccPolicy : CCPolicy)
    (hpol : GetCCPolicyByAppID ccPolicies app.ID = some ccPolicy)
    (hen : ccPolicy.IsEnabled = false) :
    IsCCAttack hash ccPolicies ccCounts r app srcIP
      = some ({ isCC := false, ccPolicy := none, clientID := "", needLog := false },
          ccCounts) :=
  IsCCAttack_disabled hash ccPolicies ccCounts r app srcIP ccPolicy hpol hen

/-- C6 for app 8, whose own policy is disabled. -/
theorem disabled_policy_no_update_witness :
    IsCCAttack id demoPolicies noCounts demoRequest app8 "1.2.3.4"
      = some ({ isCC := false, ccPolicy := none, clientID := "", needLog := false },
          noCounts) :=
  disabled_policy_no_update id demoPolicies noCounts demoRequest app8 "1.2.3.4" app8Policy
    (by decide) rfl

/-! ## Traces -/

/-- C1, as the code has it: once a decay step has promoted a client's bucket to
bad, every call of `IsCCAttack` for that client returns the attacker verdict
together with that policy, whatever else is interleaved, as long as the
countdown of the further decay steps of that policy has stayed positive: the
countdown starts at `BlockSeconds` and each decay step subtracts
`IntervalMilliSeconds / 1000` in float64, that is, quotient and difference are
rounded by `roundFloat64`, which keeps 0 and sends any other `q`, of binade `b`,
to the multiple of `2 ^ (max b (-1022) - 52)` nearest to `q`, the even multiple
in a tie. -/
theorem blocked_client_gets_attacker_verdict (hash : String → String)
    (ccPolicies : CCPolicies) (hwk : WellKeyed ccPolicies) (appID : Int) (clientID : String)
    (ccPolicy : CCPolicy) (hpol : ccPolicies appID = some ccPolicy)
    (ccCounts : CCCounts) (s : ClientStat)
    (hb : bucket ccCounts appID clientID = some s) (hnb : s.IsBadIP = false)
    (cc1 : CCCounts) (htick : CCAttackTick ccPolicies ccCounts appID = some cc1)
    (s1 : ClientStat) (hb1 : bucket cc1 appID clientID = some s1) (hbad : s1.IsBadIP = true)
    (es : List Event) (hok : ∀ e ∈ es, e.ok ccPolicies = true)
    (hcount : ∀ k, k < countTicks appID es →
      0 < countdown ccPolicy ccPolicy.BlockSeconds (k + 1))
    (r : Request) (app : Application) (srcIP : String)
    (hreq : bucketKey hash ccPolicies r app srcIP = some (appID, clientID)) :
    (∃ vs cc2, run hash ccPolicies cc1 es = some (vs, cc2) ∧
      (∃ t2, bucket cc2 appID clientID = some t2 ∧ t2.IsBadIP = true ∧
        t2.RemainSeconds
          = countdown ccPolicy ccPolicy.BlockSeconds (countTicks appID es)) ∧
      ∃ needLog cc3, IsCCAttack hash ccPolicies cc2 r app srcIP
        = some ({ isCC := true, ccPolicy := some ccPolicy, clientID := clientID,
                  needLog := needLog }, cc3)) ∧
    countdown ccPolicy ccPolicy.BlockSeconds 0 = ccPolicy.BlockSeconds ∧
    (∀ n, countdown ccPolicy ccPolicy.BlockSeconds (n + 1)
      = roundFloat64 (countdown ccPolicy ccPolicy.BlockSeconds n
          - roundFloat64 (ccPolicy.IntervalMilliSeconds / 1000))) ∧
    roundFloat64 0 = 0 ∧
    (∀ q : ℚ, q ≠ 0 → ∃ b n : ℤ, (2 : ℚ) ^ b ≤ |q| ∧ |q| < (2 : ℚ) ^ (b + 1) ∧
      roundFloat64 q = n * (2 : ℚ) ^ (max b (-1022) - 52) ∧
      |q / (2 : ℚ) ^ (max b (-1022) - 52) - n| ≤ 1 / 2 ∧
      (|q / (2 : ℚ) ^ (max b (-1022) - 52) - n| = 1 / 2 → Even n)) := by
  refine ⟨?_, rfl, fun _ => rfl, roundFloat64_zero, roundFloat64_spec⟩
  obtain ⟨hrem, _⟩ := promoted_bucket ccPolicies ccCounts appID clientID ccPolicy hpol s hb hnb
    cc1 htick s1 hb1 hbad
  obtain ⟨vs, cc2, t2, hrun, hb2, hbad2, hr2, _⟩ :=
    blocked_window hash ccPolicies appID clientID ccPolicy hpol es cc1 s1 hok hb1 hbad
      (by rw [hrem]; exact hcount)
  obtain ⟨cc3, hcall⟩ := request_on_bucket hash ccPolicies hwk cc2 r app srcIP appID clientID
    ccPolicy hpol hreq
  rw [hb2] at hcall
  simp only [Option.getD_some, requestVerdict, hbad2, if_true] at hcall
  exact ⟨vs, cc2, hrun, ⟨t2, hb2, hbad2, by rw [hr2, hrem]⟩, _, cc3, hcall⟩

/-- C10, as the code has it: in the block window that follows a promotion (the
countdown of the decay steps, computed in float64, still positive), a call of
the blocked client returns needLog = true exactly when it is the client's first
call since the promotion; every later call of the window returns
needLog = false, whatever decay steps lie in between. The countdown starts at
`BlockSeconds`; each decay step subtracts `IntervalMilliSeconds / 1000`, quotient
and difference rounded by `roundFloat64` (0 is kept; any other `q`, of binade
`b`, goes to the multiple of `2 ^ (max b (-1022) - 52)` nearest to `q`, the even
multiple in a tie). -/
theorem blocked_client_logged_once (hash : String → String)
    (ccPolicies : CCPolicies) (hwk : WellKeyed ccPolicies) (appID : Int) (clientID : String)
    (ccPolicy : CCPolicy) (hpol : ccPolicies appID = some ccPolicy)
    (ccCounts : CCCounts) (s : ClientStat)
    (hb : bucket ccCounts appID clientID = some s) (hnb : s.IsBadIP = false)
    (cc1 : CCCounts) (htick : CCAttackTick ccPolicies ccCounts appID = some cc1)
    (s1 : ClientStat) (hb1 : bucket cc1 appID clientID = some s1) (hbad : s1.IsBadIP = true)
    (es : List Event) (hok : ∀ e ∈ es, e.ok ccPolicies = true)
    (hcount : ∀ k, k < countTicks appID es →
      0 < countdown ccPolicy ccPolicy.BlockSeconds (k + 1))
    (r : Request) (app : Application) (srcIP : String)
    (hreq : bucketKey hash ccPolicies r app srcIP = some (appID, clientID)) :
    (∃ vs cc2, run hash ccPolicies cc1 es = some (vs, cc2) ∧
      ∃ cc3, IsCCAttack hash ccPolicies cc2 r app srcIP
        = some ({ isCC := true, ccPolicy := some ccPolicy, clientID := clientID,
                  needLog := !(es.any (Event.hits hash ccPolicies appID clientID)) },
            cc3)) ∧
    countdown ccPolicy ccPolicy.BlockSeconds 0 = ccPolicy.BlockSeconds ∧
    (∀ n, countdown ccPolicy ccPolicy.BlockSeconds (n + 1)
      = roundFloat64 (countdown ccPolicy ccPolicy.BlockSeconds n
          - roundFloat64 (ccPolicy.IntervalMilliSeconds / 1000))) ∧
    roundFloat64 0 = 0 ∧
    (∀ q : ℚ, q ≠ 0 → ∃ b n : ℤ, (2 : ℚ) ^ b ≤ |q| ∧ |q| < (2 : ℚ) ^ (b + 1) ∧
      roundFloat64 q = n * (2 : ℚ) ^ (max b (-1022) - 52) ∧
      |q / (2 : ℚ) ^ (max b (-1022) - 52) - n| ≤ 1 / 2 ∧
      (|q / (2 : ℚ) ^ (max b (-1022) - 52) - n| = 1 / 2 → Even n)) := by
  refine ⟨?_, rfl, fun _ => rfl, roundFloat64_zero, roundFloat64_spec⟩
  obtain ⟨hrem, hq0⟩ := promoted_bucket ccPolicies ccCounts appID clientID ccPolicy hpol s hb
    hnb cc1 htick s1 hb1 hbad
  obtain ⟨vs, cc2, t2, hrun, hb2, hbad2, _, hq2⟩ :=
    blocked_window hash ccPolicies appID clientID ccPolicy hpol es cc1 s1 hok hb1 hbad
      (by rw [hrem]; exact hcount)
  obtain ⟨cc3, hcall⟩ := request_on_bucket hash ccPolicies hwk cc2 r app srcIP appID clientID
    ccPolicy hpol hreq
  rw [hb2] at hcall
  simp only [Option.getD_some, requestVerdict, hbad2, if_true] at hcall
  refine ⟨vs, cc2, hrun, cc3, ?_⟩
  rw [hcall]
  have hdec : decide (t2.QuickCount = 0)
      = !(es.any (Event.hits hash ccPolicies appID clientID)) := by
    cases hany : es.any (Event.hits hash ccPolicies appID clientID)
    · simpa [hq0, hany] using hq2
    · simpa [hq0, hany] using hq2
  rw [hdec]

theorem four_requests_scenario (hash : String → String) (ccPolicies : CCPolicies)
    (ccCounts : CCCounts) (r : Request) (app : Application) (srcIP : String) (u a c : Bool)
    (hpol : ccPolicies 7 = some (scenario2Policy u a c)) (happ : app.ID = 7)
    (hnone : bucket ccCounts 7 (hash (preHashContent (scenario2Policy u a c) r srcIP)) = none) :
    (outputs hash ccPolicies ccCounts
        (fourCalls (Event.request r app srcIP) (some 3))
      = some [some passVerdict, some passVerdict, some passVerdict, none,
          some { isCC := true, ccPolicy := some (scenario2Policy u a c),
                 clientID := hash (preHashContent (scenario2Policy u a c) r srcIP),
                 needLog := true }] ∧
      bucketAfter hash ccPolicies ccCounts
          (fourCalls (Event.request r app srcIP) (some 3)) 7
          (hash (preHashContent (scenario2Policy u a c) r srcIP))
        = some (some ⟨1, 0, 0, true, 5⟩)) ∧
    (∀ k : Option (Fin 5), k ≠ some 3 →
      (outputs hash ccPolicies ccCounts (fourCalls (Event.request r app srcIP) k)).map
          (List.filterMap id)
        = some [passVerdict, passVerdict, passVerdict, passVerdict]) := by
  have hget : GetCCPolicyByAppID ccPolicies app.ID = some (scenario2Policy u a c) := by
    simp [GetCCPolicyByAppID, happ, hpol]
  have hen : (scenario2Policy u a c).IsEnabled = true := rfl
  have hmax : (scenario2Policy u a c).MaxCount = 3 := rfl
  have hblock : (scenario2Policy u a c).BlockSeconds = 5 := rfl
  have hkey : ccAppIDOf (scenario2Policy u a c) app = 7 := by
    simp [ccAppIDOf, scenario2Policy, happ]
  refine ⟨⟨?_, ?_⟩, ?_⟩
  · simp [outputs, fourCalls, List.replicate, run, step,
      IsCCAttack_enabled hash ccPolicies _ r app srcIP _ hget hen,
      hkey, CCAttackTick, hpol, bucket_update, bucket_tickWith, hnone, requestVerdict,
      requestBucket, newClientStat, tickBucket, hmax, hblock]
  · simp [bucketAfter, fourCalls, List.replicate, run, step,
      IsCCAttack_enabled hash ccPolicies _ r app srcIP _ hget hen,
      hkey, CCAttackTick, hpol, bucket_update, bucket_tickWith, hnone, requestVerdict,
      requestBucket, newClientStat, tickBucket, hmax, hblock]
  · intro k hk
    rcases k with _ | ⟨k, hk5⟩
    · simp [outputs, fourCalls, List.replicate, run, step,
        IsCCAttack_enabled hash ccPolicies _ r app srcIP _ hget hen,
        hkey, CCAttackTick, hpol, bucket_update, bucket_tickWith, hnone, requestVerdict,
        requestBucket, newClientStat, tickBucket, hmax, hblock]
    · have hk3 : k ≠ 3 := by
        intro h; subst h; exact hk rfl
      interval_cases k
      · simp [outputs, fourCalls, List.replicate, run, step,
          IsCCAttack_enabled hash ccPolicies _ r app srcIP _ hget hen,
          hkey, CCAttackTick, hpol, bucket_update, bucket_tickWith, hnone, requestVerdict,
          requestBucket, newClientStat, tickBucket, hmax, hblock]
      · simp [outputs, fourCalls, List.replicate, run, step,
          IsCCAttack_enabled hash ccPolicies _ r app srcIP _ hget hen,
          hkey, CCAttackTick, hpol, bucket_update, bucket_tickWith, hnone, requestVerdict,
          requestBucket, newClientStat, tickBucket, hmax, hblock]
      · simp [outputs, fourCalls, List.replicate, run, step,
          IsCCAttack_enabled hash ccPolicies _ r app srcIP _ hget hen,
          hkey, CCAttackTick, hpol, bucket_update, bucket_tickWith, hnone, requestVerdict,
          requestBucket, newClientStat, tickBucket, hmax, hblock]
      · exact absurd rfl hk3
      · simp [outputs, fourCalls, List.replicate, run, step,
          IsCCAttack_enabled hash ccPolicies _ r app srcIP _ hget hen,
          hkey, CCAttackTick, hpol, bucket_update, bucket_tickWith, hnone, requestVerdict,
          requestBucket, newClientStat, tickBucket, hmax, hblock]

/-- C9, as the code has it: a bucket that is never promoted lives for exactly
fifteen decay steps from its creation, whether or not its client goes on sending
requests. After the creating request and any trace holding at most 14 decay
steps of the bucket's app the bucket is still there, its `TimeFrameCount` being
the number of those decay steps, and the next decay step destroys it exactly
when it is the fifteenth. -/
theorem unpromoted_bucket_evicted_at_15th_tick (hash : String → String)
    (ccPolicies : CCPolicies) (appID : Int) (clientID : String) (ccCounts : CCCounts)
    (hnone : bucket ccCounts appID clientID = none)
    (r : Request) (app : Application) (srcIP : String)
    (hreq : bucketKey hash ccPolicies r app srcIP = some (appID, clientID))
    (es : List Event) (hok : ∀ e ∈ es, e.ok ccPolicies = true)
    (hpol : (ccPolicies appID).isSome = true)
    (hnever : neverBadAlong hash ccPolicies appID clientID ccCounts
      (Event.request r app srcIP :: (es ++ [Event.tick appID])) = true)
    (hcount : countTicks appID es ≤ 14) :
    ∃ vs cc1 s1 cc2,
      run hash ccPolicies ccCounts (Event.request r app srcIP :: es) = some (vs, cc1) ∧
      bucket cc1 appID clientID = some s1 ∧
      s1.TimeFrameCount = (countTicks appID es : ℤ) ∧
      CCAttackTick ccPolicies cc1 appID = some cc2 ∧
      (bucket cc2 appID clientID = none ↔ countTicks appID es = 14) := by
  have hok0 : (Event.request r app srcIP).ok ccPolicies = true := by
    obtain ⟨p, hp, _, _⟩ := (bucketKey_eq_some hash ccPolicies r app srcIP _).mp hreq
    simp [Event.ok, hp]
  obtain ⟨v, cc0, hstep⟩ := step_ok hash ccPolicies ccCounts _ hok0
  have hb0 := step_bucket hash ccPolicies ccCounts appID clientID _ v cc0 hstep
  simp only [localStep, hreq, if_true, hnone, Option.getD_none] at hb0
  simp only [neverBadAlong, hstep, Bool.and_eq_true] at hnever
  obtain ⟨vs, cc1, hrun⟩ := run_ok hash ccPolicies es cc0 hok
  obtain ⟨hn1, hn2⟩ := neverBadAlong_append hash ccPolicies appID clientID es
    [Event.tick appID] cc0 vs cc1 hrun hnever.2
  have hfresh : (requestBucket newClientStat).TimeFrameCount = 0 := by
    simp [requestBucket, newClientStat]
  obtain ⟨vs2, cc1b, s1, hrun2, hb1, hnb1, htf⟩ :=
    unpromoted_lifetime hash ccPolicies appID clientID es cc0 _ hok hb0 hn1
      (by rw [hfresh]; omega)
  rw [hrun] at hrun2
  simp only [Option.some.injEq, Prod.mk.injEq] at hrun2
  obtain ⟨_, hcc⟩ := hrun2
  subst hcc
  rw [hfresh, zero_add] at htf
  obtain ⟨p, hp⟩ := Option.isSome_iff_exists.mp hpol
  refine ⟨v :: vs, cc1, s1, CCAttackTickWith p cc1 appID,
    run_cons hash ccPolicies ccCounts _ es v cc0 vs cc1 hstep hrun, hb1, htf,
    by simp [CCAttackTick, hp], ?_⟩
  have hfinal : notBad (bucket (CCAttackTickWith p cc1 appID) appID clientID) = true := by
    simpa [neverBadAlong, step, CCAttackTick, hp, hb1, notBad, hnb1] using hn2
  rw [bucket_tickWith] at hfinal ⊢
  simp only [if_true, hb1, Option.some_bind, tickBucket, hnb1, Bool.false_eq_true,
    if_false] at hfinal ⊢
  split at hfinal
  · simp [notBad] at hfinal
  · split at hfinal
    · simp [notBad] at hfinal
    · rename_i hq hs
      simp only [hq, hs, if_false, htf]
      by_cases h14 : countTicks appID es = 14
      · simp [h14]
      · have : ¬ ((countTicks appID es : ℤ) + 1 ≥ 15) := by omega
        simp [h14, this]

theorem countdown_app7_one : countdown app7Policy app7Policy.BlockSeconds 1 = 4 := by
  show float64Sub 5 (float64Div 1000 1000) = 4
  rw [float64Div_thousand, float64Sub_five_one]

theorem countTicks_call_tick_call : countTicks 7 [request7, Event.tick 7, request7] = 1 := by
  simp [countTicks, request7]

theorem countTicks_call_tick : countTicks 7 [request7, Event.tick 7] = 1 := by
  simp [countTicks, request7]

/-- C1, as the code has it, for client 1.2.3.4 of app 7 (five seconds of block,
a decay step every second): promoted, then a call, a decay step, a call; the
countdown after the decay step is 4. -/
theorem blocked_client_gets_attacker_verdict_witness :
    ∃ vs cc2, run id demoPolicies (CCAttackTickWith app7Policy atThreshold 7)
        [request7, Event.tick 7, request7] = some (vs, cc2) ∧
      (∃ t2, bucket cc2 7 "1.2.3.4" = some t2 ∧ t2.IsBadIP = true ∧
        t2.RemainSeconds = countdown app7Policy app7Policy.BlockSeconds
          (countTicks 7 [request7, Event.tick 7, request7])) ∧
      ∃ needLog cc3, IsCCAttack id demoPolicies cc2 demoRequest app7 "1.2.3.4"
        = some ({ isCC := true, ccPolicy := some app7Policy, clientID := "1.2.3.4",
                  needLog := needLog }, cc3) :=
  (blocked_client_gets_attacker_verdict id demoPolicies demoPolicies_wellKeyed 7 "1.2.3.4"
    app7Policy (by decide)
    atThreshold ⟨3, 0, 0, false, 0⟩ (bucket_oneBucket 7 "1.2.3.4" _) rfl
    (CCAttackTickWith app7Policy atThreshold 7) (by simp [CCAttackTick, demoPolicies])
    ⟨0, 0, 0, true, 5⟩ atThreshold_promoted rfl
    [request7, Event.tick 7, request7] (by decide)
    (by
      intro k hk
      rw [countTicks_call_tick_call] at hk
      have hk0 : k = 0 := by omega
      subst hk0
      rw [countdown_app7_one]
      norm_num)
    demoRequest app7 "1.2.3.4" (by decide)).1

/-- C1 fails as stated: the policy of app 7 blocks for 0.1 s (the float64
nearest to 0.1) with a decay step every 100 ms, so that
`⌈BlockSeconds * 1000 / IntervalMilliSeconds⌉ = 2` and one further decay step is
fewer than that. A decay step promotes client 1.2.3.4; the next decay step
computes `100 / 1000` in float64, which is that same float64, subtracts it, gets
0 and deletes the bucket; the client's next call passes. -/
theorem tenth_second_block_ends_at_first_tick :
    roundFloat64 (1 / 10) = tenthPolicy.BlockSeconds ∧
    ⌈tenthPolicy.BlockSeconds * 1000 / tenthPolicy.IntervalMilliSeconds⌉ = 2 ∧
    countTicks 7 [Event.tick 7] = 1 ∧
    bucketAfter id tenthPolicies atThreshold [Event.tick 7] 7 "1.2.3.4"
      = some (some ⟨0, 0, 0, true, tenthPolicy.BlockSeconds⟩) ∧
    bucketAfter id tenthPolicies atThreshold [Event.tick 7, Event.tick 7] 7 "1.2.3.4"
      = some none ∧
    outputs id tenthPolicies atThreshold [Event.tick 7, Event.tick 7, request7]
      = some [none, none, some passVerdict] := by
  have hdiv : float64Div 100 1000 = 3602879701896397 / 36028797018963968 :=
    float64Div_hundred
  have hround : roundFloat64 (1 / 10) = 3602879701896397 / 36028797018963968 := by
    have h : (100 : ℚ) / 1000 = 1 / 10 := by norm_num
    rw [← h]; exact hdiv
  have hsub : float64Sub (3602879701896397 / 36028797018963968)
      (3602879701896397 / 36028797018963968) = 0 := float64Sub_self _
  refine ⟨by rw [hround]; rfl, ?_, by simp [countTicks], ?_, ?_, ?_⟩
  · rw [Int.ceil_eq_iff]
    norm_num [tenthPolicy, app7Policy]
  · simp [bucketAfter, bucket, run, step, atThreshold, CCAttackTick, CCAttackTickWith,
      tenthPolicies, tenthPolicy, app7Policy, oneBucket, noCounts, tickAppCCCount, tickBucket,
      emptyAppCCCount]
  · simp [bucketAfter, bucket, run, step, atThreshold, CCAttackTick, CCAttackTickWith,
      tenthPolicies, tenthPolicy, app7Policy, oneBucket, noCounts, tickAppCCCount, tickBucket,
      emptyAppCCCount, hdiv, hsub]
  · simp [outputs, run, step, request7, atThreshold, CCAttackTick, CCAttackTickWith, IsCCAttack,
      tenthPolicies, tenthPolicy, GetCCPolicyByAppID, app7Policy, oneBucket, noCounts,
      tickAppCCCount, tickBucket, emptyAppCCCount, app7, ccAppIDOf, preHashContent, demoRequest,
      newClientStat, hdiv, hsub, passVerdict]

/-- C10, as the code has it, for client 1.2.3.4 of app 7: the call that follows a
call and a decay step is not logged. -/
theorem blocked_client_logged_once_witness :
    ∃ vs cc2, run id demoPolicies (CCAttackTickWith app7Policy atThreshold 7)
        [request7, Event.tick 7] = some (vs, cc2) ∧
      ∃ cc3, IsCCAttack id demoPolicies cc2 demoRequest app7 "1.2.3.4"
        = some ({ isCC := true, ccPolicy := some app7Policy, clientID := "1.2.3.4",
                  needLog := !([request7, Event.tick 7].any
                    (Event.hits id demoPolicies 7 "1.2.3.4")) }, cc3) :=
  (blocked_client_logged_once id demoPolicies demoPolicies_wellKeyed 7 "1.2.3.4"
    app7Policy (by decide)
    atThreshold ⟨3, 0, 0, false, 0⟩ (bucket_oneBucket 7 "1.2.3.4" _) rfl
    (CCAttackTickWith app7Policy atThreshold 7) (by simp [CCAttackTick, demoPolicies])
    ⟨0, 0, 0, true, 5⟩ atThreshold_promoted rfl
    [request7, Event.tick 7] (by decide)
    (by
      intro k hk
      rw [countTicks_call_tick] at hk
      have hk0 : k = 0 := by omega
      subst hk0
      rw [countdown_app7_one]
      norm_num)
    demoRequest app7 "1.2.3.4" (by decide)).1

/-- C10 fails as stated: client 1.2.3.4 of app 7 is promoted by a decay step,
makes a request (logged), a second decay step starts the next interval of the
five-second block window, and the client's first request of that interval
returns needLog = false. -/
theorem second_interval_first_request_not_logged :
    outputs id demoPolicies atThreshold [Event.tick 7, request7, Event.tick 7, request7]
      = some [none,
          some { isCC := true, ccPolicy := some app7Policy, clientID := "1.2.3.4",
                 needLog := true },
          none,
          some { isCC := true, ccPolicy := some app7Policy, clientID := "1.2.3.4",
                 needLog := false }] ∧
    bucketAfter id demoPolicies atThreshold [Event.tick 7, request7, Event.tick 7] 7 "1.2.3.4"
      = some (some ⟨1, 0, 0, true, 4⟩) := by
  have h4 : ¬ (4 : ℚ) ≤ 0 := by norm_num
  constructor
  · simp [outputs, run, step, request7, atThreshold, CCAttackTick, CCAttackTickWith, IsCCAttack,
      demoPolicies, GetCCPolicyByAppID, app7Policy, oneBucket, noCounts, tickAppCCCount,
      tickBucket, emptyAppCCCount, app7, ccAppIDOf, preHashContent, demoRequest, newClientStat,
      float64Div_thousand, float64Sub_five_one, h4]
  · simp [bucketAfter, bucket, run, step, request7, atThreshold, CCAttackTick, CCAttackTickWith,
      IsCCAttack, demoPolicies, GetCCPolicyByAppID, app7Policy, oneBucket, noCounts,
      tickAppCCCount, tickBucket, emptyAppCCCount, app7, ccAppIDOf, preHashContent,
      demoRequest, newClientStat, float64Div_thousand, float64Sub_five_one, h4]

/-- C2 fails as stated: with no decay step among them, the four calls of client
1.2.3.4 to app 7 all return pass, and the bucket is not bad afterwards. -/
theorem four_requests_without_tick_all_pass :
    outputs id demoPolicies noCounts (fourCalls request7 none)
      = some [some passVerdict, some passVerdict, some passVerdict, some passVerdict] ∧
    bucketAfter id demoPolicies noCounts (fourCalls request7 none) 7 "1.2.3.4"
      = some (some ⟨4, 0, 0, false, 0⟩) := by
  constructor
  · simp [outputs, fourCalls, List.replicate, run, step, request7, IsCCAttack, demoPolicies,
      GetCCPolicyByAppID, app7Policy, noCounts, emptyAppCCCount, app7, ccAppIDOf,
      preHashContent, demoRequest, newClientStat]
  · simp [bucketAfter, bucket, fourCalls, List.replicate, run, step, request7, IsCCAttack,
      demoPolicies, GetCCPolicyByAppID, app7Policy, noCounts, emptyAppCCCount, app7,
      ccAppIDOf, preHashContent, demoRequest, newClientStat]

/-- C2, as the code has it, for client 1.2.3.4 of app 7 starting from an empty
`ccCounts`. -/
theorem four_requests_scenario_witness :
    (outputs id demoPolicies noCounts
        (fourCalls (Event.request demoRequest app7 "1.2.3.4") (some 3))
      = some [some passVerdict, some passVerdict, some passVerdict, none,
          some { isCC := true, ccPolicy := some (scenario2Policy false false false),
                 clientID := id (preHashContent (scenario2Policy false false false)
                   demoRequest "1.2.3.4"),
                 needLog := true }] ∧
      bucketAfter id demoPolicies noCounts
          (fourCalls (Event.request demoRequest app7 "1.2.3.4") (some 3)) 7
          (id (preHashContent (scenario2Policy false false false) demoRequest "1.2.3.4"))
        = some (some ⟨1, 0, 0, true, 5⟩)) ∧
    (∀ k : Option (Fin 5), k ≠ some 3 →
      (outputs id demoPolicies noCounts
          (fourCalls (Event.request demoRequest app7 "1.2.3.4") k)).map (List.filterMap id)
        = some [passVerdict, passVerdict, passVerdict, passVerdict]) :=
  four_requests_scenario id demoPolicies noCounts demoRequest app7 "1.2.3.4"
    false false false (by decide) rfl rfl

set_option maxRecDepth 10000 in
/-- C9 fails as stated: client 1.2.3.4 of app 9 sends one request in every
interval, far below `MaxCount = 100`, and is never promoted; its bucket is still
there before the fifteenth decay step, with the request of the current interval
counted, and the fifteenth decay step destroys it. -/
theorem busy_client_evicted :
    neverBadAlong id demoPolicies 9 "1.2.3.4" noCounts busyTrace = true ∧
    bucketAfter id demoPolicies noCounts (busyTrace.take 29) 9 "1.2.3.4"
      = some (some ⟨1, 14, 14, false, 0⟩) ∧
    bucketAfter id demoPolicies noCounts busyTrace 9 "1.2.3.4" = some none := by
  refine ⟨?_, ?_, ?_⟩
  · simp [busyTrace, List.replicate, neverBadAlong, step, CCAttackTick, CCAttackTickWith,
      IsCCAttack, demoPolicies, GetCCPolicyByAppID, app7Policy, app9Policy, noCounts,
      tickAppCCCount, tickBucket, emptyAppCCCount, app9, ccAppIDOf, preHashContent,
      demoRequest, newClientStat, bucket, notBad]
  · simp [busyTrace, List.replicate, bucketAfter, run, step, CCAttackTick, CCAttackTickWith,
      IsCCAttack, demoPolicies, GetCCPolicyByAppID, app7Policy, app9Policy, noCounts,
      tickAppCCCount, tickBucket, emptyAppCCCount, app9, ccAppIDOf, preHashContent,
      demoRequest, newClientStat, bucket]
  · simp [busyTrace, List.replicate, bucketAfter, run, step, CCAttackTick, CCAttackTickWith,
      IsCCAttack, demoPolicies, GetCCPolicyByAppID, app7Policy, app9Policy, noCounts,
      tickAppCCCount, tickBucket, emptyAppCCCount, app9, ccAppIDOf, preHashContent,
      demoRequest, newClientStat, bucket]

set_option maxRecDepth 10000 in
/-- C9, as the code has it, for client 1.2.3.4 of app 9 sending one request in
every interval: the fifteenth decay step destroys the bucket. -/
theorem unpromoted_bucket_evicted_at_15th_tick_witness :
    ∃ vs cc1 s1 cc2,
      run id demoPolicies noCounts (Event.request demoRequest app9 "1.2.3.4" :: busyMiddle)
        = some (vs, cc1) ∧
      bucket cc1 9 "1.2.3.4" = some s1 ∧
      s1.TimeFrameCount = (countTicks 9 busyMiddle : ℤ) ∧
      CCAttackTick demoPolicies cc1 9 = some cc2 ∧
      (bucket cc2 9 "1.2.3.4" = none ↔ countTicks 9 busyMiddle = 14) :=
  unpromoted_bucket_evicted_at_15th_tick id demoPolicies 9 "1.2.3.4" noCounts rfl
    demoRequest app9 "1.2.3.4" (by decide) busyMiddle (by decide) (by decide)
    (by
      simp [busyMiddle, busyTrace, List.replicate, neverBadAlong, step, CCAttackTick,
        CCAttackTickWith, IsCCAttack, demoPolicies, GetCCPolicyByAppID, app7Policy, app9Policy,
        noCounts, tickAppCCCount, tickBucket, emptyAppCCCount, app9, ccAppIDOf,
        preHashContent, demoRequest, newClientStat, bucket, notBad])
    (by decide)

/-! ## The client fingerprint -/

/-- C11: under an enabled policy the clientID is the hash of srcIP followed by
the URL path, the User-Agent and the Cookie, each present only when its flag is
set; the call reads and updates exactly the bucket `(ccAppID, clientID)`, with
`ccAppID = 0` when the effective policy has `AppID = 0` and `app.ID` otherwise.
Hence a request that differs only in components whose flag is off, and, under
the global policy, a request to another app governed by it, gives the same
result on the same `ccCounts`. -/
theorem clientID_fingerprint (hash : String → String) (ccPolicies : CCPolicies)
    (ccCounts : CCCounts) (r : Request) (app : Application) (srcIP : String)
    (ccPolicy : CCPolicy)
    (hpol : GetCCPolicyByAppID ccPolicies app.ID = some ccPolicy)
    (hen : ccPolicy.IsEnabled = true)
    (clientID : String)
    (hcid : clientID = hash (srcIP ++ (if ccPolicy.StatByURL then r.URLPath else "")
      ++ (if ccPolicy.StatByUserAgent then r.UserAgent else "")
      ++ (if ccPolicy.StatByCookie then r.Cookie else "")))
    (ccAppID : Int) (hkey : ccAppID = if ccPolicy.AppID = 0 then 0 else app.ID) :
    (∃ cc', IsCCAttack hash ccPolicies ccCounts r app srcIP
        = some (requestVerdict ccPolicy clientID
            ((bucket ccCounts ccAppID clientID).getD newClientStat), cc') ∧
      bucket cc' ccAppID clientID
        = some (requestBucket ((bucket ccCounts ccAppID clientID).getD newClientStat)) ∧
      (∀ a c, ¬ (a = ccAppID ∧ c = clientID) → bucket cc' a c = bucket ccCounts a c)) ∧
    (∀ r2 : Request,
      (ccPolicy.StatByURL = true → r2.URLPath = r.URLPath) →
      (ccPolicy.StatByUserAgent = true → r2.UserAgent = r.UserAgent) →
      (ccPolicy.StatByCookie = true → r2.Cookie = r.Cookie) →
      IsCCAttack hash ccPolicies ccCounts r2 app srcIP
        = IsCCAttack hash ccPolicies ccCounts r app srcIP) ∧
    (∀ app2 : Application, ccPolicy.AppID = 0 →
      GetCCPolicyByAppID ccPolicies app2.ID = some ccPolicy →
      IsCCAttack hash ccPolicies ccCounts r app2 srcIP
        = IsCCAttack hash ccPolicies ccCounts r app srcIP) := by
  have hpre : ∀ q : Request, preHashContent ccPolicy q srcIP
      = srcIP ++ (if ccPolicy.StatByURL then q.URLPath else "")
        ++ (if ccPolicy.StatByUserAgent then q.UserAgent else "")
        ++ (if ccPolicy.StatByCookie then q.Cookie else "") := by
    intro q
    unfold preHashContent
    cases ccPolicy.StatByURL <;> cases ccPolicy.StatByUserAgent <;>
      cases ccPolicy.StatByCookie <;> simp
  have hcid2 : clientID = hash (preHashContent ccPolicy r srcIP) := by rw [hcid, hpre]
  have hkey2 : ccAppID = ccAppIDOf ccPolicy app := by rw [hkey]; rfl
  refine ⟨?_, ?_, ?_⟩
  · subst hcid2 hkey2
    refine ⟨_, IsCCAttack_enabled hash ccPolicies ccCounts r app srcIP ccPolicy hpol hen, ?_, ?_⟩
    · simp [bucket_update]
    · intro a c hac
      simp only [bucket_update]
      by_cases ha : a = ccAppIDOf ccPolicy app
      · have hc : c ≠ hash (preHashContent ccPolicy r srcIP) := fun hc => hac ⟨ha, hc⟩
        simp [ha, Function.update_noteq hc, getD_empty_apply]
      · simp [ha]
  · intro r2 hu ha hc
    have hsame : preHashContent ccPolicy r2 srcIP = preHashContent ccPolicy r srcIP := by
      rw [hpre, hpre]
      cases h1 : ccPolicy.StatByURL <;> cases h2 : ccPolicy.StatByUserAgent <;>
        cases h3 : ccPolicy.StatByCookie <;> simp_all
    rw [IsCCAttack_enabled hash ccPolicies ccCounts r2 app srcIP ccPolicy hpol hen,
      IsCCAttack_enabled hash ccPolicies ccCounts r app srcIP ccPolicy hpol hen, hsame]
  · intro app2 h0 hpol2
    have hk : ccAppIDOf ccPolicy app2 = ccAppIDOf ccPolicy app := by
      simp [ccAppIDOf, h0]
    rw [IsCCAttack_enabled hash ccPolicies ccCounts r app2 srcIP ccPolicy hpol2 hen,
      IsCCAttack_enabled hash ccPolicies ccCounts r app srcIP ccPolicy hpol hen, hk]

/-- C11 for app 5 under the global default policy (fingerprint: srcIP and URL
path): another cookie, or app 6 instead of app 5, gives the same result. -/
theorem clientID_fingerprint_witness :
    (∃ cc', IsCCAttack id demoPolicies noCounts demoRequest app5 "1.2.3.4"
        = some (requestVerdict defaultGlobalPolicy "1.2.3.4/"
            ((bucket noCounts 0 "1.2.3.4/").getD newClientStat), cc') ∧
      bucket cc' 0 "1.2.3.4/"
        = some (requestBucket ((bucket noCounts 0 "1.2.3.4/").getD newClientStat)) ∧
      (∀ a c, ¬ (a = 0 ∧ c = "1.2.3.4/") → bucket cc' a c = bucket noCounts a c)) ∧
    (∀ r2 : Request,
      (defaultGlobalPolicy.StatByURL = true → r2.URLPath = demoRequest.URLPath) →
      (defaultGlobalPolicy.StatByUserAgent = true → r2.UserAgent = demoRequest.UserAgent) →
      (defaultGlobalPolicy.StatByCookie = true → r2.Cookie = demoRequest.Cookie) →
      IsCCAttack id demoPolicies noCounts r2 app5 "1.2.3.4"
        = IsCCAttack id demoPolicies noCounts demoRequest app5 "1.2.3.4") ∧
    (∀ app2 : Application, defaultGlobalPolicy.AppID = 0 →
      GetCCPolicyByAppID demoPolicies app2.ID = some defaultGlobalPolicy →
      IsCCAttack id demoPolicies noCounts demoRequest app2 "1.2.3.4"
        = IsCCAttack id demoPolicies noCounts demoRequest app5 "1.2.3.4") :=
  clientID_fingerprint id demoPolicies noCounts demoRequest app5 "1.2.3.4"
    defaultGlobalPolicy (by decide) rfl "1.2.3.4/" (by decide) 0 (by decide)

/-! ## Administration of the CC policies -/

/-- C12: `DeleteCCPolicyByAppID` with `appID = 0` returns an error for every
caller and every `adminRequired`, and returns the state untouched (policy table,
stored policies, tickers, log and timestamp); and whatever sequence of
`DeleteCCPolicyByAppID` calls runs, the entry of the policy table under key 0 is
the same afterwards, so an existing global policy still exists. -/
theorem global_policy_cannot_be_deleted {Store : Type}
    (dalDeleteCCPolicy : Store → Int → Store × Bool) (st : CCAdmin Store) :
    (∀ (now : Int) (clientIP : String) (authUser : AuthUser) (adminRequired : Bool),
      ∃ err, DeleteCCPolicyByAppID dalDeleteCCPolicy now st 0 clientIP authUser adminRequired
        = (some err, st)) ∧
    (∀ calls : List DeleteCall,
      (runDeletes dalDeleteCCPolicy st calls).ccPolicies 0 = st.ccPolicies 0) := by
  constructor
  · intro now clientIP authUser adminRequired
    unfold DeleteCCPolicyByAppID
    by_cases h : (adminRequired && !authUser.IsSuperAdmin) = true
    · rw [if_pos h]; exact ⟨_, rfl⟩
    · rw [if_neg h, if_pos rfl]; exact ⟨_, rfl⟩
  · intro calls
    induction calls generalizing st with
    | nil => rfl
    | cons c cs ih =>
      simp only [runDeletes]
      rw [ih]
      unfold DeleteCCPolicyByAppID
      by_cases h : (c.adminRequired && !c.authUser.IsSuperAdmin) = true
      · rw [if_pos h]
      · by_cases h0 : c.appID = 0
        · rw [if_neg h, if_pos h0]
        · rw [if_neg h, if_neg h0]
          exact Function.update_noteq (Ne.symm h0) _ _

/-! ## Static resources -/

theorem filepathExtAux_dot (t rest acc : List Char)
    (ht : ∀ c ∈ t, c ≠ '.' ∧ c ≠ '/') :
    filepathExtAux (t.reverse ++ '.' :: rest) acc = '.' :: (t ++ acc) := by
  induction t using List.reverseRecOn generalizing acc with
  | nil => simp [filepathExtAux]
  | append_singleton t c ih =>
    have hc := ht c (by simp)
    have ht2 : ∀ d ∈ t, d ≠ '.' ∧ d ≠ '/' := fun d hd => ht d (by simp [hd])
    simp only [List.reverse_append, List.reverse_cons, List.reverse_nil, List.nil_append,
      List.singleton_append, List.cons_append, filepathExtAux, hc.1, hc.2, if_false]
    rw [ih (c :: acc) ht2]
    simp

theorem filepathExtAux_suffix (rev acc : List Char) (h : filepathExtAux rev acc ≠ []) :
    ∃ t rest, filepathExtAux rev acc = '.' :: (t ++ acc) ∧ rev = t.reverse ++ '.' :: rest := by
  induction rev generalizing acc with
  | nil => simp [filepathExtAux] at h
  | cons c rev ih =>
    simp only [filepathExtAux] at h ⊢
    by_cases h1 : c = '/'
    · simp [h1] at h
    · by_cases h2 : c = '.'
      · refine ⟨[], rev, ?_, ?_⟩ <;> simp [h1, h2]
      · simp only [h1, h2, if_false] at h ⊢
        obtain ⟨t, rest, h3, h4⟩ := ih (c :: acc) h
        refine ⟨t ++ [c], rest, ?_, ?_⟩
        · rw [h3]; simp
        · rw [h4]; simp

/-- For a suffix made of a dot followed by characters other than `.` and `/`,
`strings.HasSuffix` and equality of `filepath.Ext` agree. -/
theorem hasSuffix_iff_ext (uri : String) (t : List Char)
    (ht : ∀ c ∈ t, c ≠ '.' ∧ c ≠ '/') :
    stringsHasSuffix uri ⟨'.' :: t⟩ = true ↔ filepathExt uri = ⟨'.' :: t⟩ := by
  unfold stringsHasSuffix filepathExt
  rw [List.isSuffixOf_iff_suffix, String.ext_iff]
  show '.' :: t <:+ uri.data ↔ filepathExtAux uri.data.reverse [] = '.' :: t
  constructor
  · rintro ⟨pre, hpre⟩
    rw [← hpre]
    simp only [List.reverse_append, List.reverse_cons, List.append_assoc, List.singleton_append]
    rw [filepathExtAux_dot t _ [] ht]
    simp
  · intro h
    obtain ⟨t2, rest, h3, h4⟩ := filepathExtAux_suffix uri.data.reverse [] (by rw [h]; simp)
    rw [h] at h3
    simp only [List.append_nil, List.cons.injEq, true_and] at h3
    subst h3
    refine ⟨rest.reverse, ?_⟩
    have := congrArg List.reverse h4
    simpa using this.symm

theorem dynamicSuffix_any (uri : String) :
    dynamicSuffix.any (fun suffix => stringsHasSuffix uri suffix) = true
      ↔ filepathExt uri ∈ dynamicSuffix := by
  have h (t : List Char) (ht : ∀ c ∈ t, c ≠ '.' ∧ c ≠ '/') := hasSuffix_iff_ext uri t ht
  have h1 := h "html".data (by decide)
  have h2 := h "htm".data (by decide)
  have h3 := h "shtml".data (by decide)
  have h4 := h "php".data (by decide)
  have h5 := h "jsp".data (by decide)
  have h6 := h "aspx".data (by decide)
  have h7 := h "asp".data (by decide)
  have h8 := h "do".data (by decide)
  have h9 := h "cgi".data (by decide)
  have h10 := h "cfm".data (by decide)
  simp only [dynamicSuffix, List.any_cons, List.any_nil, Bool.or_false, Bool.or_eq_true,
    List.mem_cons, List.mem_singleton]
  exact or_congr h1 (or_congr h2 (or_congr h3 (or_congr h4 (or_congr h5 (or_congr h6
    (or_congr h7 (or_congr h8 (or_congr h9 (by simpa using h10)))))))))

/-- C18, as the code has it: `IsStaticResource` returns true if and only if the
method is GET, the RequestURI contains no `?`, it contains a `.`, its extension
(`filepath.Ext`) is not empty, and that extension is not one of the ten dynamic
suffixes. -/
theorem isStaticResource_iff (r : Request) :
    IsStaticResource r = true ↔
      r.Method = "GET" ∧ '?' ∉ r.RequestURI.data ∧ '.' ∈ r.RequestURI.data ∧
        filepathExt r.RequestURI ≠ "" ∧ filepathExt r.RequestURI ∉ dynamicSuffix := by
  unfold IsStaticResource
  rw [← dynamicSuffix_any]
  by_cases h1 : r.Method = "GET"
  · by_cases h2 : '?' ∈ r.RequestURI.data
    · simp [h1, h2, stringsContainsChar]
    · by_cases h3 : '.' ∈ r.RequestURI.data
      · by_cases h4 : filepathExt r.RequestURI = ""
        · simp [h1, h2, h3, h4, stringsContainsChar]
        · simp [h1, h2, h3, h4, stringsContainsChar]
      · simp [h1, h2, h3, stringsContainsChar]
  · simp [h1]

/-- C18 fails as stated: `GET /.svn/entries` meets the four conditions of the
claim (GET, no `?`, a `.`, an extension, here empty, that is not a dynamic
suffix), and `IsStaticResource` returns false, because the extension is empty. -/
theorem svn_entries_not_static :
    IsStaticResource svnEntriesRequest = false ∧
      svnEntriesRequest.Method = "GET" ∧ '?' ∉ svnEntriesRequest.RequestURI.data ∧
      '.' ∈ svnEntriesRequest.RequestURI.data ∧
      filepathExt svnEntriesRequest.RequestURI ∉ dynamicSuffix := by
  decide

/-! ## Raw values -/

/-- C17 fails on the code: in `%%%` every `%` is followed by `%` or by the end
of the string, yet the escaping step yields `%25%%25`, which is not a valid
percent-encoding (`%%2`); `url.QueryUnescape` fails on it and `UnEscapeRawValue`
returns `PreProcessString` of the empty string instead of the decoded input. -/
theorem triple_percent_not_decodable (PreProcessString : String → String) :
    escapeRawValue "%%%" = "%25%%25" ∧
      urlQueryUnescape "%25%%25" = none ∧
      UnEscapeRawValue PreProcessString "%%%" = PreProcessString "" := by
  have h1 : escapeRawValue "%%%" = "%25%%25" := by decide
  have h2 : urlQueryUnescape "%25%%25" = none := by decide
  refine ⟨h1, h2, ?_⟩
  unfold UnEscapeRawValue
  rw [h1, h2]
  rfl

/-- The escaping step does what it is meant to do on `%%`, `%'` and a trailing
`%`: the stray `%` signs become `%25` and the result decodes to the input. -/
theorem escape_examples :
    urlQueryUnescape (escapeRawValue "a%%") = some "a%%" ∧
      urlQueryUnescape (escapeRawValue "1%'2") = some "1%'2" ∧
      urlQueryUnescape (escapeRawValue "50%") = some "50%" ∧
      urlQueryUnescape (escapeRawValue "a%41+b") = some "aA b" := by
  decide

/-! ## The JSON walk -/

mutual
theorem IsJSONValueHitPolicy_eq_leaves (m : MatchGroupPolicy) (appID : Int) :
    ∀ v : JSONValue, IsJSONValueHitPolicy m appID v
      = (stringLeaves v).findSome? (fun s => m appID s ChkPoint.GetPostValue "" true)
  | JSONValue.null => by simp [IsJSONValueHitPolicy, stringLeaves]
  | JSONValue.bool _ => by simp [IsJSONValueHitPolicy, stringLeaves]
  | JSONValue.number _ => by simp [IsJSONValueHitPolicy, stringLeaves]
  | JSONValue.string s => by
    simp only [IsJSONValueHitPolicy, stringLeaves, List.findSome?]
    cases m appID s ChkPoint.GetPostValue "" true <;> rfl
  | JSONValue.object fields => by
    simp only [IsJSONValueHitPolicy, stringLeaves]
    exact rangeMap_eq_leaves m appID fields
  | JSONValue.array items => by
    simp only [IsJSONValueHitPolicy, stringLeaves]
    exact rangeSlice_eq_leaves m appID items
theorem rangeMap_eq_leaves (m : MatchGroupPolicy) (appID : Int) :
    ∀ fields : List (String × JSONValue), IsJSONValueHitPolicy.rangeMap m appID fields
      = (stringLeaves.ofFields fields).findSome?
          (fun s => m appID s ChkPoint.GetPostValue "" true)
  | [] => by simp [IsJSONValueHitPolicy.rangeMap, stringLeaves.ofFields]
  | (_, v) :: rest => by
    simp only [IsJSONValueHitPolicy.rangeMap, stringLeaves.ofFields, List.findSome?_append]
    rw [IsJSONValueHitPolicy_eq_leaves m appID v, rangeMap_eq_leaves m appID rest]
    cases (stringLeaves v).findSome? (fun s => m appID s ChkPoint.GetPostValue "" true) <;> rfl
theorem rangeSlice_eq_leaves (m : MatchGroupPolicy) (appID : Int) :
    ∀ items : List JSONValue, IsJSONValueHitPolicy.rangeSlice m appID items
      = (stringLeaves.ofItems items).findSome?
          (fun s => m appID s ChkPoint.GetPostValue "" true)
  | [] => by simp [IsJSONValueHitPolicy.rangeSlice, stringLeaves.ofItems]
  | v :: rest => by
    simp only [IsJSONValueHitPolicy.rangeSlice, stringLeaves.ofItems, List.findSome?_append]
    rw [IsJSONValueHitPolicy_eq_leaves m appID v, rangeSlice_eq_leaves m appID rest]
    cases (stringLeaves v).findSome? (fun s => m appID s ChkPoint.GetPostValue "" true) <;> rfl
end

theorem findSome?_isSome_iff {α β : Type} (f : α → Option β) (l : List α) :
    (l.findSome? f).isSome = true ↔ ∃ a ∈ l, (f a).isSome = true := by
  induction l with
  | nil => simp
  | cons a l ih =>
    simp only [List.findSome?_cons, List.mem_cons, exists_eq_or_imp]
    cases h : f a with
    | none => simp [ih]
    | some b => simp

theorem findSome?_congr_mem {α β : Type} (f g : α → Option β) (l : List α)
    (h : ∀ a ∈ l, g a = f a) : l.findSome? g = l.findSome? f := by
  induction l with
  | nil => rfl
  | cons a l ih =>
    simp only [List.findSome?_cons]
    rw [h a (List.mem_cons_self _ _), ih (fun b hb => h b (List.mem_cons_of_mem _ hb))]

/-- C15: `IsJSONValueHitPolicy` is total, and on every decoded JSON value its
result is the first hit of the GetPostValue check among the string leaves of the
value, taken in traversal order. So it reports a hit if and only if some string
leaf hits; a nil value yields no hit; and the result depends on the check only
through its answers on the string leaves: nulls, numbers, booleans and object
keys are never submitted. -/
theorem json_walk_checks_string_leaves (isMatchGroupPolicy : MatchGroupPolicy) (appID : Int)
    (value : JSONValue) :
    IsJSONValueHitPolicy isMatchGroupPolicy appID value
        = (stringLeaves value).findSome?
            (fun s => isMatchGroupPolicy appID s ChkPoint.GetPostValue "" true) ∧
      ((IsJSONValueHitPolicy isMatchGroupPolicy appID value).isSome = true ↔
        ∃ s ∈ stringLeaves value,
          (isMatchGroupPolicy appID s ChkPoint.GetPostValue "" true).isSome = true) ∧
      IsJSONValueHitPolicy isMatchGroupPolicy appID JSONValue.null = none ∧
      (∀ other : MatchGroupPolicy,
        (∀ s ∈ stringLeaves value,
          other appID s ChkPoint.GetPostValue "" true
            = isMatchGroupPolicy appID s ChkPoint.GetPostValue "" true) →
        IsJSONValueHitPolicy other appID value
          = IsJSONValueHitPolicy isMatchGroupPolicy appID value) := by
  refine ⟨IsJSONValueHitPolicy_eq_leaves _ _ _, ?_, ?_, ?_⟩
  · rw [IsJSONValueHitPolicy_eq_leaves]
    exact findSome?_isSome_iff _ _
  · simp [IsJSONValueHitPolicy]
  · intro other h
    rw [IsJSONValueHitPolicy_eq_leaves, IsJSONValueHitPolicy_eq_leaves]
    exact findSome?_congr_mem _ _ _ h

/-- C15 on the document `demoJSON`: its string leaves are `bob`, `a` and
`<script>`, and a check that only `<script>` hits is hit. -/
theorem json_walk_checks_string_leaves_example :
    stringLeaves demoJSON = ["bob", "a", "<script>"] ∧
      IsJSONValueHitPolicy
        (singleCheck ChkPoint.GetPostValue (fun s => s == "<script>") blockPolicy) 0 demoJSON
        = some blockPolicy ∧
      IsJSONValueHitPolicy
        (singleCheck ChkPoint.GetPostValue (fun s => s == "user") blockPolicy) 0 demoJSON
        = none := by
  decide

/-! ## The request traversal -/

theorem singleCheck_other (chkPoint chk : ChkPoint) (pattern : String → Bool)
    (policy : GroupPolicy) (appID : Int) (value key : String) (needDecode : Bool)
    (h : chk ≠ chkPoint) :
    singleCheck chkPoint pattern policy appID value chk key needDecode = none := by
  simp [singleCheck, h]

theorem findSome?_none {α β : Type} (l : List α) : l.findSome? (fun _ => (none : Option β)) = none := by
  induction l with
  | nil => rfl
  | cons a l ih => simp [List.findSome?_cons, ih]

/-- C16 fails on the code: the last step of `IsRequestHitPolicy` submits `r.Proto`
with check point UserAgent. A policy whose only check is on check point Proto
is never hit, by no request; and a policy whose only check is a User-Agent
check for the text `HTTP/1.1` is hit by the protocol string of a request whose
User-Agent is `curl/8.0`. -/
theorem proto_step_uses_userAgent_checkpoint :
    (∀ (env : WAFParsers) (pattern : String → Bool) (policy : GroupPolicy) (r : Request)
        (appID : Int) (srcIP : String),
      (IsRequestHitPolicy env (singleCheck ChkPoint.Proto pattern policy) r appID srcIP).1
        = none) ∧
    (IsRequestHitPolicy demoParsers
        (singleCheck ChkPoint.UserAgent (fun s => s == "HTTP/1.1") blockPolicy)
        curlRequest 7 "1.2.3.4").1 = some blockPolicy := by
  constructor
  · intro env pattern policy r appID srcIP
    have hjson : ∀ v, IsJSONValueHitPolicy (singleCheck ChkPoint.Proto pattern policy) appID v
        = none := by
      intro v
      rw [IsJSONValueHitPolicy_eq_leaves]
      simp [singleCheck, findSome?_none]
    have hfin : ∀ (q : Request) (bodyBuf mediaType : String),
        (IsRequestHitPolicy.finish env (singleCheck ChkPoint.Proto pattern policy) q bodyBuf
          mediaType appID).1 = none := by
      intro q bodyBuf mediaType
      simp [IsRequestHitPolicy.finish, IsRequestHitPolicy.afterBody, singleCheck,
        findSome?_none]
    have hpre : IsRequestHitPolicy.beforeBody (singleCheck ChkPoint.Proto pattern policy) r
        appID srcIP = none := by
      simp [IsRequestHitPolicy.beforeBody, singleCheck]
    have hmp : ∀ files bodyBuf boundary,
        IsRequestHitPolicy.multipart env (singleCheck ChkPoint.Proto pattern policy) appID
          files bodyBuf boundary = none := by
      intro files bodyBuf boundary
      simp [IsRequestHitPolicy.multipart, singleCheck, findSome?_none]
    unfold IsRequestHitPolicy
    simp only [hpre, hmp, hjson]
    split_ifs <;> exact hfin _ _ _
  · decide

/-- C14 fails on the code: a multipart upload of `shell.php` hits a policy on
the extension of uploaded files whose action is BypassAndLog, so the request
goes on to the backend; `IsRequestHitPolicy` returns from inside the multipart
branch, after `ParseMultipartForm` has read the body and before the body is put
back, and the body left in the request is empty. -/
theorem multipart_hit_leaves_body_consumed :
    (IsRequestHitPolicy demoParsers
        (singleCheck ChkPoint.UploadFileExt (fun s => s == ".php") bypassPolicy)
        uploadRequest 7 "1.2.3.4").1 = some bypassPolicy ∧
      bypassPolicy.Action = Action_BypassAndLog_200 ∧
      (IsRequestHitPolicy demoParsers
        (singleCheck ChkPoint.UploadFileExt (fun s => s == ".php") bypassPolicy)
        uploadRequest 7 "1.2.3.4").2.Body = "" ∧
      uploadRequest.Body ≠ "" := by
  decide

/-- On every other path `IsRequestHitPolicy` leaves in `r.Body` what it found
there: the body differs afterwards only when the call returns a hit from inside
the multipart branch. -/
theorem body_restored_unless_multipart_hit (env : WAFParsers) (m : MatchGroupPolicy)
    (r : Request) (appID : Int) (srcIP : String) :
    (IsRequestHitPolicy env m r appID srcIP).2.Body = r.Body ∨
      (IsRequestHitPolicy.beforeBody m r appID srcIP = none ∧
        stringsHasPrefix (env.parseMediaType r.ContentType).1 "multipart/form-data" = true ∧
        (env.parseMultipartForm r).ok = true ∧
        (IsRequestHitPolicy.multipart env m appID (env.parseMultipartForm r).files r.Body
          (env.parseMediaType r.ContentType).2).isSome = true) := by
  unfold IsRequestHitPolicy
  cases hpre : IsRequestHitPolicy.beforeBody m r appID srcIP with
  | some p => left; rfl
  | none =>
    simp only
    by_cases hmp : stringsHasPrefix (env.parseMediaType r.ContentType).1 "multipart/form-data"
        = true
    · simp only [hmp, if_true]
      by_cases hok : (env.parseMultipartForm r).ok = true
      · simp only [hok, if_true]
        cases hhit : IsRequestHitPolicy.multipart env m appID (env.parseMultipartForm r).files
            r.Body (env.parseMediaType r.ContentType).2 with
        | some p => right; simp_all
        | none => left; rfl
      · simp only [hok, if_false]
        left; rfl
    · simp only [hmp, if_false]
      by_cases hj : stringsHasPrefix (env.parseMediaType r.ContentType).1 "application/json"
          = true
      · simp only [hj, if_true]
        by_cases hlen : r.Body.length > 0
        · simp only [hlen, if_true]
          cases IsJSONValueHitPolicy m appID (env.jsonUnmarshal r.Body) with
          | some p => left; rfl
          | none => left; rfl
        · simp only [hlen, if_false]
          left; rfl
      · simp only [hj, if_false]
        left; rfl

/-! ## The security gates of the gateway -/

/-- C13: when `ClientIPMethod` is REMOTE_ADDR and the client address matches an
IP policy with `IsAllow` and `ApplyToCC`, the security gates make no call at
all: `IsCCAttack` and `IsRequestHitPolicy` are not called, `ccCounts` and the
request are as before, nothing is logged, blocked or redirected, and the handler
goes on to the OAuth check. This holds whatever `WAFEnabled`, `ShieldEnabled`,
the CC policies and the WAF policies are. -/
theorem allow_list_bypasses_cc_and_waf (hash : String → String) (env : GatewayEnv)
    (parsers : WAFParsers) (isMatchGroupPolicy : MatchGroupPolicy) (ccPolicies : CCPolicies)
    (ccCounts : CCCounts) (nowTimeStamp : Int) (r : Request) (app : Application)
    (srcIP : String) (ipPolicy : IPPolicy)
    (hmethod : app.ClientIPMethod = IPMethod.REMOTE_ADDR)
    (hip : env.GetIPPolicyByIPAddr srcIP = some ipPolicy)
    (hallow : ipPolicy.IsAllow = true) (hcc : ipPolicy.ApplyToCC = true) :
    securityGates hash env parsers isMatchGroupPolicy ccPolicies ccCounts nowTimeStamp r app
        srcIP
      = some { calls := [], ccCounts := ccCounts, request := r, ended := false } := by
  simp [securityGates, ipPolicyStage, hmethod, hip, hallow, hcc, shieldStage, ccGate, wafGate]

/-- C13 for address 10.0.0.1, on the allow list, sending to app 7 with the WAF
enabled and a WAF policy that every request hits. -/
theorem allow_list_bypasses_cc_and_waf_witness :
    securityGates id demoGatewayEnv demoParsers
        (singleCheck ChkPoint.Method (fun _ => true) blockPolicy) demoPolicies atThreshold 1000
        pageRequest app7WAF "10.0.0.1"
      = some { calls := [], ccCounts := atThreshold, request := pageRequest, ended := false } :=
  allow_list_bypasses_cc_and_waf id demoGatewayEnv demoParsers
    (singleCheck ChkPoint.Method (fun _ => true) blockPolicy) demoPolicies atThreshold 1000
    pageRequest app7WAF "10.0.0.1" { IsAllow := true, ApplyToCC := true } rfl rfl rfl rfl

/-- C19, as the code has it: when `IsCCAttack` returns the attacker verdict (the
client's bucket is bad), the CC gate acts by the policy's `Action`, and in all
three cases `LogCCRequest` is called only if needLog. Block: an nftables block
for `BlockSeconds` only if `ClientIPMethod` is REMOTE_ADDR, then the block page,
and the handler returns. BypassAndLog: the handler goes on to the WAF gate.
Captcha: the HitInfo is stored under the clientID, the answer is 307 to the
captcha entrance, and the handler returns. -/
theorem cc_gate_acts_by_action (hash : String → String) (env : GatewayEnv)
    (parsers : WAFParsers) (isMatchGroupPolicy : MatchGroupPolicy) (ccPolicies : CCPolicies)
    (ccCounts : CCCounts) (nowTimeStamp : Int) (r : Request) (app : Application)
    (srcIP : String) (ccPolicy : CCPolicy) (stat : ClientStat)
    (hpol : GetCCPolicyByAppID ccPolicies app.ID = some ccPolicy)
    (hen : ccPolicy.IsEnabled = true)
    (hb : bucket ccCounts (ccAppIDOf ccPolicy app) (hash (preHashContent ccPolicy r srcIP))
      = some stat)
    (hbad : stat.IsBadIP = true)
    (clientID : String) (hcid : clientID = hash (preHashContent ccPolicy r srcIP))
    (needLog : Bool) (hlog : needLog = decide (stat.QuickCount = 0)) :
    ∃ cc1, IsCCAttack hash ccPolicies ccCounts r app srcIP
        = some ({ isCC := true, ccPolicy := some ccPolicy, clientID := clientID,
                  needLog := needLog }, cc1) ∧
      (ccPolicy.Action = Action_Block_100 →
        ccGate hash env parsers isMatchGroupPolicy ccPolicies nowTimeStamp app srcIP false
            ccCounts r
          = some { calls := Call.IsCCAttack srcIP ::
                     ((if needLog then [Call.LogCCRequest app.ID srcIP ccPolicy] else []) ++
                      (if app.ClientIPMethod = IPMethod.REMOTE_ADDR then
                        [Call.AddIP2NFTables srcIP ccPolicy.BlockSeconds] else []) ++
                      [Call.GenerateBlockPage (ccHitInfo nowTimeStamp r ccPolicy clientID)]),
                   ccCounts := cc1, request := r, ended := true }) ∧
      (ccPolicy.Action = Action_BypassAndLog_200 →
        ccGate hash env parsers isMatchGroupPolicy ccPolicies nowTimeStamp app srcIP false
            ccCounts r
          = wafGate hash env parsers isMatchGroupPolicy nowTimeStamp app srcIP false
              (Call.IsCCAttack srcIP ::
                (if needLog then [Call.LogCCRequest app.ID srcIP ccPolicy] else []))
              cc1 r) ∧
      (ccPolicy.Action = Action_CAPTCHA_300 →
        ccGate hash env parsers isMatchGroupPolicy ccPolicies nowTimeStamp app srcIP false
            ccCounts r
          = some { calls := Call.IsCCAttack srcIP ::
                     ((if needLog then [Call.LogCCRequest app.ID srcIP ccPolicy] else []) ++
                      [Call.captchaHitInfoStore clientID (ccHitInfo nowTimeStamp r ccPolicy clientID),
                       Call.Redirect (env.CaptchaEntrance ++ "?id=" ++ clientID) 307]),
                   ccCounts := cc1, request := r, ended := true }) := by
  have hcall := IsCCAttack_enabled hash ccPolicies ccCounts r app srcIP ccPolicy hpol hen
  rw [hb] at hcall
  simp only [Option.getD_some, requestVerdict, hbad, if_true] at hcall
  subst hcid hlog
  refine ⟨_, hcall, ?_, ?_, ?_⟩
  · intro hact
    simp [ccGate, hcall, ccGateAct, hact, ccHitInfo]
  · intro hact
    simp [ccGate, hcall, ccGateAct, hact, Action_Block_100, Action_BypassAndLog_200]
  · intro hact
    simp [ccGate, hcall, ccGateAct, hact, Action_Block_100, Action_BypassAndLog_200,
      Action_CAPTCHA_300, StatusTemporaryRedirect, ccHitInfo]

/-- C19, as the code has it, for client 1.2.3.4 of app 7 (action Block,
REMOTE_ADDR), blocked and not yet logged. -/
theorem cc_gate_acts_by_action_witness :
    ∃ cc1, IsCCAttack id demoPolicies blockedUnlogged pageRequest app7 "1.2.3.4"
        = some ({ isCC := true, ccPolicy := some app7Policy, clientID := "1.2.3.4",
                  needLog := true }, cc1) ∧
      (app7Policy.Action = Action_Block_100 →
        ccGate id demoGatewayEnv demoParsers (singleCheck ChkPoint.Proto (fun _ => true)
            blockPolicy) demoPolicies 1000 app7 "1.2.3.4" false blockedUnlogged pageRequest
          = some { calls := Call.IsCCAttack "1.2.3.4" ::
                     ((if true then [Call.LogCCRequest app7.ID "1.2.3.4" app7Policy] else []) ++
                      (if app7.ClientIPMethod = IPMethod.REMOTE_ADDR then
                        [Call.AddIP2NFTables "1.2.3.4" app7Policy.BlockSeconds] else []) ++
                      [Call.GenerateBlockPage (ccHitInfo 1000 pageRequest app7Policy "1.2.3.4")]),
                   ccCounts := cc1, request := pageRequest, ended := true }) ∧
      (app7Policy.Action = Action_BypassAndLog_200 →
        ccGate id demoGatewayEnv demoParsers (singleCheck ChkPoint.Proto (fun _ => true)
            blockPolicy) demoPolicies 1000 app7 "1.2.3.4" false blockedUnlogged pageRequest
          = wafGate id demoGatewayEnv demoParsers (singleCheck ChkPoint.Proto (fun _ => true)
              blockPolicy) 1000 app7 "1.2.3.4" false
              (Call.IsCCAttack "1.2.3.4" ::
                (if true then [Call.LogCCRequest app7.ID "1.2.3.4" app7Policy] else []))
              cc1 pageRequest) ∧
      (app7Policy.Action = Action_CAPTCHA_300 →
        ccGate id demoGatewayEnv demoParsers (singleCheck ChkPoint.Proto (fun _ => true)
            blockPolicy) demoPolicies 1000 app7 "1.2.3.4" false blockedUnlogged pageRequest
          = some { calls := Call.IsCCAttack "1.2.3.4" ::
                     ((if true then [Call.LogCCRequest app7.ID "1.2.3.4" app7Policy] else []) ++
                      [Call.captchaHitInfoStore "1.2.3.4"
                         (ccHitInfo 1000 pageRequest app7Policy "1.2.3.4"),
                       Call.Redirect (demoGatewayEnv.CaptchaEntrance ++ "?id=" ++ "1.2.3.4")
                         307]),
                   ccCounts := cc1, request := pageRequest, ended := true }) :=
  cc_gate_acts_by_action id demoGatewayEnv demoParsers
    (singleCheck ChkPoint.Proto (fun _ => true) blockPolicy) demoPolicies blockedUnlogged 1000
    pageRequest app7 "1.2.3.4" app7Policy ⟨0, 0, 0, true, 5⟩ (by decide) rfl
    (bucket_oneBucket 7 "1.2.3.4" _) rfl "1.2.3.4" (by decide) true (by decide)

/-- C19 fails as stated: client 1.2.3.4 of app 7 is blocked under a policy with
action BypassAndLog and its block has been logged already (needLog is false);
the CC gate calls `IsCCAttack` and nothing else, so the request is not logged,
and the handler goes on. -/
theorem bypass_without_needLog_not_logged :
    (ccGate id demoGatewayEnv demoParsers (singleCheck ChkPoint.Proto (fun _ => true)
        blockPolicy) bypassPolicies 1000 app7 "1.2.3.4" false blockedLogged pageRequest).map
        (fun res => (res.calls, res.ended))
      = some ([Call.IsCCAttack "1.2.3.4"], false) := by
  simp [ccGate, wafGate, IsCCAttack, GetCCPolicyByAppID, bypassPolicies, app7BypassPolicy,
    app7Policy, app7, blockedLogged, oneBucket, noCounts, emptyAppCCCount, ccAppIDOf,
    preHashContent, pageRequest, newClientStat, ccGateAct, Action_Block_100,
    Action_BypassAndLog_200]

/-- C20, as the code has it: on a WAF policy hit the WAF gate acts by the
policy's `Action`. For Block, BypassAndLog and Captcha it first logs the hit
(`LogGroupHitRequest`, with no needLog condition). Block: the block page is built
from a HitInfo holding only TypeID 2, the policy ID and the name found in
`VulnMap`, and the handler returns. BypassAndLog: the handler goes on. Captcha: a
HitInfo with Action, ClientID (`GenClientID`), TargetURL and BlockTime is stored
under the clientID, the answer is 307 to the captcha entrance, and the handler
returns. Any other action (Pass): no call at all, not even the log, and the
handler goes on. In no case does the WAF gate queue an nftables block. For Block
with no name in `VulnMap` for the policy, the type assertion on the name
panics. -/
theorem waf_gate_acts_by_action (hash : String → String) (env : GatewayEnv)
    (parsers : WAFParsers) (isMatchGroupPolicy : MatchGroupPolicy) (nowTimeStamp : Int)
    (app : Application) (srcIP : String) (calls : List Call) (ccCounts : CCCounts)
    (r : Request) (policy : GroupPolicy)
    (hwaf : app.WAFEnabled = true)
    (hhit : (IsRequestHitPolicy parsers isMatchGroupPolicy r app.ID srcIP).1 = some policy)
    (r1 : Request)
    (hr1 : r1 = (IsRequestHitPolicy parsers isMatchGroupPolicy r app.ID srcIP).2)
    (clientID : String) (hcid : clientID = GenClientID hash r1 app.ID srcIP) :
    (policy.Action = Action_Block_100 → ∀ vulnName, env.VulnMap policy.VulnID = some vulnName →
      wafGate hash env parsers isMatchGroupPolicy nowTimeStamp app srcIP false calls ccCounts r
        = some { calls := calls ++ [Call.IsRequestHitPolicy app.ID srcIP,
                   Call.LogGroupHitRequest app.ID srcIP policy,
                   Call.GenerateBlockPage (wafBlockHitInfo policy vulnName)],
                 ccCounts := ccCounts, request := r1, ended := true }) ∧
    (policy.Action = Action_Block_100 → env.VulnMap policy.VulnID = none →
      wafGate hash env parsers isMatchGroupPolicy nowTimeStamp app srcIP false calls ccCounts r
        = none) ∧
    (policy.Action = Action_BypassAndLog_200 →
      wafGate hash env parsers isMatchGroupPolicy nowTimeStamp app srcIP false calls ccCounts r
        = some { calls := calls ++ [Call.IsRequestHitPolicy app.ID srcIP,
                   Call.LogGroupHitRequest app.ID srcIP policy],
                 ccCounts := ccCounts, request := r1, ended := false }) ∧
    (policy.Action = Action_CAPTCHA_300 →
      wafGate hash env parsers isMatchGroupPolicy nowTimeStamp app srcIP false calls ccCounts r
        = some { calls := calls ++ [Call.IsRequestHitPolicy app.ID srcIP,
                   Call.LogGroupHitRequest app.ID srcIP policy,
                   Call.captchaHitInfoStore clientID
                     (wafCaptchaHitInfo nowTimeStamp r1 policy clientID),
                   Call.Redirect (env.CaptchaEntrance ++ "?id=" ++ clientID) 307],
                 ccCounts := ccCounts, request := r1, ended := true }) ∧
    (policy.Action ≠ Action_Block_100 → policy.Action ≠ Action_BypassAndLog_200 →
      policy.Action ≠ Action_CAPTCHA_300 →
      wafGate hash env parsers isMatchGroupPolicy nowTimeStamp app srcIP false calls ccCounts r
        = some { calls := calls ++ [Call.IsRequestHitPolicy app.ID srcIP],
                 ccCounts := ccCounts, request := r1, ended := false }) ∧
    (∀ res, wafGate hash env parsers isMatchGroupPolicy nowTimeStamp app srcIP false calls
        ccCounts r = some res →
      ∀ ip seconds, Call.AddIP2NFTables ip seconds ∈ res.calls →
        Call.AddIP2NFTables ip seconds ∈ calls) := by
  subst hr1 hcid
  refine ⟨?_, ?_, ?_, ?_, ?_, ?_⟩
  · intro hact vulnName hv
    simp [wafGate, hwaf, hhit, wafGateAct, hact, hv]
  · intro hact hv
    simp [wafGate, hwaf, hhit, wafGateAct, hact, hv]
  · intro hact
    simp [wafGate, hwaf, hhit, wafGateAct, hact, Action_Block_100, Action_BypassAndLog_200]
  · intro hact
    simp [wafGate, hwaf, hhit, wafGateAct, hact, Action_Block_100, Action_BypassAndLog_200,
      Action_CAPTCHA_300, StatusTemporaryRedirect]
  · intro h1 h2 h3
    simp [wafGate, hwaf, hhit, wafGateAct, h1, h2, h3]
  · intro res hres ip seconds hmem
    simp only [wafGate, hwaf, hhit, Bool.not_false, Bool.and_self, if_true, wafGateAct] at hres
    split_ifs at hres with h1 h2 h3
    · cases hv : env.VulnMap policy.VulnID with
      | none => simp [hv] at hres
      | some vulnName =>
        simp only [hv, Option.some.injEq] at hres
        subst hres
        simpa using hmem
    · simp only [Option.some.injEq] at hres
      subst hres
      simpa using hmem
    · simp only [Option.some.injEq] at hres
      subst hres
      simpa using hmem
    · simp only [Option.some.injEq] at hres
      subst hres
      simpa using hmem

/-- C20, as the code has it, for `GET /page?id=1` hitting a Block policy on the
URL query at app 7. -/
theorem waf_gate_acts_by_action_witness :
    (blockPolicy.Action = Action_Block_100 → ∀ vulnName,
        demoGatewayEnv.VulnMap blockPolicy.VulnID = some vulnName →
      wafGate id demoGatewayEnv demoParsers
          (singleCheck ChkPoint.URLQuery (fun s => s == "id=1") blockPolicy) 1000 app7WAF
          "1.2.3.4" false [] noCounts pageRequest
        = some { calls := [] ++ [Call.IsRequestHitPolicy app7WAF.ID "1.2.3.4",
                   Call.LogGroupHitRequest app7WAF.ID "1.2.3.4" blockPolicy,
                   Call.GenerateBlockPage (wafBlockHitInfo blockPolicy vulnName)],
                 ccCounts := noCounts, request := pageRequest, ended := true }) ∧
    (blockPolicy.Action = Action_Block_100 → demoGatewayEnv.VulnMap blockPolicy.VulnID = none →
      wafGate id demoGatewayEnv demoParsers
          (singleCheck ChkPoint.URLQuery (fun s => s == "id=1") blockPolicy) 1000 app7WAF
          "1.2.3.4" false [] noCounts pageRequest
        = none) ∧
    (blockPolicy.Action = Action_BypassAndLog_200 →
      wafGate id demoGatewayEnv demoParsers
          (singleCheck ChkPoint.URLQuery (fun s => s == "id=1") blockPolicy) 1000 app7WAF
          "1.2.3.4" false [] noCounts pageRequest
        = some { calls := [] ++ [Call.IsRequestHitPolicy app7WAF.ID "1.2.3.4",
                   Call.LogGroupHitRequest app7WAF.ID "1.2.3.4" blockPolicy],
                 ccCounts := noCounts, request := pageRequest, ended := false }) ∧
    (blockPolicy.Action = Action_CAPTCHA_300 →
      wafGate id demoGatewayEnv demoParsers
          (singleCheck ChkPoint.URLQuery (fun s => s == "id=1") blockPolicy) 1000 app7WAF
          "1.2.3.4" false [] noCounts pageRequest
        = some { calls := [] ++ [Call.IsRequestHitPolicy app7WAF.ID "1.2.3.4",
                   Call.LogGroupHitRequest app7WAF.ID "1.2.3.4" blockPolicy,
                   Call.captchaHitInfoStore "1.2.3.4/pagecurl/8.0"
                     (wafCaptchaHitInfo 1000 pageRequest blockPolicy "1.2.3.4/pagecurl/8.0"),
                   Call.Redirect
                     (demoGatewayEnv.CaptchaEntrance ++ "?id=" ++ "1.2.3.4/pagecurl/8.0") 307],
                 ccCounts := noCounts, request := pageRequest, ended := true }) ∧
    (blockPolicy.Action ≠ Action_Block_100 → blockPolicy.Action ≠ Action_BypassAndLog_200 →
      blockPolicy.Action ≠ Action_CAPTCHA_300 →
      wafGate id demoGatewayEnv demoParsers
          (singleCheck ChkPoint.URLQuery (fun s => s == "id=1") blockPolicy) 1000 app7WAF
          "1.2.3.4" false [] noCounts pageRequest
        = some { calls := [] ++ [Call.IsRequestHitPolicy app7WAF.ID "1.2.3.4"],
                 ccCounts := noCounts, request := pageRequest, ended := false }) ∧
    (∀ res, wafGate id demoGatewayEnv demoParsers
          (singleCheck ChkPoint.URLQuery (fun s => s == "id=1") blockPolicy) 1000 app7WAF
          "1.2.3.4" false [] noCounts pageRequest = some res →
      ∀ ip seconds, Call.AddIP2NFTables ip seconds ∈ res.calls →
        Call.AddIP2NFTables ip seconds ∈ ([] : List Call)) :=
  waf_gate_acts_by_action id demoGatewayEnv demoParsers
    (singleCheck ChkPoint.URLQuery (fun s => s == "id=1") blockPolicy) 1000 app7WAF "1.2.3.4"
    [] noCounts pageRequest blockPolicy rfl (by decide) pageRequest (by decide)
    "1.2.3.4/pagecurl/8.0" (by decide)

/-- C20 fails as stated: for `GET /page?id=1` from 1.2.3.4 to app 7
(REMOTE_ADDR) and action Block, the WAF gate logs and renders a block page whose
HitInfo has no Action, ClientID, TargetURL or BlockTime, and queues no nftables
block; the CC gate, for the same request and action, queues the nftables block
and fills those four fields. -/
theorem waf_block_differs_from_cc_block :
    (wafGate id demoGatewayEnv demoParsers
        (singleCheck ChkPoint.URLQuery (fun s => s == "id=1") blockPolicy) 1000 app7WAF
        "1.2.3.4" false [] noCounts pageRequest).map (fun res => (res.calls, res.ended))
      = some ([Call.IsRequestHitPolicy 7 "1.2.3.4",
          Call.LogGroupHitRequest 7 "1.2.3.4" blockPolicy,
          Call.GenerateBlockPage
            { TypeID := 2, PolicyID := 1, VulnName := "SQLi", Action := 0, ClientID := "",
              TargetURL := "", BlockTime := 0 }], true) ∧
    app7WAF.ClientIPMethod = IPMethod.REMOTE_ADDR ∧
    ccGateAct demoGatewayEnv 1000 pageRequest app7WAF "1.2.3.4" app7Policy "c" true
      = ([Call.LogCCRequest 7 "1.2.3.4" app7Policy,
          Call.AddIP2NFTables "1.2.3.4" 5,
          Call.GenerateBlockPage
            { TypeID := 1, PolicyID := 7, VulnName := "CC", Action := 100, ClientID := "c",
              TargetURL := "/page?id=1", BlockTime := 1000 }], true) := by
  decide

/-! ## The captcha answer -/

theorem IsRequestHitPolicy_keeps_url (env : WAFParsers) (m : MatchGroupPolicy)
    (r : Request) (appID : Int) (srcIP : String) :
    (IsRequestHitPolicy env m r appID srcIP).2.URLPath = r.URLPath ∧
      (IsRequestHitPolicy env m r appID srcIP).2.RawQuery = r.RawQuery ∧
      (IsRequestHitPolicy env m r appID srcIP).2.UserAgent = r.UserAgent ∧
      (IsRequestHitPolicy env m r appID srcIP).2.Cookie = r.Cookie := by
  unfold IsRequestHitPolicy
  cases hpre : IsRequestHitPolicy.beforeBody m r appID srcIP with
  | some p => exact ⟨rfl, rfl, rfl, rfl⟩
  | none =>
    simp only
    split_ifs
    · split <;> exact ⟨rfl, rfl, rfl, rfl⟩
    · exact ⟨rfl, rfl, rfl, rfl⟩
    · split <;> exact ⟨rfl, rfl, rfl, rfl⟩
    · exact ⟨rfl, rfl, rfl, rfl⟩
    · exact ⟨rfl, rfl, rfl, rfl⟩

/-- C21: a request answered with the Captcha action, by the CC gate (attacker
verdict under a policy with action Captcha) or by the WAF gate (hit of a policy
with action Captcha), has a HitInfo stored in `captchaHitInfo` under its
clientID whose TargetURL is the URL path, followed by `?` and the raw query
exactly when the raw query is non-empty; the last call is the 307 redirect to
`CaptchaEntrance ++ "?id=" ++ clientID`, and the handler returns. The clientID is
a value of `data.SHA256Hash`: of the CC key in the CC gate, of
`srcIP ++ path ++ User-Agent ++ Cookie` in the WAF gate. -/
theorem captcha_answer_stores_target_and_redirects (hash : String → String)
    (env : GatewayEnv) (parsers : WAFParsers) (isMatchGroupPolicy : MatchGroupPolicy)
    (ccPolicies : CCPolicies) (ccCounts : CCCounts) (nowTimeStamp : Int) (r : Request)
    (app : Application) (srcIP : String) :
    (∀ ccPolicy stat,
      GetCCPolicyByAppID ccPolicies app.ID = some ccPolicy →
      ccPolicy.IsEnabled = true →
      bucket ccCounts (ccAppIDOf ccPolicy app) (hash (preHashContent ccPolicy r srcIP))
        = some stat →
      stat.IsBadIP = true →
      ccPolicy.Action = Action_CAPTCHA_300 →
      ∃ res hitInfo,
        ccGate hash env parsers isMatchGroupPolicy ccPolicies nowTimeStamp app srcIP false
          ccCounts r = some res ∧
        res.ended = true ∧
        res.calls.reverse.take 2
          = [Call.Redirect
               (env.CaptchaEntrance ++ "?id=" ++ hash (preHashContent ccPolicy r srcIP)) 307,
             Call.captchaHitInfoStore (hash (preHashContent ccPolicy r srcIP)) hitInfo] ∧
        hitInfo.ClientID = hash (preHashContent ccPolicy r srcIP) ∧
        hitInfo.TargetURL
          = (if r.RawQuery.length > 0 then r.URLPath ++ "?" ++ r.RawQuery else r.URLPath)) ∧
    (∀ calls policy,
      app.WAFEnabled = true →
      (IsRequestHitPolicy parsers isMatchGroupPolicy r app.ID srcIP).1 = some policy →
      policy.Action = Action_CAPTCHA_300 →
      ∃ res hitInfo,
        wafGate hash env parsers isMatchGroupPolicy nowTimeStamp app srcIP false calls
          ccCounts r = some res ∧
        res.ended = true ∧
        res.calls.reverse.take 2
          = [Call.Redirect
               (env.CaptchaEntrance ++ "?id=" ++
                 hash (srcIP ++ r.URLPath ++ r.UserAgent ++ r.Cookie)) 307,
             Call.captchaHitInfoStore (hash (srcIP ++ r.URLPath ++ r.UserAgent ++ r.Cookie))
               hitInfo] ∧
        hitInfo.ClientID = hash (srcIP ++ r.URLPath ++ r.UserAgent ++ r.Cookie) ∧
        hitInfo.TargetURL
          = (if r.RawQuery.length > 0 then r.URLPath ++ "?" ++ r.RawQuery else r.URLPath)) := by
  constructor
  · intro ccPolicy stat hpol hen hb hbad hact
    have hcall := IsCCAttack_enabled hash ccPolicies ccCounts r app srcIP ccPolicy hpol hen
    rw [hb] at hcall
    simp only [Option.getD_some, requestVerdict, hbad, if_true] at hcall
    have hg : ccGate hash env parsers isMatchGroupPolicy ccPolicies nowTimeStamp app srcIP false
        ccCounts r
        = some { calls := Call.IsCCAttack srcIP ::
                   ((if decide (stat.QuickCount = 0) = true
                      then [Call.LogCCRequest app.ID srcIP ccPolicy] else []) ++
                    [Call.captchaHitInfoStore (hash (preHashContent ccPolicy r srcIP))
                       (ccHitInfo nowTimeStamp r ccPolicy
                         (hash (preHashContent ccPolicy r srcIP))),
                     Call.Redirect (env.CaptchaEntrance ++ "?id=" ++
                       hash (preHashContent ccPolicy r srcIP)) 307]),
                 ccCounts := Function.update ccCounts (ccAppIDOf ccPolicy app)
                   (some (Function.update ((ccCounts (ccAppIDOf ccPolicy app)).getD
                     emptyAppCCCount) (hash (preHashContent ccPolicy r srcIP))
                     (some (requestBucket stat)))),
                 request := r, ended := true } := by
      simp [ccGate, hcall, ccGateAct, hact, Action_Block_100, Action_BypassAndLog_200,
        Action_CAPTCHA_300, StatusTemporaryRedirect, ccHitInfo]
    refine ⟨_, ccHitInfo nowTimeStamp r ccPolicy (hash (preHashContent ccPolicy r srcIP)),
      hg, rfl, ?_, rfl, ?_⟩
    · by_cases hq : stat.QuickCount = 0 <;> simp [hq]
    · by_cases hq : r.RawQuery.length > 0 <;> simp [ccHitInfo, targetURLOf, hq]
  · intro calls policy hwaf hhit hact
    obtain ⟨hu, hq, hua, hc⟩ := IsRequestHitPolicy_keeps_url parsers isMatchGroupPolicy r
      app.ID srcIP
    have hg : wafGate hash env parsers isMatchGroupPolicy nowTimeStamp app srcIP false calls
        ccCounts r
        = some { calls := calls ++ [Call.IsRequestHitPolicy app.ID srcIP,
                   Call.LogGroupHitRequest app.ID srcIP policy,
                   Call.captchaHitInfoStore (hash (srcIP ++ r.URLPath ++ r.UserAgent ++ r.Cookie))
                     (wafCaptchaHitInfo nowTimeStamp
                       (IsRequestHitPolicy parsers isMatchGroupPolicy r app.ID srcIP).2 policy
                       (hash (srcIP ++ r.URLPath ++ r.UserAgent ++ r.Cookie))),
                   Call.Redirect (env.CaptchaEntrance ++ "?id=" ++
                     hash (srcIP ++ r.URLPath ++ r.UserAgent ++ r.Cookie)) 307],
                 ccCounts := ccCounts,
                 request := (IsRequestHitPolicy parsers isMatchGroupPolicy r app.ID srcIP).2,
                 ended := true } := by
      simp [wafGate, hwaf, hhit, wafGateAct, hact, Action_Block_100, Action_BypassAndLog_200,
        Action_CAPTCHA_300, StatusTemporaryRedirect, GenClientID, hu, hua, hc]
    refine ⟨_, wafCaptchaHitInfo nowTimeStamp
      (IsRequestHitPolicy parsers isMatchGroupPolicy r app.ID srcIP).2 policy
      (hash (srcIP ++ r.URLPath ++ r.UserAgent ++ r.Cookie)), hg, rfl, ?_, rfl, ?_⟩
    · simp
    · by_cases hq' : r.RawQuery.length > 0 <;>
        simp [wafCaptchaHitInfo, targetURLOf, hq, hu, hq']

/-- C21 for `GET /page?id=1 OR 1=1--` from 1.2.3.4 to app 7: answered with the
captcha by the CC gate (blocked client, CC policy with action Captcha) and by the
WAF gate (policy with action Captcha hit on the URL query). -/
theorem captcha_answer_stores_target_and_redirects_witness :
    (∃ res hitInfo,
      ccGate id demoGatewayEnv demoParsers (singleCheck ChkPoint.Proto (fun _ => false)
          captchaPolicy) captchaPolicies 1000 app7WAF "1.2.3.4" false blockedUnlogged
          injectionRequest = some res ∧
        res.ended = true ∧
        res.calls.reverse.take 2
          = [Call.Redirect ("/captcha/confirm" ++ "?id=" ++ "1.2.3.4") 307,
             Call.captchaHitInfoStore "1.2.3.4" hitInfo] ∧
        hitInfo.ClientID = "1.2.3.4" ∧
        hitInfo.TargetURL = "/page?id=1 OR 1=1--") ∧
    (∃ res hitInfo,
      wafGate id demoGatewayEnv demoParsers
          (singleCheck ChkPoint.URLQuery (fun s => s == "id=1 OR 1=1--") captchaPolicy) 1000
          app7WAF "1.2.3.4" false [] blockedUnlogged injectionRequest = some res ∧
        res.ended = true ∧
        res.calls.reverse.take 2
          = [Call.Redirect ("/captcha/confirm" ++ "?id=" ++ "1.2.3.4/pagecurl/8.0") 307,
             Call.captchaHitInfoStore "1.2.3.4/pagecurl/8.0" hitInfo] ∧
        hitInfo.ClientID = "1.2.3.4/pagecurl/8.0" ∧
        hitInfo.TargetURL = "/page?id=1 OR 1=1--") :=
  ⟨(captcha_answer_stores_target_and_redirects id demoGatewayEnv demoParsers
      (singleCheck ChkPoint.Proto (fun _ => false) captchaPolicy) captchaPolicies
      blockedUnlogged 1000 injectionRequest app7WAF "1.2.3.4").1
      app7CaptchaPolicy ⟨0, 0, 0, true, 5⟩ (by decide) rfl (bucket_oneBucket 7 "1.2.3.4" _) rfl
      rfl,
   (captcha_answer_stores_target_and_redirects id demoGatewayEnv demoParsers
      (singleCheck ChkPoint.URLQuery (fun s => s == "id=1 OR 1=1--") captchaPolicy)
      captchaPolicies blockedUnlogged 1000 injectionRequest app7WAF "1.2.3.4").2
      [] captchaPolicy rfl (by decide) rfl⟩

/-! ## The front of the handler -/

theorem findIdx_colon_append (l rest : List Char) (h : ':' ∉ l) :
    (l ++ ':' :: rest).findIdx (fun x => x == ':') = l.length := by
  induction l with
  | nil => simp [List.findIdx_cons]
  | cons a l ih =>
    have ha : a ≠ ':' := fun e => h (by simp [e])
    have hl : ':' ∉ l := fun e => h (by simp [e])
    have hb : (a == ':') = false := by simpa using ha
    simp [List.findIdx_cons, hb, ih hl]

theorem findIdx_colon_absent (l : List Char) (h : ':' ∉ l) :
    l.findIdx (fun x => x == ':') = l.length := by
  induction l with
  | nil => simp
  | cons a l ih =>
    have ha : a ≠ ':' := fun e => h (by simp [e])
    have hl : ':' ∉ l := fun e => h (by simp [e])
    have hb : (a == ':') = false := by simpa using ha
    simp [List.findIdx_cons, hb, ih hl]

theorem domainStrOf_name (name : String) (h : ':' ∉ name.data) : domainStrOf name = name := by
  simp [domainStrOf, stringsIndexByte, findIdx_colon_absent _ h]

theorem domainStrOf_name_port (name port : String) (h : ':' ∉ name.data) (hne : name ≠ "") :
    domainStrOf (name ++ ":" ++ port) = name := by
  have hlen : 0 < name.data.length := by
    rcases name with ⟨l⟩
    cases l with
    | nil => exact absurd rfl hne
    | cons a l => simp
  have hdata : (name ++ ":" ++ port).data = name.data ++ ':' :: port.data := by
    simp [String.data_append]
  have hlen2 : name.length ≠ 0 := by
    have : name.length = name.data.length := rfl
    omega
  simp only [domainStrOf, stringsIndexByte, hdata, findIdx_colon_append _ _ h]
  simp [hlen2]

/-- The redirect of a domain where the cut at the first colon removes the port
and nothing else: when the Host is a name, or that name followed by `:` and a
port, the name is not empty and holds no colon, and the first domain of that name
in `Domains` has `Redirect` set, the handler answers 301 with the domain's
Location, followed by `?` and the raw query exactly when the raw query is
non-empty, and returns having made no other call. -/
theorem redirect_domain_answers_301 (domains : List Domain)
    (getApplicationByDomain : String → Option Application) (listenHTTPS : String)
    (r : Request) (name port : String) (domain : Domain)
    (hcolon : ':' ∉ name.data) (hne : name ≠ "")
    (hhost : r.Host = name ∨ r.Host = name ++ ":" ++ port)
    (hdom : GetDomainByName domains name = some domain) (hred : domain.Redirect = true) :
    handlerFront domains getApplicationByDomain listenHTTPS r
      = Front.ended [Call.Redirect
          (if r.RawQuery.length > 0 then domain.Location ++ "?" ++ r.RawQuery
            else domain.Location) 301] := by
  have hd : domainStrOf r.Host = name := by
    rcases hhost with h | h
    · rw [h]; exact domainStrOf_name name hcolon
    · rw [h]; exact domainStrOf_name_port name port hcolon hne
  simp [handlerFront, hd, hdom, hred, RedirectRequest, StatusMovedPermanently]

/-- The redirect for `GET /page?id=1` with Host `a.example:8080`. -/
theorem redirect_domain_answers_301_witness :
    handlerFront [redirectDomain] (fun _ => none) ":443"
        { pageRequest with Host := "a.example:8080" }
      = Front.ended [Call.Redirect
          (if ({ pageRequest with Host := "a.example:8080" } : Request).RawQuery.length > 0
            then redirectDomain.Location ++ "?"
              ++ ({ pageRequest with Host := "a.example:8080" } : Request).RawQuery
            else redirectDomain.Location) 301] :=
  redirect_domain_answers_301 [redirectDomain] (fun _ => none) ":443"
    { pageRequest with Host := "a.example:8080" } "a.example" "8080" redirectDomain
    (by decide) (by decide) (Or.inr (by decide)) (by decide) rfl

/-- C22 fails on the code: the domain `[::1]` has `Redirect` set, yet a request
with Host `[::1]:8080`, and one with Host `[::1]`, is not redirected. The code
means to remove the port (its comment: "first remove port") but cuts the Host at
its first colon: `domainStr` is `[`, no domain and no application is found, and
the static welcome site answers. With Host `a.example:8080` the same code finds
the redirecting domain `a.example` and answers 301. -/
theorem ipv6_literal_host_not_redirected :
    GetDomainByName [literalDomain, redirectDomain] "[::1]" = some literalDomain ∧
    literalDomain.Redirect = true ∧
    domainStrOf "[::1]:8080" = "[" ∧
    handlerFront [literalDomain, redirectDomain] (fun _ => none) ":443"
        { demoRequest with Host := "[::1]:8080" }
      = Front.ended [Call.ServeFile "./static/welcome/index.html"] ∧
    handlerFront [literalDomain, redirectDomain] (fun _ => none) ":443"
        { demoRequest with Host := "[::1]" }
      = Front.ended [Call.ServeFile "./static/welcome/index.html"] ∧
    handlerFront [literalDomain, redirectDomain] (fun _ => none) ":443"
        { demoRequest with Host := "a.example:8080" }
      = Front.ended [Call.Redirect "https://www.example/" 301] := by
  decide

/-- C23, as the code has it: a plaintext request whose Host is `name` or
`name:port` (the name not empty and without colon), where no domain of that name
redirects and the application found for the name has `RedirectHTTPS`, is
answered 301 and the handler returns; the Location is `https://` followed by the
name, by `ListenHTTPS` unless that is `:443`, and by the path, and then by `?`
and the raw query when the raw query is non-empty. -/
theorem plaintext_request_upgraded_to_https (domains : List Domain)
    (getApplicationByDomain : String → Option Application) (listenHTTPS : String)
    (r : Request) (name port : String) (app : Application)
    (hcolon : ':' ∉ name.data) (hne : name ≠ "")
    (hhost : r.Host = name ∨ r.Host = name ++ ":" ++ port)
    (hdom : ∀ domain, GetDomainByName domains name = some domain → domain.Redirect = false)
    (happ : getApplicationByDomain name = some app)
    (htls : r.TLS = false) (hhttps : app.RedirectHTTPS = true) :
    (listenHTTPS = ":443" →
      handlerFront domains getApplicationByDomain listenHTTPS r
        = Front.ended [Call.Redirect
            (if r.RawQuery.length > 0 then "https://" ++ name ++ r.URLPath ++ "?" ++ r.RawQuery
              else "https://" ++ name ++ r.URLPath) 301]) ∧
    (listenHTTPS ≠ ":443" →
      handlerFront domains getApplicationByDomain listenHTTPS r
        = Front.ended [Call.Redirect
            (if r.RawQuery.length > 0
              then "https://" ++ name ++ listenHTTPS ++ r.URLPath ++ "?" ++ r.RawQuery
              else "https://" ++ name ++ listenHTTPS ++ r.URLPath) 301]) := by
  have hd : domainStrOf r.Host = name := by
    rcases hhost with h | h
    · rw [h]; exact domainStrOf_name name hcolon
    · rw [h]; exact domainStrOf_name_port name port hcolon hne
  have hnored : (match GetDomainByName domains name with
      | some domain => if domain.Redirect then some domain.Location else none
      | none => none) = none := by
    cases hg : GetDomainByName domains name with
    | none => rfl
    | some domain => simp [hdom domain hg]
  constructor
  · intro hl
    simp [handlerFront, hd, hnored, happ, htls, hhttps, hl, RedirectRequest,
      StatusMovedPermanently]
  · intro hl
    simp [handlerFront, hd, hnored, happ, htls, hhttps, hl, RedirectRequest,
      StatusMovedPermanently]

/-- C23, as the code has it, for the plaintext `GET /page?id=1` with Host
`a.example:8080` and application 7 requiring HTTPS. -/
theorem plaintext_request_upgraded_to_https_witness :
    (":8443" = ":443" →
      handlerFront [] (fun name => if name = "a.example" then some app7HTTPS else none) ":8443"
          { pageRequest with Host := "a.example:8080" }
        = Front.ended [Call.Redirect
            (if ({ pageRequest with Host := "a.example:8080" } : Request).RawQuery.length > 0
              then "https://" ++ "a.example"
                ++ ({ pageRequest with Host := "a.example:8080" } : Request).URLPath ++ "?"
                ++ ({ pageRequest with Host := "a.example:8080" } : Request).RawQuery
              else "https://" ++ "a.example"
                ++ ({ pageRequest with Host := "a.example:8080" } : Request).URLPath) 301]) ∧
    (":8443" ≠ ":443" →
      handlerFront [] (fun name => if name = "a.example" then some app7HTTPS else none) ":8443"
          { pageRequest with Host := "a.example:8080" }
        = Front.ended [Call.Redirect
            (if ({ pageRequest with Host := "a.example:8080" } : Request).RawQuery.length > 0
              then "https://" ++ "a.example" ++ ":8443"
                ++ ({ pageRequest with Host := "a.example:8080" } : Request).URLPath ++ "?"
                ++ ({ pageRequest with Host := "a.example:8080" } : Request).RawQuery
              else "https://" ++ "a.example" ++ ":8443"
                ++ ({ pageRequest with Host := "a.example:8080" } : Request).URLPath) 301]) :=
  plaintext_request_upgraded_to_https [] (fun name => if name = "a.example" then some app7HTTPS
    else none) ":8443" { pageRequest with Host := "a.example:8080" } "a.example" "8080" app7HTTPS
    (by decide) (by decide) (Or.inr (by decide)) (by simp [GetDomainByName]) (by decide) rfl rfl

/-- C23 fails as stated: the plaintext `GET /page?id=1` for `a.example`, whose
application has `RedirectHTTPS`, with `ListenHTTPS` `:443`, is answered 301 with
Location `https://a.example/page?id=1`, not `https://a.example/page`. -/
theorem https_upgrade_keeps_query :
    pageRequest.TLS = false ∧ pageRequest.Host = "a.example" ∧
    pageRequest.URLPath = "/page" ∧
    handlerFront [] (fun name => if name = "a.example" then some app7HTTPS else none) ":443"
        pageRequest
      = Front.ended [Call.Redirect "https://a.example/page?id=1" 301] ∧
    "https://a.example/page?id=1" ≠ "https://" ++ "a.example" ++ "/page" := by
  decide

/-! ## The client address -/

theorem stringsSplitAux_ne_nil (sep : List Char) (skip : Nat) (cur s : List Char) :
    stringsSplitAux sep skip cur s ≠ [] := by
  induction s generalizing skip cur with
  | nil => cases skip <;> simp [stringsSplitAux]
  | cons c cs ih =>
    cases skip with
    | zero =>
      simp only [stringsSplitAux]
      split
      · simp
      · exact ih _ _
    | succ n =>
      simp only [stringsSplitAux]
      exact ih _ _

theorem getElem?_length_sub_one {α : Type} (l : List α) :
    l[l.length - 1]? = l.getLast? := by
  rw [List.getLast?_eq_getElem?]

theorem splitAux_nil (cur : List Char) :
    stringsSplitAux [',', ' '] 0 cur [] = [⟨cur.reverse⟩] := by
  simp [stringsSplitAux]

theorem splitAux_sep (cur rest : List Char) :
    stringsSplitAux [',', ' '] 0 cur (',' :: ' ' :: rest)
      = ⟨cur.reverse⟩ :: stringsSplitAux [',', ' '] 0 [] rest := by
  simp [stringsSplitAux]

theorem splitAux_char (cur : List Char) (c : Char) (cs : List Char)
    (h : ¬ ([',', ' '] : List Char).isPrefixOf (c :: cs) = true) :
    stringsSplitAux [',', ' '] 0 cur (c :: cs) = stringsSplitAux [',', ' '] 0 (c :: cur) cs := by
  simp only [stringsSplitAux]
  rw [if_neg h]

theorem sep_infix_snoc (l : List Char) (c : Char)
    (h : [',', ' '] <:+: l ++ [c]) :
    [',', ' '] <:+: l ∨ (l.getLast? = some ',' ∧ c = ' ') := by
  obtain ⟨s, t, hst⟩ := h
  rcases List.eq_nil_or_concat t with ht | ⟨t', d, ht⟩
  · subst ht
    right
    have h1 : (s ++ [',']) ++ [' '] = l ++ [c] := by simpa using hst
    have h2 := List.append_inj' h1 rfl
    obtain ⟨hl, hc⟩ := h2
    refine ⟨?_, ?_⟩
    · rw [← hl]; simp
    · simpa using hc.symm
  · subst ht
    left
    have h1 : (s ++ [',', ' '] ++ t') ++ [d] = l ++ [c] := by simpa using hst
    have h2 := List.append_inj' h1 rfl
    exact ⟨s, t', h2.1⟩

/-- The last entry of the split on `", "`: it holds no separator, and it is the
whole text read so far or what follows a separator. -/
theorem splitAux_last :
    ∀ (n : Nat) (s cur : List Char), s.length ≤ n →
      ¬ [',', ' '] <:+: cur.reverse →
      ¬ (cur.head? = some ',' ∧ s.head? = some ' ') →
      ∃ last : List Char,
        (stringsSplitAux [',', ' '] 0 cur s).getLast? = some ⟨last⟩ ∧
        ¬ [',', ' '] <:+: last ∧
        (cur.reverse ++ s = last ∨ ∃ pre, cur.reverse ++ s = pre ++ [',', ' '] ++ last) := by
  intro n
  induction n with
  | zero =>
    intro s cur hlen hcur _
    have hs : s = [] := List.length_eq_zero.mp (Nat.le_zero.mp hlen)
    subst hs
    exact ⟨cur.reverse, by simp [splitAux_nil], hcur, Or.inl (by simp)⟩
  | succ n ih =>
    intro s cur hlen hcur hedge
    cases s with
    | nil => exact ⟨cur.reverse, by simp [splitAux_nil], hcur, Or.inl (by simp)⟩
    | cons c cs =>
      by_cases hp : ([',', ' '] : List Char).isPrefixOf (c :: cs) = true
      · have hform : ∃ rest, c :: cs = ',' :: ' ' :: rest := by
          rw [List.isPrefixOf_iff_prefix] at hp
          obtain ⟨rest, hrest⟩ := hp
          exact ⟨rest, by simpa using hrest.symm⟩
        obtain ⟨rest, hrest⟩ := hform
        rw [hrest, splitAux_sep]
        have hlen' : rest.length ≤ n := by
          have : (c :: cs).length = rest.length + 2 := by rw [hrest]; simp
          simp at this hlen
          omega
        obtain ⟨last, hl, hnl, hdec⟩ := ih rest [] hlen' (by simp) (by simp)
        have hne : stringsSplitAux [',', ' '] 0 [] rest ≠ [] := stringsSplitAux_ne_nil _ _ _ _
        refine ⟨last, ?_, hnl, Or.inr ?_⟩
        · cases hx : stringsSplitAux [',', ' '] 0 [] rest with
          | nil => exact absurd hx hne
          | cons a l =>
            rw [hx] at hl
            rw [List.getLast?_cons_cons]
            exact hl
        · rcases hdec with h | ⟨pre, h⟩
          · refine ⟨cur.reverse, ?_⟩
            simp at h
            simp [h]
          · refine ⟨cur.reverse ++ [',', ' '] ++ pre, ?_⟩
            simp at h
            simp [h]
      · rw [splitAux_char cur c cs hp]
        have hlen' : cs.length ≤ n := by simp at hlen; omega
        have hcur' : ¬ [',', ' '] <:+: (c :: cur).reverse := by
          intro hin
          rw [List.reverse_cons] at hin
          rcases sep_infix_snoc _ _ hin with h | ⟨h1, h2⟩
          · exact hcur h
          · apply hedge
            refine ⟨?_, by simp [h2]⟩
            rw [List.getLast?_reverse] at h1
            exact h1
        have hedge' : ¬ ((c :: cur).head? = some ',' ∧ cs.head? = some ' ') := by
          rintro ⟨h1, h2⟩
          apply hp
          simp at h1
          subst h1
          cases cs with
          | nil => simp at h2
          | cons d ds =>
            simp at h2
            subst h2
            simp [List.isPrefixOf]
        obtain ⟨last, hl, hnl, hdec⟩ := ih cs (c :: cur) hlen' hcur' hedge'
        refine ⟨last, hl, hnl, ?_⟩
        simpa using hdec

/-- The last entry of `strings.Split(s, ", ")` is the part of `s` behind its last
separator: it holds no separator, and `s` is that entry, or a text followed by
the separator and that entry. -/
theorem stringsSplit_last (s : String) :
    ∃ last : String, (stringsSplit s ", ").getLast? = some last ∧
      ¬ (", " : String).data <:+: last.data ∧
      (s = last ∨ ∃ pre : String, s = pre ++ ", " ++ last) := by
  obtain ⟨last, hl, hnl, hdec⟩ := splitAux_last s.data.length s.data [] (le_refl _)
    (by simp) (by simp)
  refine ⟨⟨last⟩, hl, hnl, ?_⟩
  rcases hdec with h | ⟨pre, h⟩
  · left
    apply String.ext
    simpa using h
  · right
    refine ⟨⟨pre⟩, ?_⟩
    apply String.ext
    simpa [String.data_append] using h

/-- C24: `GetClientIP` returns, for REMOTE_ADDR, the host part of the peer
address; for X_FORWARDED_FOR, the last entry of the X-Forwarded-For header
split on `", "`, that is the part of the header behind its last `", "` (the
whole header when it holds none); for X_REAL_IP the X-Real-IP header; for REAL_IP
the Real-IP header; and for the three header-based methods the host part of the
peer address when the selected value is empty. The split list is never empty, so
the index `len(ips)-1` is always in range and the function always returns. -/
theorem getClientIP_by_method (splitHostPort : String → String) (r : Request)
    (app : Application) :
    (app.ClientIPMethod = IPMethod.REMOTE_ADDR →
      GetClientIP splitHostPort r app = some (splitHostPort r.RemoteAddr)) ∧
    (app.ClientIPMethod = IPMethod.X_FORWARDED_FOR →
      ∃ last, (stringsSplit r.XForwardedFor ", ").getLast? = some last ∧
        ¬ (", " : String).data <:+: last.data ∧
        (r.XForwardedFor = last ∨ ∃ pre : String, r.XForwardedFor = pre ++ ", " ++ last) ∧
        GetClientIP splitHostPort r app
          = some (if last.length = 0 then splitHostPort r.RemoteAddr else last)) ∧
    (app.ClientIPMethod = IPMethod.X_REAL_IP →
      GetClientIP splitHostPort r app
        = some (if r.XRealIP.length = 0 then splitHostPort r.RemoteAddr else r.XRealIP)) ∧
    (app.ClientIPMethod = IPMethod.REAL_IP →
      GetClientIP splitHostPort r app
        = some (if r.RealIP.length = 0 then splitHostPort r.RemoteAddr else r.RealIP)) ∧
    stringsSplit r.XForwardedFor ", " ≠ [] ∧
    (GetClientIP splitHostPort r app).isSome = true := by
  have hne : stringsSplit r.XForwardedFor ", " ≠ [] := stringsSplitAux_ne_nil _ _ _ _
  obtain ⟨last, hl, hnosep, hdec⟩ := stringsSplit_last r.XForwardedFor
  have hidx : (stringsSplit r.XForwardedFor ", ")[(stringsSplit r.XForwardedFor ", ").length - 1]?
      = some last := by
    rw [getElem?_length_sub_one, hl]
  refine ⟨?_, ?_, ?_, ?_, hne, ?_⟩
  · intro h; simp [GetClientIP, h]
  · intro h
    exact ⟨last, hl, hnosep, hdec, by simp [GetClientIP, h, hidx]⟩
  · intro h; simp [GetClientIP, h]
  · intro h; simp [GetClientIP, h]
  · cases h : app.ClientIPMethod <;> simp [GetClientIP, h, hidx]

/-- C24 on examples: two forwarded addresses give the last one; an empty
X-Forwarded-For header splits into one empty entry and the peer address is
returned. -/
theorem getClientIP_examples :
    stringsSplit "1.1.1.1, 2.2.2.2" ", " = ["1.1.1.1", "2.2.2.2"] ∧
      stringsSplit "" ", " = [""] ∧
      GetClientIP hostBeforeColon forwardedRequest app7Forwarded = some "2.2.2.2" ∧
      GetClientIP hostBeforeColon { forwardedRequest with XForwardedFor := "" } app7Forwarded
        = some "10.1.1.1" := by
  decide

/-! ## The OAuth gate -/

/-- The OAuth gate on a request whose session holds no userid: the handler
returns in every case; userid and access_token are written exactly when the
session holds the state of the request and the cache holds a non-empty UserID for
the stored value. -/
theorem oauthGate_without_userid (hash : String → String)
    (authConfig : AuthConfig) (listenHTTPS : String) (urlString : Request → String)
    (session : SessionValues) (cache : OAuthCache) (r : Request) (app : Application)
    (domainStr srcIP ua : String)
    (hreq : app.OAuthRequired = true) (hen : authConfig.Enabled = true)
    (huser : session "userid" = none) (hhash : ∀ s, hash s ≠ "userid") :
    ∃ res, oauthGate hash authConfig listenHTTPS urlString session cache r app domainStr
        srcIP ua = some res ∧
      res.ended = true ∧ res.authHeaders = none ∧
      (∀ stored oauthState,
        session (hash (srcIP ++ oauthURL listenHTTPS urlString r domainStr ++ ua))
          = some stored →
        cache stored = some oauthState → oauthState.UserID ≠ "" →
        res.calls = [Call.SessionSave app.SessionSeconds,
                     Call.Redirect oauthState.CallbackURL 307] ∧
          res.session "userid" = some oauthState.UserID ∧
          res.session "access_token" = some oauthState.AccessToken) ∧
      ((session (hash (srcIP ++ oauthURL listenHTTPS urlString r domainStr ++ ua)) = none ∨
        (∃ stored,
          session (hash (srcIP ++ oauthURL listenHTTPS urlString r domainStr ++ ua))
            = some stored ∧
          (cache stored = none ∨
            ∃ oauthState, cache stored = some oauthState ∧ oauthState.UserID = ""))) →
        res.session "userid" = none) := by
  simp only [oauthGate, hreq, hen, huser, Bool.and_self, if_true]
  cases hs : session (hash (srcIP ++ oauthURL listenHTTPS urlString r domainStr ++ ua)) with
  | none =>
    have hne : "userid" ≠ hash (srcIP ++ oauthURL listenHTTPS urlString r domainStr ++ ua) :=
      fun e => hhash _ e.symm
    cases he : getOAuthEntrance authConfig
        (hash (srcIP ++ oauthURL listenHTTPS urlString r domainStr ++ ua)) with
    | error err => simp [huser]
    | ok entranceURL => simp [huser, Function.update_noteq hne]
  | some stored =>
    cases hc : cache stored with
    | none =>
      simp only [hc]
      refine ⟨_, rfl, rfl, rfl, ?_, fun _ => huser⟩
      intro s1 st h1 h2
      cases h1
      rw [hc] at h2
      cases h2
    | some oauthState =>
      simp only [hc]
      by_cases hu : oauthState.UserID = ""
      · simp only [hu, if_true]
        cases he : getOAuthEntrance authConfig stored with
        | error err =>
          refine ⟨_, rfl, rfl, rfl, ?_, fun _ => by simp⟩
          intro s1 st h1 h2 h3
          cases h1
          rw [hc] at h2
          cases h2
          exact absurd hu h3
        | ok entranceURL =>
          refine ⟨_, rfl, rfl, rfl, ?_, fun _ => by simp⟩
          intro s1 st h1 h2 h3
          cases h1
          rw [hc] at h2
          cases h2
          exact absurd hu h3
      · simp only [hu, if_false]
        refine ⟨_, rfl, rfl, rfl, ?_, ?_⟩
        · intro s1 st h1 h2 _
          cases h1
          rw [hc] at h2
          cases h2
          simp [StatusTemporaryRedirect]
        · rintro (h | ⟨s1, h1, h2 | ⟨st, h2, h3⟩⟩)
          · cases h
          · cases h1
            rw [hc] at h2
            cases h2
          · cases h1
            rw [hc] at h2
            cases h2
            exact absurd h3 hu

/-- C25, as the code has it: in the OAuth gate (application requires OAuth,
authentication enabled). For a request whose session holds no userid, the gate
writes userid and access_token into the session, saves it with
`MaxAge = app.SessionSeconds` and redirects (307) to the stored CallbackURL
exactly when the session holds the state of the request and `OAuthCache` holds an
entry with a non-empty UserID for the stored value; in every other case the
session holds no userid afterwards; and in all these cases the handler returns,
the request is not forwarded. For a request whose session holds a userid, the
state plays no part: with an access_token in the session the gate makes no call,
changes neither session nor cache, sets `X-Auth-Token` and `X-Auth-User` and the
request goes on to the backend; without one, the type assertion on the nil
access_token panics. -/
theorem oauth_commit_needs_session_and_cache_state (hash : String → String)
    (authConfig : AuthConfig) (listenHTTPS : String) (urlString : Request → String)
    (session : SessionValues) (cache : OAuthCache) (r : Request) (app : Application)
    (domainStr srcIP ua : String)
    (hreq : app.OAuthRequired = true) (hen : authConfig.Enabled = true)
    (hhash : ∀ s, hash s ≠ "userid") :
    (session "userid" = none →
      ∃ res, oauthGate hash authConfig listenHTTPS urlString session cache r app domainStr
          srcIP ua = some res ∧
        res.ended = true ∧ res.authHeaders = none ∧
        (∀ stored oauthState,
          session (hash (srcIP ++ oauthURL listenHTTPS urlString r domainStr ++ ua))
            = some stored →
          cache stored = some oauthState → oauthState.UserID ≠ "" →
          res.calls = [Call.SessionSave app.SessionSeconds,
                       Call.Redirect oauthState.CallbackURL 307] ∧
            res.session "userid" = some oauthState.UserID ∧
            res.session "access_token" = some oauthState.AccessToken) ∧
        ((session (hash (srcIP ++ oauthURL listenHTTPS urlString r domainStr ++ ua)) = none ∨
          (∃ stored,
            session (hash (srcIP ++ oauthURL listenHTTPS urlString r domainStr ++ ua))
              = some stored ∧
            (cache stored = none ∨
              ∃ oauthState, cache stored = some oauthState ∧ oauthState.UserID = ""))) →
          res.session "userid" = none)) ∧
    (∀ username accessToken, session "userid" = some username →
      session "access_token" = some accessToken →
      oauthGate hash authConfig listenHTTPS urlString session cache r app domainStr srcIP ua
        = some { calls := [], session := session, cache := cache, ended := false,
                 authHeaders := some (accessToken, username) }) ∧
    (∀ username, session "userid" = some username → session "access_token" = none →
      oauthGate hash authConfig listenHTTPS urlString session cache r app domainStr srcIP ua
        = none) := by
  refine ⟨fun huser => oauthGate_without_userid hash authConfig listenHTTPS urlString session
    cache r app domainStr srcIP ua hreq hen huser hhash, ?_, ?_⟩
  · intro username accessToken hu ha
    simp [oauthGate, hreq, hen, hu, ha]
  · intro username hu ha
    simp [oauthGate, hreq, hen, hu, ha]

/-- C25, as the code has it: a request whose session holds the state and whose
cache entry holds the user `alice` gets userid and access_token committed and is
sent back to the CallbackURL; the request of a logged-in user is forwarded. -/
theorem oauth_commit_needs_session_and_cache_state_witness :
    (∃ res, oauthGate (fun s => "#" ++ s) ldapConfig ":443" demoURLString
        (fun key => if key = "#1.2.3.4http://a.example/page?id=1curl/8.0"
          then some "#1.2.3.4http://a.example/page?id=1curl/8.0" else none)
        (fun state => if state = "#1.2.3.4http://a.example/page?id=1curl/8.0"
          then some { CallbackURL := "http://a.example/page?id=1", UserID := "alice",
                      AccessToken := "token-1" } else none)
        pageRequest app7OAuth "a.example" "1.2.3.4" "curl/8.0" = some res ∧
      res.ended = true ∧ res.authHeaders = none ∧
      res.calls = [Call.SessionSave 3600, Call.Redirect "http://a.example/page?id=1" 307] ∧
      res.session "userid" = some "alice" ∧ res.session "access_token" = some "token-1") ∧
    oauthGate (fun s => "#" ++ s) ldapConfig ":443" demoURLString loggedInSession noCache
        pageRequest app7OAuth "a.example" "1.2.3.4" "curl/8.0"
      = some { calls := [], session := loggedInSession, cache := noCache, ended := false,
               authHeaders := some ("token-1", "alice") } := by
  have hhash : ∀ s : String, (fun s => "#" ++ s) s ≠ "userid" := fun s h => by
    have hd := congrArg String.data h
    simp at hd
  obtain ⟨res, hres, hended, hheaders, hcommit, _⟩ :=
    (oauth_commit_needs_session_and_cache_state (fun s => "#" ++ s) ldapConfig ":443"
      demoURLString
      (fun key => if key = "#1.2.3.4http://a.example/page?id=1curl/8.0"
        then some "#1.2.3.4http://a.example/page?id=1curl/8.0" else none)
      (fun state => if state = "#1.2.3.4http://a.example/page?id=1curl/8.0"
        then some { CallbackURL := "http://a.example/page?id=1", UserID := "alice",
                    AccessToken := "token-1" } else none)
      pageRequest app7OAuth "a.example" "1.2.3.4" "curl/8.0" rfl rfl hhash).1 (by decide)
  exact ⟨⟨res, hres, hended, hheaders,
    hcommit "#1.2.3.4http://a.example/page?id=1curl/8.0"
      { CallbackURL := "http://a.example/page?id=1", UserID := "alice",
        AccessToken := "token-1" } (by decide) (by decide) (by decide)⟩,
    (oauth_commit_needs_session_and_cache_state (fun s => "#" ++ s) ldapConfig ":443"
      demoURLString loggedInSession noCache pageRequest app7OAuth "a.example" "1.2.3.4"
      "curl/8.0" rfl rfl hhash).2.1 "alice" "token-1" (by decide) (by decide)⟩

/-- C25 fails as stated: the session of a logged-in user holds userid and
access_token and no state entry, and the OAuth cache is empty; the gate makes no
call, sets `X-Auth-Token` and `X-Auth-User`, and the request goes on to the
backend. -/
theorem logged_in_request_forwarded_without_state :
    loggedInSession ("#" ++ ("1.2.3.4" ++ oauthURL ":443" demoURLString pageRequest "a.example"
      ++ "curl/8.0")) = none ∧
    (oauthGate (fun s => "#" ++ s) ldapConfig ":443" demoURLString loggedInSession noCache
        pageRequest app7OAuth "a.example" "1.2.3.4" "curl/8.0").map
        (fun res => (res.calls, res.ended, res.authHeaders))
      = some ([], false, some ("token-1", "alice")) := by
  decide

/-- C26 fails on the code: the request `GET /page?id=1` received over TLS for
`a.example`, with no userid and no state in the session, is answered 307 to the
entrance of the provider, but the URL hashed into the state and cached as
CallbackURL is `https://a.example/page`, without the query string (the hash is
taken as the identity here, to show what is hashed). The same request received
in plaintext has the query string in both. An unsupported provider gets the
error text written, and nothing is cached. -/
theorem tls_callback_url_drops_query :
    (oauthGate id ldapConfig ":443" demoURLString noSession noCache tlsPageRequest app7OAuth
        "a.example" "1.2.3.4" "curl/8.0").map
        (fun res => (res.calls, res.cache "1.2.3.4https://a.example/pagecurl/8.0", res.ended))
      = some ([Call.SessionSave 300,
               Call.Redirect "/ldap/login?state=1.2.3.4https://a.example/pagecurl/8.0" 307],
          some { CallbackURL := "https://a.example/page", UserID := "" }, true) ∧
    (oauthGate id ldapConfig ":443" demoURLString noSession noCache pageRequest app7OAuth
        "a.example" "1.2.3.4" "curl/8.0").map
        (fun res => (res.calls, res.cache "1.2.3.4http://a.example/page?id=1curl/8.0",
          res.ended))
      = some ([Call.SessionSave 300,
               Call.Redirect "/ldap/login?state=1.2.3.4http://a.example/page?id=1curl/8.0" 307],
          some { CallbackURL := "http://a.example/page?id=1", UserID := "" }, true) ∧
    (oauthGate id { Enabled := true, Provider := "github" } ":443" demoURLString noSession
        noCache tlsPageRequest app7OAuth "a.example" "1.2.3.4" "curl/8.0").map
        (fun res => (res.calls, res.cache "1.2.3.4https://a.example/pagecurl/8.0", res.ended))
      = some ([Call.Write "the OAuth provider is not supported, please check settings"],
          none, true) := by
  decide

/-! ## The domains and their map -/

/-- C27 fails on the code: `old.example` (ID 1) is loaded by `LoadDomains`, slice
and map consistent; `UpdateDomain` then renames it to `new.example`. The slice
holds `new.example` only; the map has the new entry and still the entry of
`old.example`, so its keys are no longer the names of the slice. Adding a domain
(ID 0) and `DeleteDomainsByApp` leave the two consistent on these names. -/
theorem rename_leaves_stale_map_entry :
    consistentAt oneDomainState "old.example" = true ∧
    consistentAt oneDomainState "new.example" = true ∧
    (UpdateDomain (fun _ => none) 2 oneDomainState app7 1 "new.example" 0 false "").map
        (fun res => (res.1.Domains.map (fun d => d.Name),
          (res.1.DomainsMap "old.example").isSome, (res.1.DomainsMap "new.example").isSome,
          consistentAt res.1 "old.example", consistentAt res.1 "new.example"))
      = some (["new.example"], true, true, false, true) ∧
    (UpdateDomain (fun _ => none) 2 oneDomainState app7 0 "new.example" 0 false "").map
        (fun res => (res.1.Domains.map (fun d => d.Name),
          consistentAt res.1 "old.example", consistentAt res.1 "new.example"))
      = some (["old.example", "new.example"], true, true) ∧
    (DeleteDomainsByApp oneDomainState oneDomainState.Domains).map
        (fun st => (st.Domains.map (fun d => d.Name), consistentAt st "old.example"))
      = some ([], true) := by
  decide

/-! ## The response check -/

/-- C28 fails on the code: for a response with `Content-Encoding: gzip` whose
body is not gzip data, and for one whose body is empty, `gzip.NewReader` returns
an error and a nil reader, the error is dropped, and `IsResponseHitPolicy` reads
from the nil reader: it panics instead of returning a verdict. The same response
without the header is checked and passes. -/
theorem invalid_gzip_body_panics :
    IsResponseHitPolicy notGzip (fun _ _ _ _ _ => none) badGzipResponse 7 = none ∧
    IsResponseHitPolicy notGzip (fun _ _ _ _ _ => none) { badGzipResponse with Body := "" } 7
      = none ∧
    IsResponseHitPolicy notGzip (fun _ _ _ _ _ => none)
        { badGzipResponse with Header := [], ContentEncoding := "" } 7
      = some (none, { badGzipResponse with Header := [], ContentEncoding := "" }) := by
  decide

/-! ## The synchronisation settings -/

/-- C29, as the code has it: when `Settings` holds the entry of the counter (as
it does on a primary node after `LoadSettings`), `UpdateBackendLastModified` and
`UpdateFirewallLastModified` return, and the new value of the counter is the
reading of the clock, whatever the value before; so the counter has not
decreased exactly when the clock does not read less than the old value. -/
theorem lastModified_set_to_clock (now : Int) (st : SettingsState)
    (hb : (GetSettingByName st.Settings "backend_last_modified").isSome = true)
    (hf : (GetSettingByName st.Settings "firewall_last_modified").isSome = true) :
    (∃ st1, UpdateBackendLastModified now st = some st1 ∧
      st1.BackendLastModified = now ∧
      st1.FirewallLastModified = st.FirewallLastModified ∧
      (st.BackendLastModified ≤ st1.BackendLastModified ↔ st.BackendLastModified ≤ now)) ∧
    (∃ st1, UpdateFirewallLastModified now st = some st1 ∧
      st1.FirewallLastModified = now ∧
      st1.BackendLastModified = st.BackendLastModified ∧
      (st.FirewallLastModified ≤ st1.FirewallLastModified ↔ st.FirewallLastModified ≤ now)) := by
  constructor
  · cases h : GetSettingByName st.Settings "backend_last_modified" with
    | none => simp [h] at hb
    | some s =>
      refine ⟨{ st with
        BackendLastModified := now,
        Settings := (setSettingValue "backend_last_modified" (SettingValue.int64 now)
          st.Settings) }, ?_, rfl, rfl, Iff.rfl⟩
      simp only [UpdateBackendLastModified, h]
  · cases h : GetSettingByName st.Settings "firewall_last_modified" with
    | none => simp [h] at hf
    | some s =>
      refine ⟨{ st with
        FirewallLastModified := now,
        Settings := (setSettingValue "firewall_last_modified" (SettingValue.int64 now)
          st.Settings) }, ?_, rfl, rfl, Iff.rfl⟩
      simp only [UpdateFirewallLastModified, h]

/-- C29, as the code has it, on a primary node after `LoadSettings`, the clock
reading 200. -/
theorem lastModified_set_to_clock_witness :
    (∃ st1, UpdateBackendLastModified 200 primaryLoaded = some st1 ∧
      st1.BackendLastModified = 200 ∧
      st1.FirewallLastModified = primaryLoaded.FirewallLastModified ∧
      (primaryLoaded.BackendLastModified ≤ st1.BackendLastModified
        ↔ primaryLoaded.BackendLastModified ≤ 200)) ∧
    (∃ st1, UpdateFirewallLastModified 200 primaryLoaded = some st1 ∧
      st1.FirewallLastModified = 200 ∧
      st1.BackendLastModified = primaryLoaded.BackendLastModified ∧
      (primaryLoaded.FirewallLastModified ≤ st1.FirewallLastModified
        ↔ primaryLoaded.FirewallLastModified ≤ 200)) :=
  lastModified_set_to_clock 200 primaryLoaded (by decide) (by decide)

/-- C29 fails as stated: on a primary node whose counters are 100, a call made
when the clock reads 50 (the clock has been set back) leaves the counter at 50,
less than before. -/
theorem lastModified_decreases_when_clock_set_back :
    primaryLoaded.BackendLastModified = 100 ∧
    primaryLoaded.FirewallLastModified = 100 ∧
    (UpdateBackendLastModified 50 primaryLoaded).map (fun st => st.BackendLastModified)
      = some 50 ∧
    (UpdateFirewallLastModified 50 primaryLoaded).map (fun st => st.FirewallLastModified)
      = some 50 := by
  decide

/-- C30 fails on the code: with `sync_seconds` 600 stored on the primary, and
600 received by a replica, `LoadSettings` leaves `SyncSeconds` at 600
nanoseconds, not `600 * time.Second`; the declared default of the same variable
is `120 * time.Second`, 120000000000 nanoseconds. -/
theorem syncSeconds_loaded_as_nanoseconds :
    initialSettings.SyncSeconds = 120 * Second ∧
    initialSettings.SyncSeconds = 120000000000 ∧
    (LoadSettings true demoSelectIntSetting [] initialSettings).SyncSeconds = 600 ∧
    (LoadSettings false demoSelectIntSetting [("sync_seconds", 600)] initialSettings).SyncSeconds
      = 600 ∧
    (600 : Duration) ≠ 600 * Second := by
  decide

end Janusec
